import Mathlib

/-!
# Asteroids1: a shallow embedding of `main.cpp`

The simulation core of the game (entity factories, per-tick updates, collision
handling, the game-state machine and the key handler) is embedded as pure
functions over an explicit `World`.

* `float` values are modelled by an arbitrary linearly ordered field `α`
  (exact arithmetic); the definitions are computable and can be run at `ℚ`.
* `int` values are `Int`, `std::vector` is `List`, indices are `Nat`.
* The C library is not part of the source: `cosf`, `sinf`, `sqrtf` and `M_PI`
  are taken as a parameter (`MathFns`), and the values returned by `rand()`
  are a stream `Nat → Nat` carried in the world.
-/

namespace Asteroids

/-! ## Data model (main.cpp lines 15-111) -/

/-- The struct `Vector2f`. -/
structure Vector2f (α : Type) where
  x : α
  y : α

/-- The struct `Line`. -/
structure Line (α : Type) where
  p1 : Vector2f α
  p2 : Vector2f α

/-- The constant `N_LINES`. -/
abbrev N_LINES : Nat := 5

/-- The struct `Polygon`: the array `lines[N_LINES]`.  The field `nLines` is
never written nor read by the program and is left out. -/
structure Polygon (α : Type) where
  lines : Fin N_LINES → Line α

/-- The typedef `AsteroidSize` is an `int`. -/
abbrev AsteroidSize := Int

/-- The struct `Asteroid`. -/
structure Asteroid (α : Type) where
  size : AsteroidSize
  position : Vector2f α
  velocity : Vector2f α
  angle : α
  angularVelocity : α
  shape : Polygon α

def ASTEROIDSIZE_SMALL : AsteroidSize := 10
def ASTEROIDSIZE_MEDIUM : AsteroidSize := 30
def ASTEROIDSIZE_LARGE : AsteroidSize := 50
def ASTEROIDVEL_SMALL : Int := 3
def ASTEROIDVEL_MEDIUM : Int := 2
def ASTEROIDVEL_LARGE : Int := 1
def N_INIT_ASTEROIDS : Nat := 10
abbrev N_SHIP_LINES : Nat := 3

/-- The struct `Ship`. -/
structure Ship (α : Type) where
  position : Vector2f α
  velocity : Vector2f α
  speed : α
  thrust : α
  angle : α
  lines : Fin N_SHIP_LINES → Line α
  turnLeft : Bool
  turnRight : Bool
  thrusting : Bool
  shooting : Bool
  cooldown : Int

/-- The struct `Projectile` (also used for explosion particles). -/
structure Projectile (α : Type) where
  position : Vector2f α
  velocity : Vector2f α
  lifeCounter : Int

/-- The constant `static const int PROJECTILE_LIFETIME = 1.5 * 1000`. -/
def PROJECTILE_LIFETIME : Int := 1500
/-- The constant `static const int PROJECTILE_COOLDOWN = 0.05 * 1000`. -/
def PROJECTILE_COOLDOWN : Int := 50
def PROJECTILE_SPEED {α : Type} [LinearOrderedField α] : α := 8
def SHIP_MAXSPEED {α : Type} [LinearOrderedField α] : α := 4
def SHIP_THRUST {α : Type} [LinearOrderedField α] : α := 5 / 100
def SHIP_ANGULARSPEED {α : Type} [LinearOrderedField α] : α := 5 / 100
def WRAPBUFFER_X : Int := 10
def WRAPBUFFER_Y : Int := 10
def WINDOW_WIDTH : Int := 1024
def WINDOW_HEIGHT : Int := 1024

/-- The enum `GameState`. -/
inductive GameState where
  | GameState_Game
  | GameState_Lost
  | GameState_Won
  deriving DecidableEq, Repr

open GameState

/-- The constant `static const double MS_PER_UPDATE = 1000 / 60;`: the quotient
is taken between two `int` literals, so it is the integer quotient. -/
def MS_PER_UPDATE : Int := 1000 / 60

/-- The C library functions and constant used by the program (`cosf`, `sinf`,
`sqrtf`/`sqrt`, `M_PI`); they are not part of the source and are a parameter. -/
structure MathFns (α : Type) where
  cos : α → α
  sin : α → α
  sqrt : α → α
  pi : α

/-- The global variables of the program.  `randSeq` is the sequence of values
that the coming calls of `rand()` return. -/
structure World (α : Type) where
  gRunning : Bool
  gAsteroids : List (Asteroid α)
  gShip : Ship α
  gProjectiles : List (Projectile α)
  gParticles : List (Projectile α)
  gState : GameState
  randSeq : Nat → Nat

section Code

variable {α : Type} [LinearOrderedField α]

/-! ## Geometry (main.cpp lines 776-837) -/

/-- The function `counterClockwise`. -/
def counterClockwise (a b c : Vector2f α) : Bool :=
  decide ((c.y - a.y) * (b.x - a.x) > (b.y - a.y) * (c.x - a.x))

/-- The function `linesIntersect`. -/
def linesIntersect (origin1 origin2 : Vector2f α) (l1 l2 : Line α) : Bool :=
  let modl1 : Line α :=
    { p1 := { x := l1.p1.x + origin1.x, y := l1.p1.y + origin1.y }
      p2 := { x := l1.p2.x + origin1.x, y := l1.p2.y + origin1.y } }
  let modl2 : Line α :=
    { p1 := { x := l2.p1.x + origin2.x, y := l2.p1.y + origin2.y }
      p2 := { x := l2.p2.x + origin2.x, y := l2.p2.y + origin2.y } }
  (counterClockwise modl1.p1 modl2.p1 modl2.p2 !=
     counterClockwise modl1.p2 modl2.p1 modl2.p2) &&
  (counterClockwise modl1.p1 modl1.p2 modl2.p1 !=
     counterClockwise modl1.p1 modl1.p2 modl2.p2)

/-- The function `distance` (`powf(x, 2.0f)` is the square). -/
def distance (m : MathFns α) (p1 p2 : Vector2f α) : α :=
  m.sqrt ((p1.x - p2.x) ^ 2 + (p1.y - p2.y) ^ 2)

/-- The function `wrapPosition`.  As in the source, the two buffer arguments
are ignored and the constants `WRAPBUFFER_X`, `WRAPBUFFER_Y` are used. -/
def wrapPosition (position : Vector2f α) (_bufferX _bufferY : Int) : Vector2f α :=
  let wrapMin : Vector2f α := { x := ((-WRAPBUFFER_X : Int) : α), y := ((-WRAPBUFFER_Y : Int) : α) }
  let wrapMax : Vector2f α :=
    { x := ((WINDOW_WIDTH + WRAPBUFFER_X : Int) : α), y := ((WINDOW_HEIGHT + WRAPBUFFER_Y : Int) : α) }
  let position : Vector2f α :=
    if position.x < wrapMin.x then { position with x := wrapMax.x - 1 } else position
  let position : Vector2f α :=
    if position.x ≥ wrapMax.x then { position with x := wrapMin.x } else position
  let position : Vector2f α :=
    if position.y < wrapMin.y then { position with y := wrapMax.y - 1 } else position
  let position : Vector2f α :=
    if position.y ≥ wrapMax.y then { position with y := wrapMin.y } else position
  position

/-! ## Random numbers (main.cpp lines 760-774) -/

/-- One call of `rand()`: the next value of the sequence and the remaining
sequence.  `rand()` returns a non-negative `int`. -/
def rand (g : Nat → Nat) : Int × (Nat → Nat) :=
  (((g 0 : Nat) : Int), fun n => g (n + 1))

/-- The function `randomDirection`. -/
def randomDirection (g : Nat → Nat) : Int × (Nat → Nat) :=
  let r := rand g
  let random : Int := r.1 % 2
  ((if random = 0 then -1 else 1), r.2)

/-- The function `random` (`rand()` is non-negative and callers pass
`min ≤ max`, so the C remainder is `%`). -/
def random (min max : Int) (g : Nat → Nat) : Int × (Nat → Nat) :=
  let r := rand g
  (r.1 % (max - min + 1) + min, r.2)

/-- The function `randomNormal`. -/
def randomNormal (g : Nat → Nat) : α × (Nat → Nat) :=
  let r := random 0 100000 g
  ((r.1 : α) / 100000, r.2)

/-! ## Entity factories (main.cpp lines 327-435) -/

/-- The function `createAsteroid`; the second component is the random sequence
left after its six calls of `rand()`. -/
def createAsteroid (m : MathFns α) (size : AsteroidSize) (g : Nat → Nat) :
    Asteroid α × (Nat → Nat) :=
  let angle : α := 0
  let d0 := randomDirection g
  let angularVelocity : α := 2 / 100 * (d0.1 : α)
  let maxVel : Int :=
    if size = ASTEROIDSIZE_SMALL then ASTEROIDVEL_SMALL
    else if size = ASTEROIDSIZE_MEDIUM then ASTEROIDVEL_MEDIUM
    else if size = ASTEROIDSIZE_LARGE then ASTEROIDVEL_LARGE
    else 0
  let n : α × (Nat → Nat) := randomNormal d0.2
  let velocityX : α := (maxVel : α) * n.1
  let velocityY : α := m.sqrt ((maxVel : α) ^ 2 - velocityX ^ 2)
  let d1 := randomDirection n.2
  let velocityX : α := velocityX * (d1.1 : α)
  let d2 := randomDirection d1.2
  let velocityY : α := velocityY * (d2.1 : α)
  let r : Int := size
  let theta : α := 2 * m.pi / (N_LINES : α)
  let pentagon : Polygon α :=
    { lines := fun i =>
        { p1 := { x := (r : α) * m.cos (theta * ((((i : Nat) : Int) - 1 : Int) : α) + angle)
                  y := (r : α) * m.sin (theta * ((((i : Nat) : Int) - 1 : Int) : α) + angle) }
          p2 := { x := (r : α) * m.cos (theta * (((i : Nat) : Int) : α))
                  y := (r : α) * m.sin (theta * (((i : Nat) : Int) : α)) } } }
  let px := random 0 WINDOW_WIDTH d2.2
  let py := random 0 WINDOW_HEIGHT px.2
  ({ size := size
     position := { x := (px.1 : α), y := (py.1 : α) }
     velocity := { x := velocityX, y := velocityY }
     angle := angle
     angularVelocity := angularVelocity
     shape := pentagon }, py.2)

/-- The function `createShip`.  The source never assigns `ship.shooting`; its
indeterminate value is the argument `shooting`. -/
def createShip (shooting : Bool) : Ship α :=
  { cooldown := 0
    turnLeft := false
    turnRight := false
    thrusting := false
    shooting := shooting
    speed := 0
    thrust := 5 / 10
    angle := 0
    position := { x := ((WINDOW_WIDTH / 2 : Int) : α), y := ((WINDOW_HEIGHT / 2 : Int) : α) }
    velocity := { x := 0, y := 0 }
    lines := fun i =>
      if i.val = 0 then { p1 := { x := 10, y := 0 }, p2 := { x := -8, y := -5 } }
      else if i.val = 1 then { p1 := { x := -8, y := -5 }, p2 := { x := -8, y := 5 } }
      else { p1 := { x := -8, y := 5 }, p2 := { x := 10, y := 0 } } }

/-- The function `createProjectile`. -/
def createProjectile (m : MathFns α) (position : Vector2f α) (angle speed : α) : Projectile α :=
  { lifeCounter := 0
    position := position
    velocity := { x := m.cos angle * speed, y := m.sin angle * speed } }

/-- The `for` loop of `init`: `k` more large asteroids are created and pushed
onto `gAsteroids`. -/
def initAsteroids (m : MathFns α) : Nat → World α → World α
  | 0, w => w
  | k + 1, w =>
    let a := createAsteroid m ASTEROIDSIZE_LARGE w.randSeq
    initAsteroids m k { w with gAsteroids := w.gAsteroids ++ [a.1], randSeq := a.2 }

/-- The function `init`; `seq` is the `rand()` sequence selected by
`srand((int)time(nullptr))` and `shooting` the indeterminate `shooting` field
of the ship built by `createShip`. -/
def init (m : MathFns α) (seq : Nat → Nat) (shooting : Bool) (w : World α) : World α :=
  let w := { w with randSeq := seq }
  let w := { w with gState := GameState_Game }
  let w := initAsteroids m N_INIT_ASTEROIDS w
  { w with gShip := createShip shooting }

/-! ## Collection mutation and explosions (main.cpp lines 876-1000) -/

/-- The function `explode`: ten `push_back`s onto `gParticles`. -/
def explode (m : MathFns α) (position : Vector2f α) (w : World α) : World α :=
  let nParticles : Nat := 10
  let speed : α := 2
  let step : α := 2 * m.pi / (nParticles : α)
  let particles : List (Projectile α) :=
    (List.range nParticles).map
      (fun (i : Nat) => createProjectile m position (step * (i : α)) speed)
  { w with gParticles := w.gParticles ++ particles }

/-- The function `fireProjectileFromPoint`. -/
def fireProjectileFromPoint (m : MathFns α) (point : Vector2f α) (angle : α) (w : World α) :
    World α :=
  { w with gProjectiles := w.gProjectiles ++ [createProjectile m point angle PROJECTILE_SPEED] }

/-- The function `destroyProjectile` on the vector it is given.  (On an empty
vector the source has undefined behaviour; it is never called on one.) -/
def destroyProjectile (projectileIndex : Nat) (projectiles : List (Projectile α)) :
    List (Projectile α) :=
  let projectiles :=
    if projectileIndex ≠ projectiles.length - 1 then
      match projectiles[projectiles.length - 1]? with
      | some last => projectiles.set projectileIndex last
      | none => projectiles
    else projectiles
  projectiles.dropLast

/-- The function `destroyAsteroid` (it works on the global `gAsteroids`). -/
def destroyAsteroid (asteroidIndex : Nat) (w : World α) : World α :=
  let asteroids := w.gAsteroids
  let asteroids :=
    if asteroidIndex ≠ asteroids.length - 1 then
      match asteroids[asteroids.length - 1]? with
      | some last => asteroids.set asteroidIndex last
      | none => asteroids
    else asteroids
  { w with gAsteroids := asteroids.dropLast }

/-- The function `splitAsteroid`.  (An index out of range is undefined
behaviour in the source; the model then leaves the world alone.) -/
def splitAsteroid (m : MathFns α) (asteroidIndex : Nat) (w : World α) : World α :=
  match w.gAsteroids[asteroidIndex]? with
  | none => w
  | some asteroid =>
    if asteroid.size = ASTEROIDSIZE_SMALL then
      destroyAsteroid asteroidIndex w
    else
      let newSize : AsteroidSize :=
        if asteroid.size = ASTEROIDSIZE_MEDIUM then ASTEROIDSIZE_SMALL
        else if asteroid.size = ASTEROIDSIZE_LARGE then ASTEROIDSIZE_MEDIUM
        else asteroid.size
      let c1 := createAsteroid m newSize w.randSeq
      let c2 := createAsteroid m newSize c1.2
      let newAsteroid1 : Asteroid α := { c1.1 with position := asteroid.position }
      let newAsteroid2 : Asteroid α := { c2.1 with position := asteroid.position }
      let w := { w with randSeq := c2.2 }
      let w := { w with gAsteroids := w.gAsteroids ++ [newAsteroid1] }
      let w := { w with gAsteroids := w.gAsteroids ++ [newAsteroid2] }
      destroyAsteroid asteroidIndex w

/-! ## Per-tick updates (main.cpp lines 463-622) -/

/-- The function `updateAsteroid`. -/
def updateAsteroid (m : MathFns α) (asteroid : Asteroid α) : Asteroid α :=
  let position : Vector2f α :=
    { x := asteroid.position.x + asteroid.velocity.x
      y := asteroid.position.y + asteroid.velocity.y }
  let angle : α := asteroid.angle + asteroid.angularVelocity
  let position := wrapPosition position WRAPBUFFER_X WRAPBUFFER_Y
  let r : α := distance m { x := 0, y := 0 } (asteroid.shape.lines ⟨0, by decide⟩).p1
  let theta : α := 2 * m.pi / (N_LINES : α)
  { asteroid with
    position := position
    angle := angle
    shape :=
      { lines := fun i =>
          { p1 := { x := r * m.cos (theta * ((((i : Nat) : Int) - 1 : Int) : α) + angle)
                    y := r * m.sin (theta * ((((i : Nat) : Int) - 1 : Int) : α) + angle) }
            p2 := { x := r * m.cos (theta * (((i : Nat) : Int) : α) + angle)
                    y := r * m.sin (theta * (((i : Nat) : Int) : α) + angle) } } } }

/-- The function `updateAsteroids`. -/
def updateAsteroids (m : MathFns α) (asteroids : List (Asteroid α)) : List (Asteroid α) :=
  asteroids.map (updateAsteroid m)

/-- The function `updateShip`, applied to the global ship `gShip` (its only
call sites); `fireProjectileFromPoint` pushes onto `gProjectiles`. -/
def updateShip (m : MathFns α) (w : World α) : World α :=
  let ship := w.gShip
  let ship : Ship α :=
    { ship with position := { x := ship.position.x + ship.velocity.x
                              y := ship.position.y + ship.velocity.y } }
  let ship : Ship α :=
    { ship with position := wrapPosition ship.position WRAPBUFFER_X WRAPBUFFER_Y }
  let angle : α := 0
  let angle : α := if ship.turnLeft then angle - SHIP_ANGULARSPEED else angle
  let angle : α := if ship.turnRight then angle + SHIP_ANGULARSPEED else angle
  let ship : Ship α :=
    if ship.thrusting then
      let ship : Ship α :=
        if ship.speed < SHIP_MAXSPEED then { ship with speed := ship.speed + SHIP_THRUST }
        else ship
      let ship : Ship α :=
        if ship.speed > SHIP_MAXSPEED then { ship with speed := SHIP_MAXSPEED } else ship
      { ship with velocity := { x := m.cos ship.angle * ship.speed
                                y := m.sin ship.angle * ship.speed } }
    else
      let ship : Ship α :=
        { ship with velocity := { x := ship.velocity.x * (99 / 100)
                                  y := ship.velocity.y * (99 / 100) } }
      let ship : Ship α := { ship with speed := ship.speed * (9 / 10) }
      let ship : Ship α :=
        if abs ship.velocity.x < 5 / 1000 then
          { ship with velocity := { ship.velocity with x := 0 } }
        else ship
      let ship : Ship α :=
        if abs ship.velocity.y < 5 / 1000 then
          { ship with velocity := { ship.velocity with y := 0 } }
        else ship
      ship
  let ship : Ship α := { ship with angle := ship.angle + angle }
  let w : World α :=
    if ship.shooting then
      if ship.cooldown = 0 then fireProjectileFromPoint m ship.position ship.angle w else w
    else w
  let ship : Ship α :=
    if ship.shooting then { ship with cooldown := ship.cooldown + MS_PER_UPDATE }
    else { ship with cooldown := 0 }
  let ship : Ship α :=
    if ship.cooldown ≥ PROJECTILE_COOLDOWN then { ship with cooldown := 0 } else ship
  let ship : Ship α :=
    { ship with
      lines := fun i =>
        let p1 := (ship.lines i).p1
        let p2 := (ship.lines i).p2
        { p1 := { x := p1.x * m.cos angle - p1.y * m.sin angle
                  y := p1.x * m.sin angle + p1.y * m.cos angle }
          p2 := { x := p2.x * m.cos angle - p2.y * m.sin angle
                  y := p2.x * m.sin angle + p2.y * m.cos angle } } }
  { w with gShip := ship }

/-- The function `updateProjectile`. -/
def updateProjectile (projectile : Projectile α) : Projectile α :=
  let position : Vector2f α :=
    { x := projectile.position.x + projectile.velocity.x
      y := projectile.position.y + projectile.velocity.y }
  { projectile with
    position := wrapPosition position WRAPBUFFER_X WRAPBUFFER_Y
    lifeCounter := projectile.lifeCounter + MS_PER_UPDATE }

/-- The `for` loop of `updateProjectiles`, from index `projectileIndex` on.
The first argument bounds the iterations that are left: every iteration
increases the index and never lengthens the vector, so `size` iterations
always suffice (`updateProjectilesLoop_fuel`). -/
def updateProjectilesLoop (lifeTime : Int) :
    Nat → Nat → List (Projectile α) → List (Projectile α)
  | 0, _, projectiles => projectiles
  | fuel + 1, projectileIndex, projectiles =>
    match projectiles[projectileIndex]? with
    | none => projectiles
    | some projectile =>
      let projectile := updateProjectile projectile
      let projectiles := projectiles.set projectileIndex projectile
      let projectiles :=
        if projectile.lifeCounter ≥ lifeTime then destroyProjectile projectileIndex projectiles
        else projectiles
      updateProjectilesLoop lifeTime fuel (projectileIndex + 1) projectiles

/-- The function `updateProjectiles`. -/
def updateProjectiles (projectiles : List (Projectile α)) (lifeTime : Int) :
    List (Projectile α) :=
  updateProjectilesLoop lifeTime projectiles.length 0 projectiles

/-! ## Collisions (main.cpp lines 839-874, 937-988) -/

/-- The function `checkCollision`: the two nested loops over the asteroid's
and the ship's lines, acting on the globals `gParticles` and `gState`. -/
def checkCollision (m : MathFns α) (ship : Ship α) (asteroid : Asteroid α) (w : World α) :
    World α :=
  (List.finRange N_LINES).foldl (fun w aLineIndex =>
    let currentAsteroidLine := asteroid.shape.lines aLineIndex
    (List.finRange N_SHIP_LINES).foldl (fun w sLineIndex =>
      let currentShipLine := ship.lines sLineIndex
      if linesIntersect ship.position asteroid.position currentShipLine currentAsteroidLine then
        { explode m ship.position w with gState := GameState_Lost }
      else w) w) w

/-- The function `checkCollisions`. -/
def checkCollisions (m : MathFns α) (ship : Ship α) (asteroids : List (Asteroid α))
    (w : World α) : World α :=
  asteroids.foldl (fun w currentAsteroid => checkCollision m ship currentAsteroid w) w

/-- The innermost loop of `checkProjectileCollisions`: the index of the first
projectile (counting from `projectileIndex`) whose path crosses `asteroidLine`. -/
def firstProjectileHit (asteroid : Asteroid α) (asteroidLine : Line α) :
    List (Projectile α) → Nat → Option Nat
  | [], _ => none
  | projectile :: rest, projectileIndex =>
    let lastPoint : Vector2f α :=
      { x := projectile.position.x - projectile.velocity.x
        y := projectile.position.y - projectile.velocity.y }
    let collisionLine : Line α := { p1 := projectile.position, p2 := lastPoint }
    if linesIntersect ({ x := 0, y := 0 } : Vector2f α) asteroid.position collisionLine
        asteroidLine then
      some projectileIndex
    else firstProjectileHit asteroid asteroidLine rest (projectileIndex + 1)

/-- The middle loop of `checkProjectileCollisions`: the first line of the
asteroid (in index order) that some projectile crosses, with that projectile. -/
def firstLineHit (projectiles : List (Projectile α)) (asteroid : Asteroid α) : Option Nat :=
  (List.finRange N_LINES).findSome? (fun aLineIndex =>
    firstProjectileHit asteroid (asteroid.shape.lines aLineIndex) projectiles 0)

/-- The outer loop of `checkProjectileCollisions`: the first asteroid (counting
from `asteroidIndex`) that is hit, as (asteroid index, asteroid, projectile index). -/
def firstAsteroidHit (projectiles : List (Projectile α)) :
    List (Asteroid α) → Nat → Option (Nat × Asteroid α × Nat)
  | [], _ => none
  | asteroid :: rest, asteroidIndex =>
    match firstLineHit projectiles asteroid with
    | some projectileIndex => some (asteroidIndex, asteroid, projectileIndex)
    | none => firstAsteroidHit projectiles rest (asteroidIndex + 1)

/-- The function `checkProjectileCollisions`.  The three nested loops run over
copies of the vectors and leave through the `break`s at the first hit, so the
body runs at most once, for the first hit in loop order. -/
def checkProjectileCollisions (m : MathFns α) (projectiles : List (Projectile α))
    (asteroids : List (Asteroid α)) (w : World α) : World α :=
  match firstAsteroidHit projectiles asteroids 0 with
  | none => w
  | some (asteroidIndex, asteroid, projectileIndex) =>
    let w := explode m asteroid.position w
    let w := splitAsteroid m asteroidIndex w
    { w with gProjectiles := destroyProjectile projectileIndex w.gProjectiles }

/-! ## Game state machine and driver (main.cpp lines 209-314, 437-461, 1027-1035) -/

/-- The function `checkWin` (the line written to `std::cout` is not modelled). -/
def checkWin (w : World α) : World α :=
  if w.gAsteroids.length = 0 then { w with gState := GameState_Won } else w

/-- The first three statements of `update`: projectiles, particles (lifetime
`0.5 * 1000`) and asteroids are updated whatever the game state is. -/
def updateEntities (m : MathFns α) (w : World α) : World α :=
  let w := { w with gProjectiles := updateProjectiles w.gProjectiles PROJECTILE_LIFETIME }
  let w := { w with gParticles := updateProjectiles w.gParticles 500 }
  { w with gAsteroids := updateAsteroids m w.gAsteroids }

/-- The part of `update` before its last statement: the three unconditional
updates and the `switch` on `gState`. -/
def updateBody (m : MathFns α) (w : World α) : World α :=
  let w := updateEntities m w
  match w.gState with
  | GameState_Game =>
    let w := updateShip m w
    let w := checkCollisions m w.gShip w.gAsteroids w
    checkWin w
  | GameState_Lost => w
  | GameState_Won => updateShip m w

/-- The function `update`. -/
def update (m : MathFns α) (w : World α) : World α :=
  let w := updateBody m w
  checkProjectileCollisions m w.gProjectiles w.gAsteroids w

/-- The keys the event loop of `main` distinguishes. -/
inductive Key where
  | SDLK_LEFT
  | SDLK_RIGHT
  | SDLK_UP
  | SDLK_SPACE
  | SDLK_RETURN
  | other
  deriving DecidableEq, Repr

/-- The SDL events the event loop of `main` distinguishes. -/
inductive Event where
  | SDL_QUIT
  | SDL_KEYDOWN (key : Key)
  | SDL_KEYUP (key : Key)
  | other
  deriving DecidableEq, Repr

/-- What the environment decides when `init` runs: the `rand()` sequence that
`srand(time)` selects and the indeterminate `shooting` field of the new ship. -/
structure Env where
  seq : Nat → Nat
  shooting : Bool

/-- The body of the event loop of `main` for one polled event. -/
def handleEvent (m : MathFns α) (env : Env) (event : Event) (w : World α) : World α :=
  match event with
  | Event.SDL_QUIT => { w with gRunning := false }
  | Event.SDL_KEYDOWN Key.SDLK_LEFT => { w with gShip := { w.gShip with turnLeft := true } }
  | Event.SDL_KEYDOWN Key.SDLK_RIGHT => { w with gShip := { w.gShip with turnRight := true } }
  | Event.SDL_KEYDOWN Key.SDLK_UP => { w with gShip := { w.gShip with thrusting := true } }
  | Event.SDL_KEYDOWN Key.SDLK_SPACE => { w with gShip := { w.gShip with shooting := true } }
  | Event.SDL_KEYDOWN Key.SDLK_RETURN =>
    if w.gState = GameState_Lost ∨ w.gState = GameState_Won then
      let w := { w with gAsteroids := [] }
      let w := { w with gParticles := [] }
      let w := { w with gProjectiles := [] }
      init m env.seq env.shooting w
    else w
  | Event.SDL_KEYDOWN Key.other => w
  | Event.SDL_KEYUP Key.SDLK_LEFT => { w with gShip := { w.gShip with turnLeft := false } }
  | Event.SDL_KEYUP Key.SDLK_RIGHT => { w with gShip := { w.gShip with turnRight := false } }
  | Event.SDL_KEYUP Key.SDLK_UP => { w with gShip := { w.gShip with thrusting := false } }
  | Event.SDL_KEYUP Key.SDLK_SPACE => { w with gShip := { w.gShip with shooting := false } }
  | Event.SDL_KEYUP _ => w
  | Event.other => w

/-! ## Notions used to state the properties -/

/-- The point `P` lies on the segment `l` translated by the origin `o`. -/
def OnSegment (o : Vector2f α) (l : Line α) (P : Vector2f α) : Prop :=
  ∃ t : α, 0 ≤ t ∧ t ≤ 1 ∧
    P.x = (l.p1.x + o.x) + t * ((l.p2.x + o.x) - (l.p1.x + o.x)) ∧
    P.y = (l.p1.y + o.y) + t * ((l.p2.y + o.y) - (l.p1.y + o.y))

/-- Some edge of the ship and some edge of `asteroid` satisfy `linesIntersect`
with the ship's and the asteroid's positions as origins. -/
def HitPair (ship : Ship α) (asteroid : Asteroid α) : Prop :=
  ∃ (aLineIndex : Fin N_LINES) (sLineIndex : Fin N_SHIP_LINES),
    linesIntersect ship.position asteroid.position (ship.lines sLineIndex)
      (asteroid.shape.lines aLineIndex) = true

/-- Some (ship edge, asteroid edge) pair over all asteroids intersects. -/
def ShipHit (ship : Ship α) (asteroids : List (Asteroid α)) : Prop :=
  ∃ asteroid ∈ asteroids, HitPair ship asteroid

/-- The globals when `main` starts: static storage is zero-initialised, the
vectors are empty and `gState` is the first enumerator. -/
def zeroWorld : World α :=
  { gRunning := false
    gAsteroids := []
    gShip :=
      { position := { x := 0, y := 0 }
        velocity := { x := 0, y := 0 }
        speed := 0
        thrust := 0
        angle := 0
        lines := fun _ => { p1 := { x := 0, y := 0 }, p2 := { x := 0, y := 0 } }
        turnLeft := false
        turnRight := false
        thrusting := false
        shooting := false
        cooldown := 0 }
    gProjectiles := []
    gParticles := []
    gState := GameState_Game
    randSeq := fun _ => 0 }

/-- The world when the main loop is entered: `init()` then `gRunning = true`. -/
def startWorld (m : MathFns α) (env : Env) : World α :=
  { init m env.seq env.shooting zeroWorld with gRunning := true }

/-- The worlds the main loop can reach: from the start, by `update()` ticks
and by handled events (key changes, restarts). -/
inductive Reachable (m : MathFns α) : World α → Prop where
  | start (env : Env) : Reachable m (startWorld m env)
  | tick {w : World α} : Reachable m w → Reachable m (update m w)
  | event {w : World α} (env : Env) (event : Event) :
      Reachable m w → Reachable m (handleEvent m env event w)

/-- What the main loop does next: one `update()` tick or one handled event. -/
inductive Input where
  | tick
  | event (env : Env) (event : Event)

/-- One step of the main loop. -/
def step (m : MathFns α) (w : World α) : Input → World α
  | Input.tick => update m w
  | Input.event env event => handleEvent m env event w

/-- The main loop run on a list of inputs. -/
def run (m : MathFns α) (inputs : List Input) (w : World α) : World α :=
  inputs.foldl (step m) w

/-! ## The fixed-timestep loop of `main` (main.cpp lines 282-291) -/

/-- The loop `while (lag >= MS_PER_UPDATE) { update(); lag -= MS_PER_UPDATE; }`
of `main`, run with the given fuel: the number of `update()` calls made, the
lag left and the world reached, or `none` when the fuel runs out first. -/
def tickLoop (m : MathFns α) : Nat → α → World α → Option (Nat × α × World α)
  | 0, _, _ => none
  | fuel + 1, lag, w =>
    if lag ≥ ((MS_PER_UPDATE : Int) : α) then
      match tickLoop m fuel (lag - ((MS_PER_UPDATE : Int) : α)) (update m w) with
      | none => none
      | some (ticks, lag', w') => some (ticks + 1, lag', w')
    else some (0, lag, w)

/-- The frames of `main` whose elapsed times are given, without key events:
each adds its elapsed time to `lag` and runs the loop.  The state is the
number of `update()` calls made so far, the lag and the world. -/
def frames (m : MathFns α) (fuel : Nat) :
    List α → Nat × α × World α → Option (Nat × α × World α)
  | [], s => some s
  | elapsed :: rest, (ticks, lag, w) =>
    match tickLoop m fuel (lag + elapsed) w with
    | none => none
    | some (k, lag', w') => frames m fuel rest (ticks + k, lag', w')

end Code

/-! ## Concrete data

The theorems are instantiated at `ℚ`.  `demoMath` is a stand-in for the C
library that makes a whole game short enough to follow: its pentagons
collapse to one vertical edge of half-length `7/2` and its square root makes
every asteroid stand still, so that an asteroid placed at `(508, 512)` lies
inside the ship's triangle, across the path of a projectile fired from
`(512, 512)` towards `(8, 0)`. -/

section Demo

/-- A stand-in for the C library on `ℚ`. -/
def demoMath : MathFns ℚ :=
  { pi := 5 / 2
    sqrt := fun x => if x ≤ 9 then 0 else 1
    cos := fun x => if x = 0 then 1 else 0
    sin := fun x => if x = 0 then 0 else if ⌊x⌋ % 2 = 0 then 7 / 2 else -(7 / 2) }

/-- A `rand()` sequence of period 6: every asteroid gets direction draws 0,
`randomNormal` 0 and position `(508, 512)`. -/
def demoSeq (n : Nat) : Nat :=
  if n % 6 = 4 then 508 else if n % 6 = 5 then 512 else 0

/-- The environment of the demonstration game. -/
def demoEnv : Env :=
  { seq := demoSeq
    shooting := false }

/-- The ship of the demonstration game: the ship of `createShip` with the
given `shooting` flag and `cooldown`. -/
def demoShip (shooting : Bool) (cooldown : Int) : Ship ℚ :=
  { (createShip shooting : Ship ℚ) with cooldown := cooldown }

/-- The projectile the demonstration ship fires. -/
def demoShot : Projectile ℚ :=
  createProjectile demoMath { x := 512, y := 512 } 0 PROJECTILE_SPEED

/-- One round of the demonstration game: press space, tick (the ship fires and
the shot hits), release space, tick (the cooldown is reset). -/
def demoRound : List Input :=
  [Input.event demoEnv (Event.SDL_KEYDOWN Key.SDLK_SPACE), Input.tick,
   Input.event demoEnv (Event.SDL_KEYUP Key.SDLK_SPACE), Input.tick]

/-- The inputs of `n` rounds. -/
def demoScript : Nat → List Input
  | 0 => []
  | n + 1 => demoRound ++ demoScript n

/-- The two end points an edge of a demonstration asteroid can have, and the
point at angle 0. -/
def demoVertex (x : ℚ) : Vector2f ℚ :=
  { x := demoMath.cos x, y := demoMath.sin x }

/-- The number of hits it takes to clear an asteroid and its fragments. -/
def hitsLeft (a : Asteroid ℚ) : Nat :=
  if a.size = ASTEROIDSIZE_LARGE then 7 else if a.size = ASTEROIDSIZE_MEDIUM then 3 else 1

/-- The number of hits it takes to clear a collection. -/
def totalHits (asteroids : List (Asteroid ℚ)) : Nat :=
  (asteroids.map hitsLeft).sum

/-- The asteroids of the demonstration game: at `(508, 512)`, standing still,
turning clockwise, of one of the three sizes, with a first vertex far enough
from the centre for `demoMath.sqrt` to return 1. -/
def PileAsteroid (a : Asteroid ℚ) : Prop :=
  a.position = { x := 508, y := 512 } ∧ a.velocity = { x := 0, y := 0 } ∧
  a.angularVelocity = -(1 / 50) ∧ a.angle ≤ 0 ∧
  (a.size = ASTEROIDSIZE_SMALL ∨ a.size = ASTEROIDSIZE_MEDIUM ∨ a.size = ASTEROIDSIZE_LARGE) ∧
  9 < (0 - (a.shape.lines ⟨0, by decide⟩).p1.x) ^ 2 + (0 - (a.shape.lines ⟨0, by decide⟩).p1.y) ^ 2

/-- The worlds of the demonstration game between two steps. -/
def PileWorld (shooting : Bool) (cooldown : Int) (w : World ℚ) : Prop :=
  w.gState = GameState_Game ∧ w.gShip = demoShip shooting cooldown ∧ w.gProjectiles = [] ∧
  (∀ a ∈ w.gAsteroids, PileAsteroid a) ∧ (∀ n, w.randSeq n = demoSeq n)

/-- A world in state `Lost` with one projectile and one particle in flight. -/
def lostWorld : World ℚ :=
  { gRunning := true
    gAsteroids := []
    gShip := createShip false
    gProjectiles := [{ position := { x := 100, y := 100 }, velocity := { x := 8, y := 0 },
                       lifeCounter := 0 }]
    gParticles := [{ position := { x := 200, y := 200 }, velocity := { x := 0, y := 2 },
                     lifeCounter := 0 }]
    gState := GameState_Lost
    randSeq := demoSeq }

/-- An asteroid whose five edges all are the vertical segment from `(-5, -20)`
to `(-5, 20)` around its position. -/
def barAsteroid (position : Vector2f ℚ) : Asteroid ℚ :=
  { size := ASTEROIDSIZE_LARGE
    position := position
    velocity := { x := 0, y := 0 }
    angle := 0
    angularVelocity := 2 / 100
    shape := { lines := fun _ => { p1 := { x := -5, y := -20 }, p2 := { x := -5, y := 20 } } } }

/-- A world in state `Game` with the given asteroids and the fresh ship. -/
def gameWorld (asteroids : List (Asteroid ℚ)) : World ℚ :=
  { gRunning := true
    gAsteroids := asteroids
    gShip := createShip false
    gProjectiles := []
    gParticles := []
    gState := GameState_Game
    randSeq := demoSeq }

end Demo

/-! ## Further notions used to state the properties -/

section Notions

/-- The directions of the two lines are parallel (their cross product is 0). -/
def Parallel {α : Type} [LinearOrderedField α] (l1 l2 : Line α) : Prop :=
  (l1.p2.x - l1.p1.x) * (l2.p2.y - l2.p1.y) - (l1.p2.y - l1.p1.y) * (l2.p2.x - l2.p1.x) = 0

/-- The point `P` lies on the segment `l` translated by the origin `o`, at
neither of its end points. -/
def InsideSegment {α : Type} [LinearOrderedField α] (o : Vector2f α) (l : Line α)
    (P : Vector2f α) : Prop :=
  ∃ t : α, 0 < t ∧ t < 1 ∧
    P.x = (l.p1.x + o.x) + t * ((l.p2.x + o.x) - (l.p1.x + o.x)) ∧
    P.y = (l.p1.y + o.y) + t * ((l.p2.y + o.y) - (l.p1.y + o.y))

/-- Some projectile path crosses some edge of some asteroid: the test of
`checkProjectileCollisions`. -/
def PathHit {α : Type} [LinearOrderedField α] (projectiles : List (Projectile α))
    (asteroids : List (Asteroid α)) : Prop :=
  ∃ asteroid ∈ asteroids, ∃ (aLineIndex : Fin N_LINES), ∃ projectile ∈ projectiles,
    linesIntersect ({ x := 0, y := 0 } : Vector2f α) asteroid.position
      { p1 := projectile.position
        p2 := { x := projectile.position.x - projectile.velocity.x
                y := projectile.position.y - projectile.velocity.y } }
      (asteroid.shape.lines aLineIndex) = true

/-- What the specification says `updateProjectiles` computes: every projectile
advanced by one tick, those whose life counter then reaches the life time
removed. -/
def updateProjectilesSpec {α : Type} [LinearOrderedField α] (projectiles : List (Projectile α))
    (lifeTime : Int) : List (Projectile α) :=
  (projectiles.map updateProjectile).filter (fun p => decide (p.lifeCounter < lifeTime))

/-- Two projectiles: the first one expires at the next tick, the second one is
fresh. -/
def expiringFirst : List (Projectile ℚ) :=
  [{ position := { x := 0, y := 0 }, velocity := { x := 1, y := 0 }, lifeCounter := 1490 },
   { position := { x := 200, y := 200 }, velocity := { x := 2, y := 0 }, lifeCounter := 0 }]

/-- The velocity component after a tick without thrust: multiplied by 0.99 and
snapped to 0 when its magnitude is then below 0.005. -/
def damp {α : Type} [LinearOrderedField α] (v : α) : α :=
  if abs (v * (99 / 100)) < 5 / 1000 then 0 else v * (99 / 100)

/-- The value of `cooldown` after a tick. -/
def cooldownAfter (shooting : Bool) (cooldown : Int) : Int :=
  if shooting then
    (if cooldown + MS_PER_UPDATE ≥ PROJECTILE_COOLDOWN then 0 else cooldown + MS_PER_UPDATE)
  else 0

/-- A world whose ship coasts: the fresh ship with velocity `(4, 0)`. -/
def coastingWorld : World ℚ :=
  { gameWorld [] with gShip := { (createShip false : Ship ℚ) with velocity := { x := 4, y := 0 } } }

/-- A world whose ship holds the fire key with no cooldown pending. -/
def firingWorld : World ℚ :=
  { gameWorld [] with gShip := demoShip true 0 }

/-- The nose of the ship in world coordinates: the first vertex of its first
line, moved to the ship's position. -/
def shipNose {α : Type} [LinearOrderedField α] (ship : Ship α) : Vector2f α :=
  { x := ship.position.x + (ship.lines 0).p1.x, y := ship.position.y + (ship.lines 0).p1.y }

/-- A `rand()` sequence for which `createAsteroid` draws `randomNormal` 1 and
direction 1 for the x velocity: the small asteroid gets velocity `(3, 0)` and
spin -0.02. -/
def awaySeq (n : Nat) : Nat :=
  if n = 1 then 100000 else if n = 2 then 1 else 0

/-- The point `p` translated by the origin `o`, as `linesIntersect` does it. -/
def moved {α : Type} [LinearOrderedField α] (o p : Vector2f α) : Vector2f α :=
  { x := p.x + o.x, y := p.y + o.y }

/-- The four points lie on one straight line `p x + q y = r`. -/
def Collinear4 {α : Type} [LinearOrderedField α] (a b c d : Vector2f α) : Prop :=
  ∃ p q r : α, (p ≠ 0 ∨ q ≠ 0) ∧ p * a.x + q * a.y = r ∧ p * b.x + q * b.y = r ∧
    p * c.x + q * c.y = r ∧ p * d.x + q * d.y = r

/-- The aggregate size-units of a collection: the sum of the sizes. -/
def totalSize {α : Type} (asteroids : List (Asteroid α)) : Int :=
  (asteroids.map (fun a => a.size)).sum

/-- The number of (asteroid edge, ship edge) pairs of the asteroid for which
`linesIntersect` is true. -/
def hitPairs {α : Type} [LinearOrderedField α] (ship : Ship α) (asteroid : Asteroid α) : Nat :=
  ((List.finRange N_LINES).map (fun aLineIndex =>
    ((List.finRange N_SHIP_LINES).map (fun sLineIndex =>
      if linesIntersect ship.position asteroid.position (ship.lines sLineIndex)
          (asteroid.shape.lines aLineIndex) = true then 1 else 0)).sum)).sum

/-- The number of (asteroid, asteroid edge, ship edge) triples for which
`linesIntersect` is true. -/
def hitTriples {α : Type} [LinearOrderedField α] (ship : Ship α)
    (asteroids : List (Asteroid α)) : Nat :=
  (asteroids.map (hitPairs ship)).sum

/-- The particles of `s` are those of `w` followed by `10 * n` more, all at
`position`. -/
def Burst {α : Type} (position : Vector2f α) (w : World α) (n : Nat) (s : World α) : Prop :=
  ∃ l : List (Projectile α), s.gParticles = w.gParticles ++ l ∧ l.length = 10 * n ∧
    ∀ q ∈ l, q.position = position

/-- An asteroid at `(512, 512)` whose first edge runs from `(0, -20)` to
`(0, 20)` around its position, across two edges of the fresh ship; its other
edges are the point `(100, 100)`. -/
def spikeAsteroid : Asteroid ℚ :=
  { size := ASTEROIDSIZE_LARGE
    position := { x := 512, y := 512 }
    velocity := { x := 0, y := 0 }
    angle := 0
    angularVelocity := 2 / 100
    shape := { lines := fun i =>
      if i.val = 0 then { p1 := { x := 0, y := -20 }, p2 := { x := 0, y := 20 } }
      else { p1 := { x := 100, y := 100 }, p2 := { x := 100, y := 100 } } } }

/-- The point `p` rotated about the origin by the angle `θ`, with the cosine
and sine of `m`. -/
def rotatePoint {α : Type} [LinearOrderedField α] (m : MathFns α) (θ : α) (p : Vector2f α) :
    Vector2f α :=
  { x := p.x * m.cos θ - p.y * m.sin θ, y := p.x * m.sin θ + p.y * m.cos θ }

/-- The three local-frame lines of the ship are the lines of the base triangle
(those of `createShip`) rotated by the ship's angle. -/
def ShipShape {α : Type} [LinearOrderedField α] (m : MathFns α) (ship : Ship α) : Prop :=
  ∀ i : Fin N_SHIP_LINES, ship.lines i =
    { p1 := rotatePoint m ship.angle ((createShip false : Ship α).lines i).p1
      p2 := rotatePoint m ship.angle ((createShip false : Ship α).lines i).p2 }

/-- The shape of the asteroid is the regular pentagon of radius `r` at the
asteroid's angle: edge `i` runs from the vertex at angle `t (i - 1) + angle`
to the vertex at angle `t i + angle`, with `t = 2 π / 5`. -/
def PentagonShape {α : Type} [LinearOrderedField α] (m : MathFns α) (r : α)
    (a : Asteroid α) : Prop :=
  ∀ i : Fin N_LINES, a.shape.lines i =
    { p1 := { x := r * m.cos (2 * m.pi / 5 * (((i : Nat) : α) - 1) + a.angle)
              y := r * m.sin (2 * m.pi / 5 * (((i : Nat) : α) - 1) + a.angle) }
      p2 := { x := r * m.cos (2 * m.pi / 5 * ((i : Nat) : α) + a.angle)
              y := r * m.sin (2 * m.pi / 5 * ((i : Nat) : α) + a.angle) } }

end Notions

/-! # Theorems -/

section Geometry

variable {α : Type} [LinearOrderedField α]

/-- C8 (wrap invariant): after `wrapPosition` with the buffer 10, each
coordinate of the position lies in `[-10, 1034)`, whatever the position was. -/
theorem wrapPosition_range (position : Vector2f α) :
    (-10 : α) ≤ (wrapPosition position WRAPBUFFER_X WRAPBUFFER_Y).x ∧
    (wrapPosition position WRAPBUFFER_X WRAPBUFFER_Y).x < 1034 ∧
    (-10 : α) ≤ (wrapPosition position WRAPBUFFER_X WRAPBUFFER_Y).y ∧
    (wrapPosition position WRAPBUFFER_X WRAPBUFFER_Y).y < 1034 := by
  simp only [wrapPosition, WRAPBUFFER_X, WRAPBUFFER_Y, WINDOW_WIDTH, WINDOW_HEIGHT]
  push_cast
  norm_num
  refine ⟨?_, ?_, ?_, ?_⟩ <;> split_ifs <;> norm_num at * <;> linarith

/-- The orientation predicate is invariant under a cyclic shift of its
arguments. -/
theorem counterClockwise_cyclic (a b c : Vector2f α) :
    counterClockwise a b c = counterClockwise c a b := by
  unfold counterClockwise
  rw [decide_eq_decide]
  constructor <;> intro h <;> nlinarith

/-- C9 (collision symmetry): swapping the two (origin, line) pairs does not
change the result of `linesIntersect`. -/
theorem linesIntersect_symm (o1 o2 : Vector2f α) (l1 l2 : Line α) :
    linesIntersect o1 o2 l1 l2 = linesIntersect o2 o1 l2 l1 := by
  simp only [linesIntersect]
  rw [Bool.and_comm]
  congr 1 <;> congr 1 <;>
    first
    | exact counterClockwise_cyclic _ _ _
    | exact (counterClockwise_cyclic _ _ _).symm

/-- Two values of an affine function with different strict signs: the zero
lies at a parameter in `[0, 1]`. -/
theorem sign_change_param (f0 f1 : α) (h : ¬ (0 < f0 ↔ 0 < f1)) :
    f0 - f1 ≠ 0 ∧ 0 ≤ f0 / (f0 - f1) ∧ f0 / (f0 - f1) ≤ 1 := by
  by_cases h0 : 0 < f0
  · have h1 : f1 ≤ 0 := not_lt.mp (fun h1 => h ⟨fun _ => h1, fun _ => h0⟩)
    have hd : 0 < f0 - f1 := by linarith
    refine ⟨ne_of_gt hd, div_nonneg h0.le hd.le, ?_⟩
    rw [div_le_one hd]
    linarith
  · have h1 : 0 < f1 := by
      by_contra h1
      exact h ⟨fun k => absurd k h0, fun k => absurd k h1⟩
    have hd : f0 - f1 < 0 := by linarith [not_lt.mp h0]
    refine ⟨ne_of_lt hd, div_nonneg_of_nonpos (not_lt.mp h0) hd.le, ?_⟩
    rw [div_le_one_of_neg hd]
    linarith

/-- The coordinate form of the soundness of the orientation test. -/
theorem orientation_test_sound (x1 y1 x2 y2 x3 y3 x4 y4 : α)
    (h1 : ¬ ((y4 - y1) * (x3 - x1) > (y3 - y1) * (x4 - x1) ↔
             (y4 - y2) * (x3 - x2) > (y3 - y2) * (x4 - x2)))
    (h2 : ¬ ((y3 - y1) * (x2 - x1) > (y2 - y1) * (x3 - x1) ↔
             (y4 - y1) * (x2 - x1) > (y2 - y1) * (x4 - x1))) :
    ∃ t s : α, 0 ≤ t ∧ t ≤ 1 ∧ 0 ≤ s ∧ s ≤ 1 ∧
      x1 + t * (x2 - x1) = x3 + s * (x4 - x3) ∧
      y1 + t * (y2 - y1) = y3 + s * (y4 - y3) := by
  obtain ⟨d1, t0, t1⟩ := sign_change_param ((y4 - y1) * (x3 - x1) - (y3 - y1) * (x4 - x1))
    ((y4 - y2) * (x3 - x2) - (y3 - y2) * (x4 - x2))
    (by simpa only [sub_pos, gt_iff_lt] using h1)
  obtain ⟨d2, s0, s1⟩ := sign_change_param ((y3 - y1) * (x2 - x1) - (y2 - y1) * (x3 - x1))
    ((y4 - y1) * (x2 - x1) - (y2 - y1) * (x4 - x1))
    (by simpa only [sub_pos, gt_iff_lt] using h2)
  refine ⟨_, _, t0, t1, s0, s1, ?_, ?_⟩
  · field_simp
    ring
  · field_simp
    ring

/-- C10 (soundness of the intersection test): when `linesIntersect` returns
true, the segment `l1` translated by `o1` and the segment `l2` translated by
`o2` have a point in common. -/
theorem linesIntersect_sound (o1 o2 : Vector2f α) (l1 l2 : Line α)
    (h : linesIntersect o1 o2 l1 l2 = true) :
    ∃ P : Vector2f α, OnSegment o1 l1 P ∧ OnSegment o2 l2 P := by
  simp only [linesIntersect, counterClockwise, Bool.and_eq_true, bne_iff_ne, ne_eq,
    decide_eq_decide] at h
  obtain ⟨t, s, t0, t1, s0, s1, hx, hy⟩ := orientation_test_sound _ _ _ _ _ _ _ _ h.1 h.2
  refine ⟨{ x := (l1.p1.x + o1.x) + t * ((l1.p2.x + o1.x) - (l1.p1.x + o1.x)),
            y := (l1.p1.y + o1.y) + t * ((l1.p2.y + o1.y) - (l1.p1.y + o1.y)) },
          ⟨t, t0, t1, rfl, rfl⟩, ⟨s, s0, s1, hx, hy⟩⟩

/-- C10, at a concrete crossing: the segments from `(-1,0)` to `(1,0)` and from
`(0,-1)` to `(0,1)`. -/
theorem linesIntersect_sound_witness :
    linesIntersect (⟨0, 0⟩ : Vector2f ℚ) ⟨0, 0⟩ ⟨⟨-1, 0⟩, ⟨1, 0⟩⟩ ⟨⟨0, -1⟩, ⟨0, 1⟩⟩ = true ∧
    ∃ P : Vector2f ℚ, OnSegment ⟨0, 0⟩ ⟨⟨-1, 0⟩, ⟨1, 0⟩⟩ P ∧
      OnSegment ⟨0, 0⟩ ⟨⟨0, -1⟩, ⟨0, 1⟩⟩ P :=
  ⟨by decide!, linesIntersect_sound _ _ _ _ (by decide!)⟩

end Geometry

section Collections

/-- Overwriting position `i` with `x` gives, up to order, `x` and the list
without its element at `i`. -/
theorem set_perm_cons_eraseIdx {β : Type} (x : β) :
    ∀ (l : List β) (i : Nat), i < l.length → (l.set i x).Perm (x :: l.eraseIdx i)
  | [], _, h => absurd h (Nat.not_lt_zero _)
  | _ :: _, 0, _ => List.Perm.refl _
  | b :: l, i + 1, h => by
    have ih := set_perm_cons_eraseIdx x l i (Nat.lt_of_succ_lt_succ h)
    simp only [List.set_cons_succ, List.eraseIdx_cons_succ]
    exact (List.Perm.cons b ih).trans (List.Perm.swap x b _)

/-- The function `destroyAsteroid` removes the asteroid at a valid index, up to order. -/
theorem destroyAsteroid_perm {α : Type} (w : World α) (i : Nat)
    (h : i < w.gAsteroids.length) :
    (destroyAsteroid i w).gAsteroids.Perm (w.gAsteroids.eraseIdx i) := by
  simp only [destroyAsteroid]
  rcases List.eq_nil_or_concat w.gAsteroids with h0 | ⟨L, b, h0⟩
  · rw [h0] at h
    simp at h
  · rw [h0] at h ⊢
    simp only [List.concat_eq_append, List.length_append, List.length_singleton,
      Nat.add_sub_cancel, List.getElem?_concat_length] at h ⊢
    by_cases hi : i = L.length
    · subst hi
      simp [List.eraseIdx_append_of_length_le]
    · have hlt : i < L.length := by omega
      simp only [ne_eq, hi, not_false_eq_true, if_true, List.set_append_left _ _ hlt,
        List.dropLast_concat, List.eraseIdx_append_of_lt_length hlt]
      exact (set_perm_cons_eraseIdx b L i hlt).trans (List.perm_append_singleton b _).symm

/-- The function `createAsteroid` returns an asteroid of the size it is given. -/
theorem createAsteroid_size {α : Type} [LinearOrderedField α] (m : MathFns α)
    (size : AsteroidSize) (g : Nat → Nat) : (createAsteroid m size g).1.size = size := rfl

/-- The function `splitAsteroid` on a small asteroid is `destroyAsteroid`. -/
theorem splitAsteroid_small {α : Type} [LinearOrderedField α] (m : MathFns α) (w : World α)
    (i : Nat) (a : Asteroid α) (hi : w.gAsteroids[i]? = some a)
    (hs : a.size = ASTEROIDSIZE_SMALL) : splitAsteroid m i w = destroyAsteroid i w := by
  simp only [splitAsteroid, hi, hs, if_true]

/-- The function `splitAsteroid` on an asteroid that is not small: two asteroids of size `s`
(the new size) are created, moved to the parent's position and pushed, then
the parent is destroyed. -/
theorem splitAsteroid_not_small {α : Type} [LinearOrderedField α] (m : MathFns α)
    (w : World α) (i : Nat) (a : Asteroid α) (hi : w.gAsteroids[i]? = some a)
    (hns : a.size ≠ ASTEROIDSIZE_SMALL) (s : AsteroidSize)
    (hsz : s = (if a.size = ASTEROIDSIZE_MEDIUM then ASTEROIDSIZE_SMALL
      else if a.size = ASTEROIDSIZE_LARGE then ASTEROIDSIZE_MEDIUM else a.size)) :
    splitAsteroid m i w = destroyAsteroid i
      { w with
        randSeq := (createAsteroid m s (createAsteroid m s w.randSeq).2).2
        gAsteroids := w.gAsteroids ++
          [{ (createAsteroid m s w.randSeq).1 with position := a.position }] ++
          [{ (createAsteroid m s (createAsteroid m s w.randSeq).2).1 with
              position := a.position }] } := by
  subst hsz
  simp only [splitAsteroid, hi, hns, if_false]

/-- The asteroids after `splitAsteroid` on an asteroid that is not small, up
to order. -/
theorem splitAsteroid_not_small_perm {α : Type} [LinearOrderedField α] (m : MathFns α)
    (w : World α) (i : Nat) (a : Asteroid α) (hi : w.gAsteroids[i]? = some a)
    (hns : a.size ≠ ASTEROIDSIZE_SMALL) (s : AsteroidSize)
    (hsz : s = (if a.size = ASTEROIDSIZE_MEDIUM then ASTEROIDSIZE_SMALL
      else if a.size = ASTEROIDSIZE_LARGE then ASTEROIDSIZE_MEDIUM else a.size)) :
    (splitAsteroid m i w).gAsteroids.Perm (w.gAsteroids.eraseIdx i ++
      [{ (createAsteroid m s w.randSeq).1 with position := a.position },
       { (createAsteroid m s (createAsteroid m s w.randSeq).2).1 with
          position := a.position }]) := by
  have hlt : i < w.gAsteroids.length := (List.getElem?_eq_some.mp hi).1
  have hlen : i < (w.gAsteroids ++
      [{ (createAsteroid m s w.randSeq).1 with position := a.position }] ++
      [{ (createAsteroid m s (createAsteroid m s w.randSeq).2).1 with
          position := a.position }]).length := by
    simp only [List.length_append, List.length_singleton]
    omega
  have hperm := destroyAsteroid_perm { w with
    randSeq := (createAsteroid m s (createAsteroid m s w.randSeq).2).2
    gAsteroids := w.gAsteroids ++
      [{ (createAsteroid m s w.randSeq).1 with position := a.position }] ++
      [{ (createAsteroid m s (createAsteroid m s w.randSeq).2).1 with
          position := a.position }] } i hlen
  rw [← splitAsteroid_not_small m w i a hi hns s hsz] at hperm
  simpa only [List.append_assoc, List.singleton_append,
    List.eraseIdx_append_of_lt_length hlt] using hperm

/-- C1 (split conservation): splitting asteroid `i` when it is Medium or Large
removes it and adds two asteroids of the next-smaller size at its position, the
rest of the collection being unchanged as a multiset (length `n + 1`); when it
is Small it is removed and nothing is added (length `n - 1`). -/
theorem splitAsteroid_spec {α : Type} [LinearOrderedField α] (m : MathFns α) (w : World α)
    (i : Nat) (a : Asteroid α) (hi : w.gAsteroids[i]? = some a) :
    (a.size = ASTEROIDSIZE_MEDIUM ∨ a.size = ASTEROIDSIZE_LARGE →
      ∃ c1 c2 : Asteroid α,
        c1.size = (if a.size = ASTEROIDSIZE_MEDIUM then ASTEROIDSIZE_SMALL
                   else ASTEROIDSIZE_MEDIUM) ∧
        c2.size = c1.size ∧
        c1.position = a.position ∧ c2.position = a.position ∧
        (splitAsteroid m i w).gAsteroids.Perm (w.gAsteroids.eraseIdx i ++ [c1, c2]) ∧
        (splitAsteroid m i w).gAsteroids.length = w.gAsteroids.length + 1) ∧
    (a.size = ASTEROIDSIZE_SMALL →
      (splitAsteroid m i w).gAsteroids.Perm (w.gAsteroids.eraseIdx i) ∧
      (splitAsteroid m i w).gAsteroids.length = w.gAsteroids.length - 1) := by
  have hlt : i < w.gAsteroids.length := (List.getElem?_eq_some.mp hi).1
  constructor
  · intro hs
    have hns : a.size ≠ ASTEROIDSIZE_SMALL := by
      rcases hs with h | h <;> rw [h] <;> decide
    obtain ⟨s, hsz⟩ : ∃ s : AsteroidSize, s = (if a.size = ASTEROIDSIZE_MEDIUM then
        ASTEROIDSIZE_SMALL else if a.size = ASTEROIDSIZE_LARGE then ASTEROIDSIZE_MEDIUM
        else a.size) := ⟨_, rfl⟩
    have hperm := splitAsteroid_not_small_perm m w i a hi hns s hsz
    refine ⟨{ (createAsteroid m s w.randSeq).1 with position := a.position },
      { (createAsteroid m s (createAsteroid m s w.randSeq).2).1 with position := a.position },
      ?_, rfl, rfl, rfl, hperm, ?_⟩
    · show s = _
      rw [hsz]
      rcases hs with h | h <;> rw [h] <;> decide
    · rw [hperm.length_eq, List.length_append, List.length_eraseIdx_of_lt hlt]
      simp only [List.length_cons, List.length_nil]
      omega
  · intro hs
    rw [splitAsteroid_small m w i a hi hs]
    refine ⟨destroyAsteroid_perm w i hlt, ?_⟩
    rw [(destroyAsteroid_perm w i hlt).length_eq, List.length_eraseIdx_of_lt hlt]

/-- C1, at a world whose asteroid 0 is Large and whose asteroid 1 is Small. -/
theorem splitAsteroid_spec_witness :
    (∃ c1 c2 : Asteroid ℚ, c1.size = 30 ∧ c2.size = 30 ∧
      c1.position = { x := 7, y := 9 } ∧ c2.position = { x := 7, y := 9 } ∧
      (splitAsteroid demoMath 0
        (gameWorld [barAsteroid { x := 7, y := 9 },
          (createAsteroid demoMath ASTEROIDSIZE_SMALL demoSeq).1])).gAsteroids.length = 3) ∧
    (splitAsteroid demoMath 1
        (gameWorld [barAsteroid { x := 7, y := 9 },
          (createAsteroid demoMath ASTEROIDSIZE_SMALL demoSeq).1])).gAsteroids.length = 1 := by
  constructor
  · obtain ⟨c1, c2, h1, h2, h3, h4, -, h6⟩ := (splitAsteroid_spec demoMath
      (gameWorld [barAsteroid { x := 7, y := 9 },
        (createAsteroid demoMath ASTEROIDSIZE_SMALL demoSeq).1]) 0
      (barAsteroid { x := 7, y := 9 }) rfl).1 (Or.inr rfl)
    exact ⟨c1, c2, h1, h2.trans h1, h3, h4, h6⟩
  · exact ((splitAsteroid_spec demoMath
      (gameWorld [barAsteroid { x := 7, y := 9 },
        (createAsteroid demoMath ASTEROIDSIZE_SMALL demoSeq).1]) 1
      (createAsteroid demoMath ASTEROIDSIZE_SMALL demoSeq).1 rfl).2 rfl).2

/-- The function `destroyProjectile` shortens the vector by one element. -/
theorem destroyProjectile_length {α : Type} (i : Nat) (ps : List (Projectile α)) :
    (destroyProjectile i ps).length = ps.length - 1 := by
  unfold destroyProjectile
  dsimp only
  rw [List.length_dropLast]
  split_ifs
  · split
    · rw [List.length_set]
    · rfl
  · rfl

/-- The loop of `updateProjectiles` does not depend on the iteration bound once
the bound covers the elements from the index on. -/
theorem updateProjectilesLoop_fuel {α : Type} [LinearOrderedField α] (lifeTime : Int) :
    ∀ (fuel extra idx : Nat) (ps : List (Projectile α)), ps.length ≤ idx + fuel →
      updateProjectilesLoop lifeTime (fuel + extra) idx ps =
        updateProjectilesLoop lifeTime fuel idx ps
  | 0, 0, _, _, _ => rfl
  | 0, extra + 1, idx, ps, h => by
    have hnone : ps[idx]? = none := List.getElem?_eq_none (by omega)
    rw [Nat.zero_add]
    simp only [updateProjectilesLoop, hnone]
  | fuel + 1, extra, idx, ps, h => by
    rw [show fuel + 1 + extra = (fuel + extra) + 1 by omega]
    cases hget : ps[idx]? with
    | none => simp only [updateProjectilesLoop, hget]
    | some p =>
      simp only [updateProjectilesLoop, hget]
      refine updateProjectilesLoop_fuel lifeTime fuel extra (idx + 1) _ ?_
      split_ifs
      · rw [destroyProjectile_length, List.length_set]
        omega
      · rw [List.length_set]
        omega
end Collections

section Collisions

/-- A property kept by every step of a fold holds at its end. -/
theorem foldl_keep {σ β : Type} (P : σ → Prop) (step : σ → β → σ)
    (hkeep : ∀ s x, P s → P (step s x)) :
    ∀ (l : List β) (s : σ), P s → P (l.foldl step s)
  | [], _, h => h
  | x :: l, s, h => foldl_keep P step hkeep l (step s x) (hkeep s x h)

/-- A property established by the step at `x` and kept by every step holds at
the end of a fold over a list that contains `x`. -/
theorem foldl_reach {σ β : Type} (P : σ → Prop) (step : σ → β → σ)
    (hkeep : ∀ s x, P s → P (step s x)) (x : β) (hx : ∀ s, P (step s x)) :
    ∀ (l : List β) (s : σ), x ∈ l → P (l.foldl step s)
  | y :: l, s, h => by
    rcases List.mem_cons.mp h with rfl | h'
    · exact foldl_keep P step hkeep l _ (hx s)
    · exact foldl_reach P step hkeep x hx l _ h'

/-- A fold whose steps all leave `s` alone returns `s`. -/
theorem foldl_fixed {σ β : Type} (step : σ → β → σ) (s : σ) :
    ∀ (l : List β), (∀ x ∈ l, step s x = s) → l.foldl step s = s
  | [], _ => rfl
  | x :: l, h => by
    rw [List.foldl_cons, h x (List.mem_cons_self _ _)]
    exact foldl_fixed step s l (fun y hy => h y (List.mem_cons_of_mem _ hy))

/-- One step of the inner loop of `checkCollision` keeps a property that
`explode` followed by `gState = Lost` establishes. -/
theorem checkCollision_keep {α : Type} [LinearOrderedField α] (m : MathFns α)
    (ship : Ship α) (a : Asteroid α) (P : World α → Prop)
    (hP : ∀ w, P w → P { explode m ship.position w with gState := GameState_Lost })
    (w : World α) (h : P w) : P (checkCollision m ship a w) := by
  unfold checkCollision
  refine foldl_keep P _ ?_ _ _ h
  intro s i hs
  refine foldl_keep P _ ?_ _ _ hs
  intro s j hs
  dsimp only
  split_ifs
  · exact hP s hs
  · exact hs

/-- The function `checkCollision` with an intersecting pair of edges ends in `Lost`. -/
theorem checkCollision_hit {α : Type} [LinearOrderedField α] (m : MathFns α) (ship : Ship α)
    (a : Asteroid α) (w : World α) (h : HitPair ship a) :
    (checkCollision m ship a w).gState = GameState_Lost := by
  obtain ⟨i, j, hij⟩ := h
  have hkeep : ∀ (s : World α) (j : Fin N_SHIP_LINES), s.gState = GameState_Lost →
      (if linesIntersect ship.position a.position (ship.lines j) (a.shape.lines i) = true then
        { explode m ship.position s with gState := GameState_Lost } else s).gState
        = GameState_Lost := by
    intro s j hs
    split_ifs
    · rfl
    · exact hs
  unfold checkCollision
  refine foldl_reach (fun w : World α => w.gState = GameState_Lost) _ ?_ i ?_ _ _
    (List.mem_finRange i)
  · intro s i hs
    refine foldl_keep (fun w : World α => w.gState = GameState_Lost) _ ?_ _ _ hs
    intro s j hs
    dsimp only
    split_ifs
    · rfl
    · exact hs
  · intro s
    refine foldl_reach (fun w : World α => w.gState = GameState_Lost) _ hkeep j ?_ _ _
      (List.mem_finRange j)
    intro s
    dsimp only
    rw [if_pos hij]

/-- The function `checkCollision` without an intersecting pair of edges changes nothing. -/
theorem checkCollision_miss {α : Type} [LinearOrderedField α] (m : MathFns α)
    (ship : Ship α) (a : Asteroid α) (w : World α) (h : ¬ HitPair ship a) :
    checkCollision m ship a w = w := by
  unfold checkCollision
  refine foldl_fixed _ _ _ ?_
  intro i _
  refine foldl_fixed _ _ _ ?_
  intro j _
  dsimp only
  rw [if_neg]
  exact fun hij => h ⟨i, j, hij⟩

/-- The function `checkCollisions` keeps a property that `explode` followed by
`gState = Lost` keeps. -/
theorem checkCollisions_keep {α : Type} [LinearOrderedField α] (m : MathFns α)
    (ship : Ship α) (asteroids : List (Asteroid α)) (P : World α → Prop)
    (hP : ∀ w, P w → P { explode m ship.position w with gState := GameState_Lost })
    (w : World α) (h : P w) : P (checkCollisions m ship asteroids w) :=
  foldl_keep P _ (fun s a hs => checkCollision_keep m ship a P hP s hs) _ _ h

/-- The function `checkCollisions` with a hit ends in `Lost`. -/
theorem checkCollisions_hit {α : Type} [LinearOrderedField α] (m : MathFns α)
    (ship : Ship α) (asteroids : List (Asteroid α)) (w : World α)
    (h : ShipHit ship asteroids) :
    (checkCollisions m ship asteroids w).gState = GameState_Lost := by
  obtain ⟨a, ha, hit⟩ := h
  exact foldl_reach (fun w : World α => w.gState = GameState_Lost) _
    (fun s b hs => checkCollision_keep m ship b
      (fun w : World α => w.gState = GameState_Lost) (fun _ _ => rfl) s hs) a
    (fun s => checkCollision_hit m ship a s hit) _ _ ha

/-- The function `checkCollisions` without a hit changes nothing. -/
theorem checkCollisions_miss {α : Type} [LinearOrderedField α] (m : MathFns α)
    (ship : Ship α) (asteroids : List (Asteroid α)) (w : World α)
    (h : ¬ ShipHit ship asteroids) : checkCollisions m ship asteroids w = w :=
  foldl_fixed _ _ _ (fun a ha => checkCollision_miss m ship a w (fun hit => h ⟨a, ha, hit⟩))

/-- C2: from state `Game`, `checkCollisions` ends in `Lost` when some (ship
edge, asteroid edge) pair satisfies `linesIntersect`, and otherwise stays in
`Game` and leaves the particles unchanged. -/
theorem checkCollisions_spec {α : Type} [LinearOrderedField α] (m : MathFns α)
    (ship : Ship α) (asteroids : List (Asteroid α)) (w : World α)
    (hstate : w.gState = GameState_Game) :
    (ShipHit ship asteroids →
      (checkCollisions m ship asteroids w).gState = GameState_Lost) ∧
    (¬ ShipHit ship asteroids →
      (checkCollisions m ship asteroids w).gState = GameState_Game ∧
      (checkCollisions m ship asteroids w).gParticles = w.gParticles) := by
  refine ⟨checkCollisions_hit m ship asteroids w, fun h => ?_⟩
  rw [checkCollisions_miss m ship asteroids w h]
  exact ⟨hstate, rfl⟩

/-- C2, at a bar-shaped asteroid across the ship (a hit) and at one far away
(no hit). -/
theorem checkCollisions_spec_witness :
    (checkCollisions demoMath (createShip false) [barAsteroid { x := 520, y := 512 }]
      (gameWorld [])).gState = GameState_Lost ∧
    (checkCollisions demoMath (createShip false) [barAsteroid { x := 100, y := 100 }]
      (gameWorld [])).gState = GameState_Game ∧
    (checkCollisions demoMath (createShip false) [barAsteroid { x := 100, y := 100 }]
      (gameWorld [])).gParticles = [] :=
  ⟨(checkCollisions_spec demoMath (createShip false) [barAsteroid { x := 520, y := 512 }]
      (gameWorld []) rfl).1
      ⟨_, List.mem_singleton.mpr rfl, ⟨0, by decide⟩, ⟨0, by decide⟩, by decide!⟩,
   (checkCollisions_spec demoMath (createShip false) [barAsteroid { x := 100, y := 100 }]
      (gameWorld []) rfl).2 (by unfold ShipHit HitPair; decide!)⟩

end Collisions

section StateMachine

/-- The function `updateShip` only changes the ship and the projectiles. -/
theorem updateShip_frame {α : Type} [LinearOrderedField α] (m : MathFns α) (w : World α) :
    ∃ (ship : Ship α) (projectiles : List (Projectile α)),
      updateShip m w = { w with gShip := ship, gProjectiles := projectiles } := by
  unfold updateShip
  lift_lets
  extract_lets s0 s1 s2 a0 a1 a2 t1 t2 u1 u2 v1 u3 v2 u4 s3 s4 w1 s5 s6 s7
  refine ⟨s7, w1.gProjectiles, ?_⟩
  have hw : w1 = w ∨ w1 = fireProjectileFromPoint m s4.position s4.angle w := by
    by_cases h1 : s4.shooting = true
    · by_cases h2 : s4.cooldown = 0
      · right
        simp only [w1, if_pos h1, if_pos h2]
      · left
        simp only [w1, if_pos h1, if_neg h2]
    · left
      simp only [w1, if_neg h1]
  rcases hw with h | h
  · rw [h]
  · rw [h]
    rfl

/-- The function `updateShip` leaves the game state alone. -/
theorem updateShip_gState {α : Type} [LinearOrderedField α] (m : MathFns α) (w : World α) :
    (updateShip m w).gState = w.gState := by
  obtain ⟨ship, ps, h⟩ := updateShip_frame m w
  rw [h]

/-- The function `updateShip` leaves the asteroids alone. -/
theorem updateShip_gAsteroids {α : Type} [LinearOrderedField α] (m : MathFns α)
    (w : World α) : (updateShip m w).gAsteroids = w.gAsteroids := by
  obtain ⟨ship, ps, h⟩ := updateShip_frame m w
  rw [h]

/-- The function `splitAsteroid` leaves the game state alone. -/
theorem splitAsteroid_gState {α : Type} [LinearOrderedField α] (m : MathFns α) (i : Nat)
    (w : World α) : (splitAsteroid m i w).gState = w.gState := by
  unfold splitAsteroid
  split
  · rfl
  · split_ifs <;> rfl

/-- The function `splitAsteroid` leaves the ship alone. -/
theorem splitAsteroid_gShip {α : Type} [LinearOrderedField α] (m : MathFns α) (i : Nat)
    (w : World α) : (splitAsteroid m i w).gShip = w.gShip := by
  unfold splitAsteroid
  split
  · rfl
  · split_ifs <;> rfl

/-- The function `checkProjectileCollisions` leaves the game state alone. -/
theorem checkProjectileCollisions_gState {α : Type} [LinearOrderedField α] (m : MathFns α)
    (ps : List (Projectile α)) (as : List (Asteroid α)) (w : World α) :
    (checkProjectileCollisions m ps as w).gState = w.gState := by
  unfold checkProjectileCollisions
  split
  · rfl
  · exact splitAsteroid_gState m _ _

/-- The function `checkProjectileCollisions` leaves the ship alone. -/
theorem checkProjectileCollisions_gShip {α : Type} [LinearOrderedField α] (m : MathFns α)
    (ps : List (Projectile α)) (as : List (Asteroid α)) (w : World α) :
    (checkProjectileCollisions m ps as w).gShip = w.gShip := by
  unfold checkProjectileCollisions
  split
  · rfl
  · exact splitAsteroid_gShip m _ _

/-- The game state after a tick is the one the `switch` of `update` leaves. -/
theorem update_gState {α : Type} [LinearOrderedField α] (m : MathFns α) (w : World α) :
    (update m w).gState = (updateBody m w).gState :=
  checkProjectileCollisions_gState m _ _ _

/-- The ship after a tick is the one the `switch` of `update` leaves. -/
theorem update_gShip {α : Type} [LinearOrderedField α] (m : MathFns α) (w : World α) :
    (update m w).gShip = (updateBody m w).gShip :=
  checkProjectileCollisions_gShip m _ _ _

/-- In `Lost` the `switch` of `update` does nothing. -/
theorem updateBody_lost {α : Type} [LinearOrderedField α] (m : MathFns α) (w : World α)
    (h : w.gState = GameState_Lost) : updateBody m w = updateEntities m w := by
  have h' : (updateEntities m w).gState = GameState_Lost := h
  unfold updateBody
  simp only [h']

/-- In `Won` the `switch` of `update` only updates the ship. -/
theorem updateBody_won {α : Type} [LinearOrderedField α] (m : MathFns α) (w : World α)
    (h : w.gState = GameState_Won) :
    updateBody m w = updateShip m (updateEntities m w) := by
  have h' : (updateEntities m w).gState = GameState_Won := h
  unfold updateBody
  simp only [h']

/-- In `Game` the `switch` of `update` updates the ship, checks the ship
collisions and checks the win. -/
theorem updateBody_game {α : Type} [LinearOrderedField α] (m : MathFns α) (w : World α)
    (h : w.gState = GameState_Game) :
    updateBody m w = checkWin (checkCollisions m (updateShip m (updateEntities m w)).gShip
      (updateShip m (updateEntities m w)).gAsteroids (updateShip m (updateEntities m w))) := by
  have h' : (updateEntities m w).gState = GameState_Game := h
  unfold updateBody
  simp only [h']

/-- The function `checkWin` with no asteroid sets `Won`. -/
theorem checkWin_nil {α : Type} (w : World α) (h : w.gAsteroids = []) :
    checkWin w = { w with gState := GameState_Won } := by
  unfold checkWin
  rw [if_pos (by rw [h]; rfl)]

/-- The function `checkWin` with an asteroid left changes nothing. -/
theorem checkWin_ne_nil {α : Type} (w : World α) (h : w.gAsteroids ≠ []) :
    checkWin w = w := by
  unfold checkWin
  rw [if_neg (fun h0 => h (List.length_eq_zero.mp h0))]

/-- The function `checkWin` leaves the asteroids alone. -/
theorem checkWin_gAsteroids {α : Type} (w : World α) :
    (checkWin w).gAsteroids = w.gAsteroids := by
  unfold checkWin
  split_ifs <;> rfl

/-- The function `checkCollisions` leaves the asteroids alone. -/
theorem checkCollisions_gAsteroids {α : Type} [LinearOrderedField α] (m : MathFns α)
    (ship : Ship α) (asteroids : List (Asteroid α)) (w : World α) :
    (checkCollisions m ship asteroids w).gAsteroids = w.gAsteroids :=
  checkCollisions_keep m ship asteroids (fun s : World α => s.gAsteroids = w.gAsteroids)
    (fun _ h => h) w rfl

/-- The function `checkCollisions` keeps the game state or sets it to `Lost`. -/
theorem checkCollisions_gState_cases {α : Type} [LinearOrderedField α] (m : MathFns α)
    (ship : Ship α) (asteroids : List (Asteroid α)) (w : World α) :
    (checkCollisions m ship asteroids w).gState = w.gState ∨
    (checkCollisions m ship asteroids w).gState = GameState_Lost :=
  checkCollisions_keep m ship asteroids
    (fun s : World α => s.gState = w.gState ∨ s.gState = GameState_Lost)
    (fun _ _ => Or.inr rfl) w (Or.inl rfl)

/-- The asteroids when `checkWin` runs in a tick that starts in `Game`. -/
theorem updateBody_game_gAsteroids {α : Type} [LinearOrderedField α] (m : MathFns α)
    (w : World α) (h : w.gState = GameState_Game) :
    (updateBody m w).gAsteroids = (updateEntities m w).gAsteroids := by
  rw [updateBody_game m w h, checkWin_gAsteroids, checkCollisions_gAsteroids,
    updateShip_gAsteroids]

/-- C3 (win condition): `checkWin` sets `Won` when there is no asteroid and
changes nothing otherwise; a tick that starts in `Game` without a ship hit ends
in `Won` exactly when the asteroid collection is empty at the win check (the
asteroids then are those `updateEntities` left), and in `Game` otherwise. -/
theorem checkWin_spec {α : Type} [LinearOrderedField α] (m : MathFns α) (w : World α) :
    (w.gAsteroids = [] → checkWin w = { w with gState := GameState_Won }) ∧
    (w.gAsteroids ≠ [] → checkWin w = w) ∧
    (w.gState = GameState_Game →
      ¬ ShipHit (updateShip m (updateEntities m w)).gShip (updateEntities m w).gAsteroids →
      ((update m w).gState = GameState_Won ↔ (updateEntities m w).gAsteroids = []) ∧
      ((updateEntities m w).gAsteroids ≠ [] → (update m w).gState = GameState_Game)) := by
  refine ⟨checkWin_nil w, checkWin_ne_nil w, fun hg hmiss => ?_⟩
  have hbody := updateBody_game m w hg
  rw [updateShip_gAsteroids, checkCollisions_miss m _ _ _ hmiss] at hbody
  have hst : (updateShip m (updateEntities m w)).gState = GameState_Game := by
    rw [updateShip_gState]
    exact hg
  have has : (updateShip m (updateEntities m w)).gAsteroids = (updateEntities m w).gAsteroids :=
    updateShip_gAsteroids m _
  have hne : (updateEntities m w).gAsteroids ≠ [] → (update m w).gState = GameState_Game := by
    intro hne
    rw [update_gState, hbody, checkWin_ne_nil _ (by rw [has]; exact hne)]
    exact hst
  refine ⟨⟨fun hwon => ?_, fun hnil => ?_⟩, hne⟩
  · by_contra hne'
    rw [hne hne'] at hwon
    exact absurd hwon (by decide)
  · rw [update_gState, hbody, checkWin_nil _ (by rw [has]; exact hnil)]

/-- C3, at a world without asteroids and at a world with one asteroid far from
the ship. -/
theorem checkWin_spec_witness :
    checkWin (gameWorld []) = { gameWorld [] with gState := GameState_Won } ∧
    checkWin (gameWorld [barAsteroid { x := 100, y := 100 }])
      = gameWorld [barAsteroid { x := 100, y := 100 }] ∧
    (update demoMath (gameWorld [])).gState = GameState_Won ∧
    (update demoMath (gameWorld [barAsteroid { x := 100, y := 100 }])).gState = GameState_Game :=
  ⟨(checkWin_spec demoMath (gameWorld [])).1 rfl,
   (checkWin_spec demoMath (gameWorld [barAsteroid { x := 100, y := 100 }])).2.1
     (List.cons_ne_nil _ _),
   ((checkWin_spec demoMath (gameWorld [])).2.2 rfl
     (by unfold ShipHit HitPair; decide!)).1.mpr rfl,
   ((checkWin_spec demoMath (gameWorld [barAsteroid { x := 100, y := 100 }])).2.2 rfl
     (by unfold ShipHit HitPair; decide!)).2 (List.cons_ne_nil _ _)⟩

/-- The loop of `init` appends `k` large asteroids and touches nothing else
but the random sequence. -/
theorem initAsteroids_spec {α : Type} [LinearOrderedField α] (m : MathFns α) :
    ∀ (k : Nat) (w : World α),
      (initAsteroids m k w).gState = w.gState ∧
      (initAsteroids m k w).gShip = w.gShip ∧
      (initAsteroids m k w).gProjectiles = w.gProjectiles ∧
      (initAsteroids m k w).gParticles = w.gParticles ∧
      (initAsteroids m k w).gRunning = w.gRunning ∧
      ∃ l : List (Asteroid α), (initAsteroids m k w).gAsteroids = w.gAsteroids ++ l ∧
        l.length = k ∧ ∀ a ∈ l, a.size = ASTEROIDSIZE_LARGE
  | 0, w => ⟨rfl, rfl, rfl, rfl, rfl, [], (List.append_nil _).symm, rfl, fun _ h => absurd h (List.not_mem_nil _)⟩
  | k + 1, w => by
    obtain ⟨h1, h2, h3, h4, h5, l, hl, hlen, hsz⟩ := initAsteroids_spec m k
      { w with gAsteroids := w.gAsteroids ++ [(createAsteroid m ASTEROIDSIZE_LARGE w.randSeq).1],
               randSeq := (createAsteroid m ASTEROIDSIZE_LARGE w.randSeq).2 }
    refine ⟨h1, h2, h3, h4, h5, (createAsteroid m ASTEROIDSIZE_LARGE w.randSeq).1 :: l, ?_, ?_, ?_⟩
    · rw [initAsteroids, hl]
      simp only [List.append_assoc, List.singleton_append]
    · simp only [List.length_cons, hlen]
    · intro a ha
      rcases List.mem_cons.mp ha with rfl | ha
      · rfl
      · exact hsz a ha


/-- C4 (terminal states): from `Lost` or `Won` a tick keeps the game state, and
so does every handled event but the restart key, which leads to `Game`. -/
theorem terminal_states {α : Type} [LinearOrderedField α] (m : MathFns α) (w : World α)
    (h : w.gState = GameState_Lost ∨ w.gState = GameState_Won) :
    (update m w).gState = w.gState ∧
    (∀ (env : Env) (event : Event), event ≠ Event.SDL_KEYDOWN Key.SDLK_RETURN →
      (handleEvent m env event w).gState = w.gState) ∧
    (∀ env : Env, (handleEvent m env (Event.SDL_KEYDOWN Key.SDLK_RETURN) w).gState
      = GameState_Game) := by
  refine ⟨?_, ?_, ?_⟩
  · rw [update_gState]
    rcases h with h | h
    · rw [updateBody_lost m w h]
      rfl
    · rw [updateBody_won m w h, updateShip_gState]
      rfl
  · intro env event hev
    cases event with
    | SDL_QUIT => rfl
    | other => rfl
    | SDL_KEYDOWN key => cases key <;> first | rfl | exact absurd rfl hev
    | SDL_KEYUP key => cases key <;> rfl
  · intro env
    have hinit : ∀ w0 : World α, (init m env.seq env.shooting w0).gState = GameState_Game :=
      fun w0 => (initAsteroids_spec m N_INIT_ASTEROIDS _).1
    simp only [handleEvent, h, if_true]
    exact hinit _

/-- C4, at a world in state `Lost`. -/
theorem terminal_states_witness :
    (update demoMath lostWorld).gState = GameState_Lost ∧
    (handleEvent demoMath demoEnv (Event.SDL_KEYDOWN Key.SDLK_SPACE) lostWorld).gState
      = GameState_Lost ∧
    (handleEvent demoMath demoEnv (Event.SDL_KEYDOWN Key.SDLK_RETURN) lostWorld).gState
      = GameState_Game :=
  ⟨(terminal_states demoMath lostWorld (Or.inl rfl)).1,
   (terminal_states demoMath lostWorld (Or.inl rfl)).2.1 demoEnv _ (by decide),
   (terminal_states demoMath lostWorld (Or.inl rfl)).2.2 demoEnv⟩

/-- C5, amended: in state `Lost` a tick leaves the ship exactly as it was; the
tick still consists of the three entity updates (projectiles, particles,
asteroids) followed by the projectile collision pass. -/
theorem lost_tick_frame {α : Type} [LinearOrderedField α] (m : MathFns α) (w : World α)
    (h : w.gState = GameState_Lost) :
    (update m w).gShip = w.gShip ∧
    update m w = checkProjectileCollisions m (updateEntities m w).gProjectiles
      (updateEntities m w).gAsteroids (updateEntities m w) := by
  constructor
  · rw [update_gShip, updateBody_lost m w h]
    rfl
  · unfold update
    rw [updateBody_lost m w h]


/-- C5 fails as stated: in the world `lostWorld`, in state `Lost`, a tick moves
the projectile and the particle and increases their life counters. -/
theorem lost_tick_updates_entities :
    lostWorld.gState = GameState_Lost ∧
    ¬ ((update demoMath lostWorld).gShip = lostWorld.gShip ∧
       (update demoMath lostWorld).gAsteroids = lostWorld.gAsteroids ∧
       (update demoMath lostWorld).gProjectiles = lostWorld.gProjectiles ∧
       (update demoMath lostWorld).gParticles = lostWorld.gParticles) := by
  refine ⟨rfl, fun h => ?_⟩
  have hp := congrArg (List.map (fun p : Projectile ℚ => p.lifeCounter)) h.2.2.1
  revert hp
  decide!

/-- C5 amended, at the world `lostWorld`. -/
theorem lost_tick_frame_witness :
    (update demoMath lostWorld).gShip = lostWorld.gShip :=
  (lost_tick_frame demoMath lostWorld rfl).1

/-- If the `switch` of `update` ends in `Won`, no asteroid is left. -/
theorem updateBody_won_nil {α : Type} [LinearOrderedField α] (m : MathFns α) (w : World α)
    (hinv : w.gState = GameState_Won → w.gAsteroids = [])
    (hwon : (updateBody m w).gState = GameState_Won) : (updateBody m w).gAsteroids = [] := by
  cases hs : w.gState with
  | GameState_Game =>
    have has := updateBody_game_gAsteroids m w hs
    rw [updateBody_game m w hs] at hwon
    by_contra hne
    rw [has] at hne
    rw [checkWin_ne_nil _ (by rw [checkCollisions_gAsteroids, updateShip_gAsteroids]; exact hne)]
      at hwon
    rcases checkCollisions_gState_cases m (updateShip m (updateEntities m w)).gShip
      (updateShip m (updateEntities m w)).gAsteroids (updateShip m (updateEntities m w))
      with h | h
    · rw [h, updateShip_gState] at hwon
      have hg : (updateEntities m w).gState = GameState_Game := hs
      rw [hg] at hwon
      exact absurd hwon (by decide)
    · rw [h] at hwon
      exact absurd hwon (by decide)
  | GameState_Lost =>
    rw [updateBody_lost m w hs] at hwon
    have hl : (updateEntities m w).gState = GameState_Lost := hs
    rw [hl] at hwon
    exact absurd hwon (by decide)
  | GameState_Won =>
    rw [updateBody_won m w hs, updateShip_gAsteroids]
    show updateAsteroids m w.gAsteroids = []
    rw [hinv hs]
    rfl

/-- If a tick ends in `Won`, no asteroid is left and its collision pass did
nothing. -/
theorem update_won_nil {α : Type} [LinearOrderedField α] (m : MathFns α) (w : World α)
    (hinv : w.gState = GameState_Won → w.gAsteroids = [])
    (hwon : (update m w).gState = GameState_Won) :
    (update m w).gAsteroids = [] ∧ update m w = updateBody m w := by
  rw [update_gState] at hwon
  have hnil := updateBody_won_nil m w hinv hwon
  have heq : update m w = updateBody m w := by
    unfold update
    dsimp only
    rw [hnil]
    rfl
  rw [heq]
  exact ⟨hnil, rfl⟩

/-- The function `init` sets the game state to `Game`. -/
theorem init_gState {α : Type} [LinearOrderedField α] (m : MathFns α) (seq : Nat → Nat)
    (shooting : Bool) (w : World α) : (init m seq shooting w).gState = GameState_Game :=
  (initAsteroids_spec m N_INIT_ASTEROIDS _).1

/-- Handling an event keeps the property that `Won` has no asteroid. -/
theorem handleEvent_won_nil {α : Type} [LinearOrderedField α] (m : MathFns α) (env : Env)
    (event : Event) (w : World α) (hinv : w.gState = GameState_Won → w.gAsteroids = [])
    (hwon : (handleEvent m env event w).gState = GameState_Won) :
    (handleEvent m env event w).gAsteroids = [] := by
  cases event with
  | SDL_QUIT => exact hinv hwon
  | other => exact hinv hwon
  | SDL_KEYUP key => cases key <;> exact hinv hwon
  | SDL_KEYDOWN key =>
    cases key
    case SDLK_RETURN =>
      by_cases h : w.gState = GameState_Lost ∨ w.gState = GameState_Won
      · simp only [handleEvent, h, if_true, init_gState] at hwon
        exact absurd hwon (by decide)
      · simp only [handleEvent, h, if_false] at hwon ⊢
        exact hinv hwon
    all_goals exact hinv hwon

/-- In every reachable world in state `Won` the asteroid collection is empty. -/
theorem reachable_won_nil {α : Type} [LinearOrderedField α] (m : MathFns α) (w : World α)
    (hr : Reachable m w) : w.gState = GameState_Won → w.gAsteroids = [] := by
  induction hr with
  | start env =>
    intro h
    have hg : (startWorld m env).gState = GameState_Game :=
      init_gState m env.seq env.shooting zeroWorld
    rw [hg] at h
    exact absurd h (by decide)
  | tick _ ih => exact fun h => (update_won_nil m _ ih h).1
  | event env event _ ih => exact handleEvent_won_nil m env event _ ih

/-- C6: in every world reachable from the start by ticks and handled events,
state `Won` implies that there is no asteroid; hence the collision pass that
closes a tick in `Won` changes nothing. -/
theorem won_no_asteroids {α : Type} [LinearOrderedField α] (m : MathFns α) (w : World α)
    (hr : Reachable m w) (hwon : w.gState = GameState_Won) :
    w.gAsteroids = [] ∧
    checkProjectileCollisions m (updateBody m w).gProjectiles (updateBody m w).gAsteroids
      (updateBody m w) = updateBody m w := by
  have hnil := reachable_won_nil m w hr hwon
  refine ⟨hnil, ?_⟩
  have hbody : (updateBody m w).gAsteroids = [] := by
    rw [updateBody_won m w hwon, updateShip_gAsteroids]
    show updateAsteroids m w.gAsteroids = []
    rw [hnil]
    rfl
  rw [hbody]
  rfl


/-- C7 (restart): handling the restart key in `Lost` or `Won` gives state
`Game`, exactly 10 asteroids, all Large, the ship at `(512, 512)` with zero
velocity and speed, and no projectile nor particle; in `Game` the key changes
nothing. -/
theorem restart_spec {α : Type} [LinearOrderedField α] (m : MathFns α) (env : Env) (w : World α) :
    (w.gState = GameState_Lost ∨ w.gState = GameState_Won →
      (handleEvent m env (Event.SDL_KEYDOWN Key.SDLK_RETURN) w).gState = GameState_Game ∧
      (handleEvent m env (Event.SDL_KEYDOWN Key.SDLK_RETURN) w).gAsteroids.length = 10 ∧
      (∀ a ∈ (handleEvent m env (Event.SDL_KEYDOWN Key.SDLK_RETURN) w).gAsteroids,
        a.size = 50) ∧
      (handleEvent m env (Event.SDL_KEYDOWN Key.SDLK_RETURN) w).gShip.position
        = { x := 512, y := 512 } ∧
      (handleEvent m env (Event.SDL_KEYDOWN Key.SDLK_RETURN) w).gShip.velocity
        = { x := 0, y := 0 } ∧
      (handleEvent m env (Event.SDL_KEYDOWN Key.SDLK_RETURN) w).gShip.speed = 0 ∧
      (handleEvent m env (Event.SDL_KEYDOWN Key.SDLK_RETURN) w).gProjectiles = [] ∧
      (handleEvent m env (Event.SDL_KEYDOWN Key.SDLK_RETURN) w).gParticles = []) ∧
    (w.gState = GameState_Game →
      handleEvent m env (Event.SDL_KEYDOWN Key.SDLK_RETURN) w = w) := by
  constructor
  · intro h
    have hev : handleEvent m env (Event.SDL_KEYDOWN Key.SDLK_RETURN) w =
        init m env.seq env.shooting
          { w with gAsteroids := [], gParticles := [], gProjectiles := [] } := by
      simp only [handleEvent, h, if_true]
    rw [hev]
    obtain ⟨-, -, h3, h4, -, l, hl, hlen, hsz⟩ := initAsteroids_spec m N_INIT_ASTEROIDS
      { w with gAsteroids := [], gParticles := [], gProjectiles := [], randSeq := env.seq,
               gState := GameState_Game }
    simp only [List.nil_append] at hl
    refine ⟨rfl, ?_, ?_, ?_, rfl, rfl, ?_, ?_⟩
    · show (initAsteroids m N_INIT_ASTEROIDS _).gAsteroids.length = 10
      rw [hl, hlen]
      rfl
    · show ∀ a ∈ (initAsteroids m N_INIT_ASTEROIDS _).gAsteroids, a.size = 50
      rw [hl]
      exact hsz
    · show (createShip env.shooting : Ship α).position = _
      simp only [createShip, WINDOW_WIDTH, WINDOW_HEIGHT]
      norm_num
    · exact h3
    · exact h4
  · intro h
    simp only [handleEvent, h]
    simp

/-- C7, at a world in state `Lost` and at a world in state `Game`. -/
theorem restart_spec_witness :
    (handleEvent demoMath demoEnv (Event.SDL_KEYDOWN Key.SDLK_RETURN) lostWorld).gAsteroids.length
      = 10 ∧
    (handleEvent demoMath demoEnv (Event.SDL_KEYDOWN Key.SDLK_RETURN) lostWorld).gProjectiles
      = [] ∧
    handleEvent demoMath demoEnv (Event.SDL_KEYDOWN Key.SDLK_RETURN) (gameWorld []) = gameWorld [] :=
  ⟨((restart_spec demoMath demoEnv lostWorld).1 (Or.inl rfl)).2.1,
   ((restart_spec demoMath demoEnv lostWorld).1 (Or.inl rfl)).2.2.2.2.2.2.1,
   (restart_spec demoMath demoEnv (gameWorld [])).2 rfl⟩

end StateMachine

/-! ## The demonstration game: state `Won` is reachable -/

section DemoGame

/-- At a negative angle `demoMath` gives one of the two ends of the vertical edge. -/
theorem demoVertex_neg (x : ℚ) (hx : x < 0) :
    demoVertex x = { x := 0, y := if ⌊x⌋ % 2 = 0 then 7 / 2 else -(7 / 2) } := by
  simp only [demoVertex, demoMath, if_neg (ne_of_lt hx)]

/-- The three points `demoMath` can give. -/
theorem demoVertex_cases (x : ℚ) :
    demoVertex x = { x := 1, y := 0 } ∨ demoVertex x = { x := 0, y := 7 / 2 } ∨
    demoVertex x = { x := 0, y := -(7 / 2) } := by
  simp only [demoVertex, demoMath]
  split_ifs
  · exact Or.inl rfl
  · exact Or.inr (Or.inl rfl)
  · exact Or.inr (Or.inr rfl)

/-- Two vertices one step apart at negative angles are the two ends of the
vertical edge. -/
theorem demoVertex_pair (x : ℚ) (hx : x < 0) :
    (demoVertex (x - 1) = { x := 0, y := 7 / 2 } ∧ demoVertex x = { x := 0, y := -(7 / 2) }) ∨
    (demoVertex (x - 1) = { x := 0, y := -(7 / 2) } ∧ demoVertex x = { x := 0, y := 7 / 2 }) := by
  rw [demoVertex_neg x hx, demoVertex_neg (x - 1) (by linarith), Int.floor_sub_one]
  by_cases h : ⌊x⌋ % 2 = 0
  · have h' : ¬ (⌊x⌋ - 1) % 2 = 0 := by omega
    rw [if_pos h, if_neg h']
    exact Or.inr ⟨rfl, rfl⟩
  · have h' : (⌊x⌋ - 1) % 2 = 0 := by omega
    rw [if_neg h, if_pos h']
    exact Or.inl ⟨rfl, rfl⟩

/-- What `updateAsteroid` does to an asteroid of the pile. -/
theorem updateAsteroid_pile (a : Asteroid ℚ) (h : PileAsteroid a) :
    (updateAsteroid demoMath a).position = { x := 508, y := 512 } ∧
    (updateAsteroid demoMath a).velocity = { x := 0, y := 0 } ∧
    (updateAsteroid demoMath a).angularVelocity = -(1 / 50) ∧
    (updateAsteroid demoMath a).angle < 0 ∧
    (updateAsteroid demoMath a).size = a.size ∧
    ∀ i : Fin N_LINES, (updateAsteroid demoMath a).shape.lines i =
      { p1 := demoVertex ((((i : Nat) : ℚ) - 1) + (updateAsteroid demoMath a).angle)
        p2 := demoVertex (((i : Nat) : ℚ) + (updateAsteroid demoMath a).angle) } := by
  obtain ⟨hp, hv, hw, ha, -, hr⟩ := h
  have hsqrt : distance demoMath { x := 0, y := 0 } (a.shape.lines ⟨0, by decide⟩).p1 = 1 := by
    simp only [distance, demoMath]
    rw [if_neg (not_le.mpr hr)]
  refine ⟨?_, hv, hw, ?_, rfl, ?_⟩
  · simp only [updateAsteroid, hp, hv, wrapPosition, WRAPBUFFER_X, WRAPBUFFER_Y, WINDOW_WIDTH,
      WINDOW_HEIGHT]
    norm_num
  · show a.angle + a.angularVelocity < 0
    rw [hw]
    linarith
  · intro i
    simp only [updateAsteroid, hsqrt, demoVertex]
    simp only [demoMath, N_LINES]
    norm_num

/-- An updated asteroid of the pile still is one. -/
theorem updateAsteroid_pileAsteroid (a : Asteroid ℚ) (h : PileAsteroid a) :
    PileAsteroid (updateAsteroid demoMath a) := by
  obtain ⟨hp, hv, hw, ha, hs, hl⟩ := updateAsteroid_pile a h
  refine ⟨hp, hv, hw, ha.le, ?_, ?_⟩
  · rw [hs]
    exact h.2.2.2.2.1
  · rw [hl]
    have hneg : ((((⟨0, by decide⟩ : Fin N_LINES) : Nat) : ℚ) - 1) +
        (updateAsteroid demoMath a).angle < 0 := by
      simp only [Nat.cast_zero]
      linarith
    rw [demoVertex_neg _ hneg]
    dsimp only
    split_ifs <;> norm_num

/-- Updating an asteroid does not change its size class. -/
theorem updateAsteroid_hitsLeft (a : Asteroid ℚ) :
    hitsLeft (updateAsteroid demoMath a) = hitsLeft a := rfl

/-- No edge of the ship crosses an edge between two of the three possible
vertices of a demonstration asteroid. -/
theorem demo_ship_clear :
    ∀ j : Fin N_SHIP_LINES,
    ∀ u ∈ [({ x := 1, y := 0 } : Vector2f ℚ), { x := 0, y := 7 / 2 }, { x := 0, y := -(7 / 2) }],
    ∀ v ∈ [({ x := 1, y := 0 } : Vector2f ℚ), { x := 0, y := 7 / 2 }, { x := 0, y := -(7 / 2) }],
      linesIntersect ({ x := 512, y := 512 } : Vector2f ℚ) { x := 508, y := 512 }
        ((createShip false : Ship ℚ).lines j) { p1 := u, p2 := v } = false := by
  decide!

/-- Every vertex of a demonstration asteroid is one of the three points. -/
theorem demoVertex_mem (x : ℚ) :
    demoVertex x ∈
      [({ x := 1, y := 0 } : Vector2f ℚ), { x := 0, y := 7 / 2 }, { x := 0, y := -(7 / 2) }] := by
  rcases demoVertex_cases x with h | h | h <;> rw [h] <;> simp

/-- The demonstration ship is at the window centre. -/
theorem demoShip_position (b : Bool) (c : Int) :
    (demoShip b c).position = { x := 512, y := 512 } := by
  simp only [demoShip, createShip, WINDOW_WIDTH, WINDOW_HEIGHT]
  norm_num

/-- The demonstration ship does not touch an updated asteroid of the pile. -/
theorem demo_no_hit (b : Bool) (c : Int) (a : Asteroid ℚ) (h : PileAsteroid a) :
    ¬ HitPair (demoShip b c) (updateAsteroid demoMath a) := by
  obtain ⟨hp, -, -, -, -, hl⟩ := updateAsteroid_pile a h
  rintro ⟨i, j, hij⟩
  rw [hl i, hp, demoShip_position] at hij
  rw [show (demoShip b c).lines j = (createShip false : Ship ℚ).lines j from rfl,
    demo_ship_clear j _ (demoVertex_mem (((i : Nat) : ℚ) - 1 + (updateAsteroid demoMath a).angle))
      _ (demoVertex_mem (((i : Nat) : ℚ) + (updateAsteroid demoMath a).angle))] at hij
  exact absurd hij (by decide)

/-- The demonstration ship does not touch the updated pile. -/
theorem demo_no_shipHit (b : Bool) (c : Int) (as : List (Asteroid ℚ))
    (h : ∀ a ∈ as, PileAsteroid a) :
    ¬ ShipHit (demoShip b c) (updateAsteroids demoMath as) := by
  rintro ⟨a', ha', hit⟩
  obtain ⟨a, ha, rfl⟩ := List.mem_map.mp ha'
  exact demo_no_hit b c a (h a ha) hit

/-- The path of the projectile just fired crosses the vertical edge, whichever
way round it is stored. -/
theorem demo_shot_crosses :
    linesIntersect ({ x := 0, y := 0 } : Vector2f ℚ) { x := 508, y := 512 }
      { p1 := demoShot.position,
        p2 := { x := demoShot.position.x - demoShot.velocity.x,
                y := demoShot.position.y - demoShot.velocity.y } }
      { p1 := { x := 0, y := 7 / 2 }, p2 := { x := 0, y := -(7 / 2) } } = true ∧
    linesIntersect ({ x := 0, y := 0 } : Vector2f ℚ) { x := 508, y := 512 }
      { p1 := demoShot.position,
        p2 := { x := demoShot.position.x - demoShot.velocity.x,
                y := demoShot.position.y - demoShot.velocity.y } }
      { p1 := { x := 0, y := -(7 / 2) }, p2 := { x := 0, y := 7 / 2 } } = true := by
  decide!

/-- The projectile just fired crosses edge 0 of an updated asteroid of the pile. -/
theorem demo_firstLineHit (a : Asteroid ℚ) (h : PileAsteroid a) :
    firstLineHit [demoShot] (updateAsteroid demoMath a) = some 0 := by
  obtain ⟨hp, -, -, ha, -, hl⟩ := updateAsteroid_pile a h
  have h0 : firstProjectileHit (updateAsteroid demoMath a)
      ((updateAsteroid demoMath a).shape.lines ⟨0, by decide⟩) [demoShot] 0 = some 0 := by
    rw [hl]
    simp only [firstProjectileHit, hp, Nat.cast_zero, zero_sub, zero_add]
    have hpair := demoVertex_pair (updateAsteroid demoMath a).angle ha
    rw [show (-1 : ℚ) + (updateAsteroid demoMath a).angle =
      (updateAsteroid demoMath a).angle - 1 by ring]
    rcases hpair with ⟨h1, h2⟩ | ⟨h1, h2⟩
    · rw [h1, h2, demo_shot_crosses.1]
      rfl
    · rw [h1, h2, demo_shot_crosses.2]
      rfl
  unfold firstLineHit
  rw [show List.finRange N_LINES = ⟨0, by decide⟩ :: (List.finRange N_LINES).tail from rfl]
  rw [List.findSome?_cons, h0]

/-- The demonstration sequence has period 6. -/
theorem demoSeq_period (n : Nat) : demoSeq (n + 6) = demoSeq n := by
  simp only [demoSeq, Nat.add_mod_right]

/-- On the demonstration sequence `createAsteroid` returns an asteroid of the
pile and leaves the sequence as it was. -/
theorem createAsteroid_demo (s : AsteroidSize) (g : Nat → Nat) (hg : ∀ n, g n = demoSeq n)
    (hs : s = ASTEROIDSIZE_SMALL ∨ s = ASTEROIDSIZE_MEDIUM ∨ s = ASTEROIDSIZE_LARGE) :
    PileAsteroid (createAsteroid demoMath s g).1 ∧
    (∀ n, (createAsteroid demoMath s g).2 n = demoSeq n) := by
  have h0 : g 0 = 0 := hg 0
  have h1 : g 1 = 0 := hg 1
  have h2 : g 2 = 0 := hg 2
  have h3 : g 3 = 0 := hg 3
  have h4 : g 4 = 508 := hg 4
  have h5 : g 5 = 512 := hg 5
  refine ⟨⟨?_, ?_, ?_, ?_, hs, ?_⟩, ?_⟩
  · simp only [createAsteroid, randomDirection, randomNormal, random, rand, h0, h1, h2, h3,
      h4, h5, WINDOW_WIDTH, WINDOW_HEIGHT]
    norm_num
  · simp only [createAsteroid, randomDirection, randomNormal, random, rand, h0, h1, h2, h3,
      h4, h5, demoMath]
    rcases hs with h | h | h <;> rw [h] <;>
      norm_num [ASTEROIDSIZE_SMALL, ASTEROIDSIZE_MEDIUM, ASTEROIDSIZE_LARGE, ASTEROIDVEL_SMALL,
        ASTEROIDVEL_MEDIUM, ASTEROIDVEL_LARGE]
  · simp only [createAsteroid, randomDirection, rand, h0]
    norm_num
  · exact le_refl _
  · simp only [createAsteroid, demoMath, N_LINES]
    rcases hs with h | h | h <;> rw [h] <;>
      norm_num [ASTEROIDSIZE_SMALL, ASTEROIDSIZE_MEDIUM, ASTEROIDSIZE_LARGE]
  · intro n
    show g (n + 1 + 1 + 1 + 1 + 1 + 1) = demoSeq n
    rw [hg]
    exact demoSeq_period n

/-- The demonstration ship with `shooting` set and no cooldown fires and stays put. -/
theorem updateShip_demo_fire (w : World ℚ) (h : w.gShip = demoShip true 0) :
    updateShip demoMath w =
      { w with gShip := demoShip true 16, gProjectiles := w.gProjectiles ++ [demoShot] } := by
  simp only [updateShip, h, demoShip, createShip, wrapPosition, fireProjectileFromPoint, demoShot,
    createProjectile, demoMath, WRAPBUFFER_X, WRAPBUFFER_Y, WINDOW_WIDTH, WINDOW_HEIGHT,
    MS_PER_UPDATE, PROJECTILE_COOLDOWN, SHIP_ANGULARSPEED, PROJECTILE_SPEED]
  norm_num

/-- The demonstration ship with `shooting` unset stays put and resets its cooldown. -/
theorem updateShip_demo_idle (w : World ℚ) (c : Int) (h : w.gShip = demoShip false c) :
    updateShip demoMath w = { w with gShip := demoShip false 0 } := by
  simp only [updateShip, h, demoShip, createShip, wrapPosition, demoMath, WRAPBUFFER_X,
    WRAPBUFFER_Y, WINDOW_WIDTH, WINDOW_HEIGHT, PROJECTILE_COOLDOWN, SHIP_ANGULARSPEED]
  norm_num

/-- The function `splitAsteroid` leaves the projectiles alone. -/
theorem splitAsteroid_gProjectiles {α : Type} [LinearOrderedField α] (m : MathFns α) (i : Nat)
    (w : World α) : (splitAsteroid m i w).gProjectiles = w.gProjectiles := by
  unfold splitAsteroid
  split
  · rfl
  · split_ifs <;> rfl

/-- A small asteroid takes one hit. -/
theorem hitsLeft_small (a : Asteroid ℚ) (h : a.size = ASTEROIDSIZE_SMALL) : hitsLeft a = 1 := by
  unfold hitsLeft
  rw [h, if_neg (by decide), if_neg (by decide)]

/-- A medium asteroid takes three hits. -/
theorem hitsLeft_medium (a : Asteroid ℚ) (h : a.size = ASTEROIDSIZE_MEDIUM) :
    hitsLeft a = 3 := by
  unfold hitsLeft
  rw [h, if_neg (by decide), if_pos rfl]

/-- A large asteroid takes seven hits. -/
theorem hitsLeft_large (a : Asteroid ℚ) (h : a.size = ASTEROIDSIZE_LARGE) : hitsLeft a = 7 := by
  unfold hitsLeft
  rw [h, if_pos rfl]

/-- Every asteroid takes at least one hit. -/
theorem hitsLeft_pos (a : Asteroid ℚ) : 0 < hitsLeft a := by
  unfold hitsLeft
  split_ifs <;> decide

/-- Only the empty collection takes no hit. -/
theorem totalHits_eq_zero (as : List (Asteroid ℚ)) (h : totalHits as = 0) : as = [] := by
  cases as with
  | nil => rfl
  | cons a l =>
    have := hitsLeft_pos a
    simp only [totalHits, List.map_cons, List.sum_cons] at h
    omega

/-- The number of hits left does not depend on the order. -/
theorem totalHits_perm {l₁ l₂ : List (Asteroid ℚ)} (h : l₁.Perm l₂) :
    totalHits l₁ = totalHits l₂ :=
  (h.map hitsLeft).sum_eq

/-- Updating the asteroids does not change the number of hits left. -/
theorem totalHits_updateAsteroids (as : List (Asteroid ℚ)) :
    totalHits (updateAsteroids demoMath as) = totalHits as := by
  simp only [totalHits, updateAsteroids, List.map_map]
  rfl

/-- Splitting the first asteroid of a pile: the pile stays a pile, one hit less
is left, and the random sequence still is the demonstration sequence. -/
theorem splitAsteroid_pile (w : World ℚ) (a : Asteroid ℚ) (rest : List (Asteroid ℚ))
    (has : w.gAsteroids = a :: rest) (hpile : ∀ b ∈ w.gAsteroids, PileAsteroid b)
    (hseq : ∀ n, w.randSeq n = demoSeq n) :
    (∀ b ∈ (splitAsteroid demoMath 0 w).gAsteroids, PileAsteroid b) ∧
    totalHits (splitAsteroid demoMath 0 w).gAsteroids + 1 = totalHits w.gAsteroids ∧
    (∀ n, (splitAsteroid demoMath 0 w).randSeq n = demoSeq n) := by
  have hi : w.gAsteroids[0]? = some a := by rw [has]; exact List.getElem?_cons_zero
  have ha : PileAsteroid a := hpile a (by rw [has]; exact List.mem_cons_self _ _)
  have hrest : ∀ b ∈ rest, PileAsteroid b :=
    fun b hb => hpile b (by rw [has]; exact List.mem_cons_of_mem _ hb)
  have herase : w.gAsteroids.eraseIdx 0 = rest := by rw [has]; rfl
  by_cases hsmall : a.size = ASTEROIDSIZE_SMALL
  · rw [splitAsteroid_small demoMath w 0 a hi hsmall]
    have hperm := destroyAsteroid_perm w 0 (by rw [has]; exact Nat.succ_pos _)
    rw [herase] at hperm
    refine ⟨fun b hb => hrest b (hperm.mem_iff.mp hb), ?_, hseq⟩
    rw [totalHits_perm hperm, has]
    simp only [totalHits, List.map_cons, List.sum_cons]
    rw [hitsLeft_small a hsmall]
    omega
  · obtain ⟨s, hsz⟩ : ∃ s : AsteroidSize, s = (if a.size = ASTEROIDSIZE_MEDIUM then
        ASTEROIDSIZE_SMALL else if a.size = ASTEROIDSIZE_LARGE then ASTEROIDSIZE_MEDIUM
        else a.size) := ⟨_, rfl⟩
    have hcases : (a.size = ASTEROIDSIZE_MEDIUM ∧ s = ASTEROIDSIZE_SMALL) ∨
        (a.size = ASTEROIDSIZE_LARGE ∧ s = ASTEROIDSIZE_MEDIUM) := by
      rcases ha.2.2.2.2.1 with h | h | h
      · exact absurd h hsmall
      · exact Or.inl ⟨h, by rw [hsz, if_pos h]⟩
      · refine Or.inr ⟨h, ?_⟩
        rw [hsz, h]
        rfl
    have hs' : s = ASTEROIDSIZE_SMALL ∨ s = ASTEROIDSIZE_MEDIUM ∨ s = ASTEROIDSIZE_LARGE := by
      rcases hcases with h | h
      · exact Or.inl h.2
      · exact Or.inr (Or.inl h.2)
    obtain ⟨hc1, hg1⟩ := createAsteroid_demo s w.randSeq hseq hs'
    obtain ⟨hc2, hg2⟩ := createAsteroid_demo s (createAsteroid demoMath s w.randSeq).2 hg1 hs'
    have hperm := splitAsteroid_not_small_perm demoMath w 0 a hi hsmall s hsz
    rw [herase] at hperm
    have hpos : a.position = { x := 508, y := 512 } := ha.1
    have hk1 : PileAsteroid
        { (createAsteroid demoMath s w.randSeq).1 with position := a.position } :=
      ⟨hpos, hc1.2.1, hc1.2.2.1, hc1.2.2.2.1, hc1.2.2.2.2.1, hc1.2.2.2.2.2⟩
    have hk2 : PileAsteroid
        { (createAsteroid demoMath s (createAsteroid demoMath s w.randSeq).2).1 with
          position := a.position } :=
      ⟨hpos, hc2.2.1, hc2.2.2.1, hc2.2.2.2.1, hc2.2.2.2.2.1, hc2.2.2.2.2.2⟩
    refine ⟨?_, ?_, ?_⟩
    · intro b hb
      rcases List.mem_append.mp (hperm.mem_iff.mp hb) with h | h
      · exact hrest b h
      · rcases List.mem_cons.mp h with h | h
        · rw [h]
          exact hk1
        · rw [List.mem_singleton.mp h]
          exact hk2
    · rw [totalHits_perm hperm, has]
      simp only [totalHits, List.map_cons, List.map_append, List.sum_cons, List.sum_append,
        List.map_nil, List.sum_nil]
      rcases hcases with ⟨h1, h2⟩ | ⟨h1, h2⟩
      · rw [hitsLeft_medium a h1, hitsLeft_small _ h2, hitsLeft_small _ h2]
        omega
      · rw [hitsLeft_large a h1, hitsLeft_medium _ h2, hitsLeft_medium _ h2]
        omega
    · rw [splitAsteroid_not_small demoMath w 0 a hi hsmall s hsz]
      exact hg2

/-- Without projectiles no asteroid is hit. -/
theorem firstAsteroidHit_nil {α : Type} [LinearOrderedField α] :
    ∀ (asteroids : List (Asteroid α)) (k : Nat),
      firstAsteroidHit ([] : List (Projectile α)) asteroids k = none
  | [], _ => rfl
  | a :: rest, k => by
    have h : firstLineHit ([] : List (Projectile α)) a = none := by
      unfold firstLineHit
      rw [List.findSome?_eq_none_iff]
      intro i _
      rfl
    rw [firstAsteroidHit, h]
    exact firstAsteroidHit_nil rest (k + 1)

/-- The updated pile is a pile. -/
theorem updateAsteroids_pile (as : List (Asteroid ℚ)) (h : ∀ a ∈ as, PileAsteroid a) :
    ∀ b ∈ updateAsteroids demoMath as, PileAsteroid b := by
  intro b hb
  obtain ⟨a, ha, rfl⟩ := List.mem_map.mp hb
  exact updateAsteroid_pileAsteroid a (h a ha)

/-- A tick of the demonstration game in which the ship fires: the shot hits the
first asteroid of the pile. -/
theorem demo_tick_fire (w : World ℚ) (h : PileWorld true 0 w) (hne : w.gAsteroids ≠ []) :
    PileWorld true 16 (update demoMath w) ∧
    totalHits (update demoMath w).gAsteroids + 1 = totalHits w.gAsteroids := by
  obtain ⟨hst, hship, hproj, hpile, hseq⟩ := h
  obtain ⟨a, rest, has⟩ := List.exists_cons_of_ne_nil hne
  have hupd : updateShip demoMath (updateEntities demoMath w) =
      { w with gProjectiles := [demoShot], gParticles := updateProjectiles w.gParticles 500,
               gAsteroids := updateAsteroids demoMath w.gAsteroids,
               gShip := demoShip true 16 } := by
    rw [updateShip_demo_fire _ (show (updateEntities demoMath w).gShip = demoShip true 0
      from hship)]
    simp only [updateEntities, hproj]
    rfl
  have hbody : updateBody demoMath w =
      { w with gProjectiles := [demoShot], gParticles := updateProjectiles w.gParticles 500,
               gAsteroids := updateAsteroids demoMath w.gAsteroids,
               gShip := demoShip true 16 } := by
    rw [updateBody_game demoMath w hst, hupd,
      checkCollisions_miss _ _ _ _ (demo_no_shipHit true 16 _ hpile)]
    refine checkWin_ne_nil _ ?_
    show updateAsteroids demoMath w.gAsteroids ≠ []
    rw [has]
    exact List.cons_ne_nil _ _
  have hhit : firstAsteroidHit [demoShot] (updateAsteroids demoMath w.gAsteroids) 0 =
      some (0, updateAsteroid demoMath a, 0) := by
    rw [has]
    simp only [updateAsteroids, List.map_cons, firstAsteroidHit,
      demo_firstLineHit a (hpile a (by rw [has]; exact List.mem_cons_self _ _))]
  have hupdate : update demoMath w =
      { splitAsteroid demoMath 0 (explode demoMath (updateAsteroid demoMath a).position
          { w with gProjectiles := [demoShot], gParticles := updateProjectiles w.gParticles 500,
                   gAsteroids := updateAsteroids demoMath w.gAsteroids,
                   gShip := demoShip true 16 }) with
        gProjectiles := destroyProjectile 0 (splitAsteroid demoMath 0
          (explode demoMath (updateAsteroid demoMath a).position
          { w with gProjectiles := [demoShot], gParticles := updateProjectiles w.gParticles 500,
                   gAsteroids := updateAsteroids demoMath w.gAsteroids,
                   gShip := demoShip true 16 })).gProjectiles } := by
    unfold update
    rw [hbody]
    unfold checkProjectileCollisions
    simp only [hhit]
  obtain ⟨hp', hh', hs'⟩ := splitAsteroid_pile
    (explode demoMath (updateAsteroid demoMath a).position
      { w with gProjectiles := [demoShot], gParticles := updateProjectiles w.gParticles 500,
               gAsteroids := updateAsteroids demoMath w.gAsteroids,
               gShip := demoShip true 16 })
    (updateAsteroid demoMath a) (updateAsteroids demoMath rest)
    (by show updateAsteroids demoMath w.gAsteroids = _; rw [has]; rfl)
    (updateAsteroids_pile _ hpile) hseq
  rw [hupdate]
  refine ⟨⟨?_, ?_, ?_, hp', hs'⟩, ?_⟩
  · show (splitAsteroid demoMath 0 _).gState = _
    rw [splitAsteroid_gState]
    exact hst
  · show (splitAsteroid demoMath 0 _).gShip = _
    rw [splitAsteroid_gShip]
    rfl
  · show destroyProjectile 0 (splitAsteroid demoMath 0 _).gProjectiles = []
    rw [splitAsteroid_gProjectiles]
    rfl
  · show totalHits (splitAsteroid demoMath 0 _).gAsteroids + 1 = _
    rw [hh']
    exact totalHits_updateAsteroids _

/-- A tick of the demonstration game in which the ship does not fire. -/
theorem demo_tick_idle (w : World ℚ) (c : Int) (h : PileWorld false c w) :
    (w.gAsteroids ≠ [] → PileWorld false 0 (update demoMath w) ∧
      totalHits (update demoMath w).gAsteroids = totalHits w.gAsteroids) ∧
    (w.gAsteroids = [] → (update demoMath w).gState = GameState_Won) := by
  obtain ⟨hst, hship, hproj, hpile, hseq⟩ := h
  have hupd : updateShip demoMath (updateEntities demoMath w) =
      { w with gParticles := updateProjectiles w.gParticles 500,
               gAsteroids := updateAsteroids demoMath w.gAsteroids,
               gShip := demoShip false 0 } := by
    rw [updateShip_demo_idle _ c (show (updateEntities demoMath w).gShip = demoShip false c
      from hship)]
    simp only [updateEntities, hproj]
    rfl
  have hbody : updateBody demoMath w = checkWin
      { w with gParticles := updateProjectiles w.gParticles 500,
               gAsteroids := updateAsteroids demoMath w.gAsteroids,
               gShip := demoShip false 0 } := by
    rw [updateBody_game demoMath w hst, hupd,
      checkCollisions_miss _ _ _ _ (demo_no_shipHit false 0 _ hpile)]
  constructor
  · intro hne
    have hne' : updateAsteroids demoMath w.gAsteroids ≠ [] := by
      intro h0
      exact hne (List.map_eq_nil_iff.mp h0)
    rw [checkWin_ne_nil _ hne'] at hbody
    have hupdate : update demoMath w =
        { w with gParticles := updateProjectiles w.gParticles 500,
                 gAsteroids := updateAsteroids demoMath w.gAsteroids,
                 gShip := demoShip false 0 } := by
      unfold update
      rw [hbody]
      unfold checkProjectileCollisions
      simp only [hproj, firstAsteroidHit_nil]
    rw [hupdate]
    exact ⟨⟨hst, rfl, hproj, updateAsteroids_pile _ hpile, hseq⟩, totalHits_updateAsteroids _⟩
  · intro hnil
    rw [update_gState, hbody, checkWin_nil _ (by show updateAsteroids demoMath w.gAsteroids = []; rw [hnil]; rfl)]

/-- Running two lists of inputs one after the other. -/
theorem run_append {α : Type} [LinearOrderedField α] (m : MathFns α) (l₁ l₂ : List Input)
    (w : World α) : run m (l₁ ++ l₂) w = run m l₂ (run m l₁ w) :=
  List.foldl_append _ _ _ _

/-- Running inputs from a reachable world gives a reachable world. -/
theorem reachable_run {α : Type} [LinearOrderedField α] (m : MathFns α) :
    ∀ (inputs : List Input) (w : World α), Reachable m w → Reachable m (run m inputs w)
  | [], _, h => h
  | Input.tick :: l, w, h => reachable_run m l (update m w) (Reachable.tick h)
  | Input.event env e :: l, w, h =>
    reachable_run m l (handleEvent m env e w) (Reachable.event env e h)

/-- One round of the demonstration game clears one hit; the last round ends in
`Won`. -/
theorem demo_round (w : World ℚ) (k : Nat) (h : PileWorld false 0 w)
    (hk : totalHits w.gAsteroids = k + 1) :
    (k = 0 → (run demoMath demoRound w).gState = GameState_Won) ∧
    (0 < k → PileWorld false 0 (run demoMath demoRound w) ∧
      totalHits (run demoMath demoRound w).gAsteroids = k) := by
  have hne : w.gAsteroids ≠ [] := by
    intro h0
    rw [h0] at hk
    have : totalHits ([] : List (Asteroid ℚ)) = 0 := rfl
    omega
  have h1 : PileWorld true 0
      (handleEvent demoMath demoEnv (Event.SDL_KEYDOWN Key.SDLK_SPACE) w) :=
    ⟨h.1, by show ({ w.gShip with shooting := true } : Ship ℚ) = _; rw [h.2.1]; rfl,
      h.2.2.1, h.2.2.2.1, h.2.2.2.2⟩
  obtain ⟨h2, hh2⟩ := demo_tick_fire _ h1 hne
  have h3 : PileWorld false 16
      (handleEvent demoMath demoEnv (Event.SDL_KEYUP Key.SDLK_SPACE)
        (update demoMath (handleEvent demoMath demoEnv (Event.SDL_KEYDOWN Key.SDLK_SPACE) w))) :=
    ⟨h2.1, by
      show ({ (update demoMath _).gShip with shooting := false } : Ship ℚ) = _
      rw [h2.2.1]
      rfl, h2.2.2.1, h2.2.2.2.1, h2.2.2.2.2⟩
  have hh3 : totalHits (update demoMath (handleEvent demoMath demoEnv
      (Event.SDL_KEYDOWN Key.SDLK_SPACE) w)).gAsteroids = k := by
    have : totalHits (handleEvent demoMath demoEnv (Event.SDL_KEYDOWN Key.SDLK_SPACE)
        w).gAsteroids = k + 1 := hk
    omega
  obtain ⟨h4, h5⟩ := demo_tick_idle _ 16 h3
  have hrun : run demoMath demoRound w = update demoMath
      (handleEvent demoMath demoEnv (Event.SDL_KEYUP Key.SDLK_SPACE)
        (update demoMath (handleEvent demoMath demoEnv (Event.SDL_KEYDOWN Key.SDLK_SPACE) w))) :=
    rfl
  rw [hrun]
  constructor
  · intro hk0
    refine h5 (totalHits_eq_zero _ ?_)
    show totalHits (update demoMath _).gAsteroids = 0
    rw [hh3, hk0]
  · intro hk0
    have hne4 : (handleEvent demoMath demoEnv (Event.SDL_KEYUP Key.SDLK_SPACE)
        (update demoMath (handleEvent demoMath demoEnv (Event.SDL_KEYDOWN Key.SDLK_SPACE)
          w))).gAsteroids ≠ [] := by
      intro h0
      have h0' : (update demoMath (handleEvent demoMath demoEnv
          (Event.SDL_KEYDOWN Key.SDLK_SPACE) w)).gAsteroids = [] := h0
      rw [h0'] at hh3
      have : totalHits ([] : List (Asteroid ℚ)) = 0 := rfl
      omega
    obtain ⟨h6, h7⟩ := h4 hne4
    exact ⟨h6, h7.trans hh3⟩

/-- The demonstration game is won after as many rounds as hits are left. -/
theorem demo_game_won :
    ∀ (k : Nat) (w : World ℚ), PileWorld false 0 w → totalHits w.gAsteroids = k + 1 →
      (run demoMath (demoScript (k + 1)) w).gState = GameState_Won
  | 0, w, h, hk => by
    rw [demoScript, run_append]
    exact (demo_round w 0 h hk).1 rfl
  | k + 1, w, h, hk => by
    rw [demoScript, run_append]
    obtain ⟨h', hk'⟩ := (demo_round w (k + 1) h hk).2 (Nat.succ_pos k)
    exact demo_game_won k _ h' hk'

/-- The loop of `init` on the demonstration sequence builds a pile. -/
theorem initAsteroids_pile :
    ∀ (k : Nat) (w : World ℚ), (∀ a ∈ w.gAsteroids, PileAsteroid a) →
      (∀ n, w.randSeq n = demoSeq n) →
      (∀ a ∈ (initAsteroids demoMath k w).gAsteroids, PileAsteroid a) ∧
      (∀ n, (initAsteroids demoMath k w).randSeq n = demoSeq n) ∧
      totalHits (initAsteroids demoMath k w).gAsteroids = totalHits w.gAsteroids + 7 * k
  | 0, _, hp, hs => ⟨hp, hs, rfl⟩
  | k + 1, w, hp, hs => by
    obtain ⟨hc, hg⟩ := createAsteroid_demo ASTEROIDSIZE_LARGE w.randSeq hs
      (Or.inr (Or.inr rfl))
    obtain ⟨h1, h2, h3⟩ := initAsteroids_pile k
      { w with gAsteroids := w.gAsteroids ++
                 [(createAsteroid demoMath ASTEROIDSIZE_LARGE w.randSeq).1],
               randSeq := (createAsteroid demoMath ASTEROIDSIZE_LARGE w.randSeq).2 }
      (by
        intro a ha
        rcases List.mem_append.mp ha with h | h
        · exact hp a h
        · rw [List.mem_singleton.mp h]
          exact hc)
      hg
    refine ⟨h1, h2, ?_⟩
    rw [initAsteroids, h3]
    simp only [totalHits, List.map_append, List.sum_append, List.map_cons, List.map_nil,
      List.sum_cons, List.sum_nil]
    rw [hitsLeft_large _ rfl]
    omega

/-- The demonstration game starts with a pile of 10 large asteroids, 70 hits. -/
theorem demo_start_pile :
    PileWorld false 0 (startWorld demoMath demoEnv) ∧
    totalHits (startWorld demoMath demoEnv).gAsteroids = 69 + 1 := by
  obtain ⟨h1, h2, h3⟩ := initAsteroids_pile N_INIT_ASTEROIDS
    { (zeroWorld : World ℚ) with randSeq := demoSeq, gState := GameState_Game }
    (fun a ha => absurd ha (List.not_mem_nil a)) (fun _ => rfl)
  refine ⟨⟨init_gState demoMath demoEnv.seq demoEnv.shooting zeroWorld, rfl, ?_, h1, h2⟩, h3⟩
  exact (initAsteroids_spec demoMath N_INIT_ASTEROIDS
    { (zeroWorld : World ℚ) with randSeq := demoSeq, gState := GameState_Game }).2.2.1

/-- C6, at the world the demonstration game ends in: it is reachable, in state
`Won`, and indeed has no asteroid left. -/
theorem won_no_asteroids_witness :
    Reachable demoMath (run demoMath (demoScript 70) (startWorld demoMath demoEnv)) ∧
    (run demoMath (demoScript 70) (startWorld demoMath demoEnv)).gState = GameState_Won ∧
    (run demoMath (demoScript 70) (startWorld demoMath demoEnv)).gAsteroids = [] ∧
    checkProjectileCollisions demoMath
      (updateBody demoMath (run demoMath (demoScript 70)
        (startWorld demoMath demoEnv))).gProjectiles
      (updateBody demoMath (run demoMath (demoScript 70)
        (startWorld demoMath demoEnv))).gAsteroids
      (updateBody demoMath (run demoMath (demoScript 70) (startWorld demoMath demoEnv)))
      = updateBody demoMath (run demoMath (demoScript 70) (startWorld demoMath demoEnv)) :=
  ⟨reachable_run demoMath _ _ (Reachable.start demoEnv),
   demo_game_won 69 _ demo_start_pile.1 demo_start_pile.2,
   won_no_asteroids demoMath _ (reachable_run demoMath _ _ (Reachable.start demoEnv))
     (demo_game_won 69 _ demo_start_pile.1 demo_start_pile.2)⟩

end DemoGame

section Completeness

/-- Two opposite non-zero multiples of the same number do not have the same
strict sign. -/
theorem opposite_signs {α : Type} [LinearOrderedField α] (k p q : α) (hk : k ≠ 0)
    (hp : 0 < p) (hq : 0 < q) : ¬ (0 < p * k ↔ 0 < -q * k) := by
  intro h
  rcases lt_or_gt_of_ne hk with hneg | hpos
  · have h2 : 0 < -q * k := by nlinarith
    have h1 : 0 < p * k := h.mpr h2
    nlinarith
  · have h1 : 0 < p * k := mul_pos hp hpos
    have h2 : 0 < -q * k := h.mp h1
    nlinarith

/-- The coordinate form of the completeness of the orientation test at a
proper crossing. -/
theorem orientation_test_complete {α : Type} [LinearOrderedField α]
    (x1 y1 x2 y2 x3 y3 x4 y4 t s : α)
    (ht0 : 0 < t) (ht1 : t < 1) (hs0 : 0 < s) (hs1 : s < 1)
    (hx : x1 + t * (x2 - x1) = x3 + s * (x4 - x3))
    (hy : y1 + t * (y2 - y1) = y3 + s * (y4 - y3))
    (hk : (x2 - x1) * (y4 - y3) - (y2 - y1) * (x4 - x3) ≠ 0) :
    ¬ ((y4 - y1) * (x3 - x1) > (y3 - y1) * (x4 - x1) ↔
       (y4 - y2) * (x3 - x2) > (y3 - y2) * (x4 - x2)) ∧
    ¬ ((y3 - y1) * (x2 - x1) > (y2 - y1) * (x3 - x1) ↔
       (y4 - y1) * (x2 - x1) > (y2 - y1) * (x4 - x1)) := by
  have eA : (y4 - y1) * (x3 - x1) - (y3 - y1) * (x4 - x1)
      = t * ((x2 - x1) * (y4 - y3) - (y2 - y1) * (x4 - x3)) := by
    linear_combination (-(y4 - y3)) * hx + (x4 - x3) * hy
  have eB : (y4 - y2) * (x3 - x2) - (y3 - y2) * (x4 - x2)
      = -(1 - t) * ((x2 - x1) * (y4 - y3) - (y2 - y1) * (x4 - x3)) := by
    linear_combination (-(y4 - y3)) * hx + (x4 - x3) * hy
  have eC : (y3 - y1) * (x2 - x1) - (y2 - y1) * (x3 - x1)
      = -s * ((x2 - x1) * (y4 - y3) - (y2 - y1) * (x4 - x3)) := by
    linear_combination (y2 - y1) * hx - (x2 - x1) * hy
  have eD : (y4 - y1) * (x2 - x1) - (y2 - y1) * (x4 - x1)
      = (1 - s) * ((x2 - x1) * (y4 - y3) - (y2 - y1) * (x4 - x3)) := by
    linear_combination (y2 - y1) * hx - (x2 - x1) * hy
  have r1 : ∀ a b : α, (a > b ↔ 0 < a - b) := fun a b => sub_pos.symm
  rw [r1, r1, r1, r1, eA, eB, eC, eD]
  exact ⟨opposite_signs _ t (1 - t) hk ht0 (sub_pos.mpr ht1),
    fun h => opposite_signs _ (1 - s) s hk (sub_pos.mpr hs1) hs0 h.symm⟩
/-- C11 (completeness at proper crossings): when the two translated segments
are not parallel and share a point that is interior to both, `linesIntersect`
returns true. -/
theorem linesIntersect_complete {α : Type} [LinearOrderedField α] (o1 o2 : Vector2f α)
    (l1 l2 : Line α) (hpar : ¬ Parallel l1 l2) (P : Vector2f α)
    (h1 : InsideSegment o1 l1 P) (h2 : InsideSegment o2 l2 P) :
    linesIntersect o1 o2 l1 l2 = true := by
  obtain ⟨t, ht0, ht1, hx1, hy1⟩ := h1
  obtain ⟨s, hs0, hs1, hx2, hy2⟩ := h2
  have hk : ((l1.p2.x + o1.x) - (l1.p1.x + o1.x)) * ((l2.p2.y + o2.y) - (l2.p1.y + o2.y))
      - ((l1.p2.y + o1.y) - (l1.p1.y + o1.y)) * ((l2.p2.x + o2.x) - (l2.p1.x + o2.x)) ≠ 0 := by
    intro h
    apply hpar
    unfold Parallel
    linear_combination h
  have key := orientation_test_complete _ _ _ _ _ _ _ _ t s ht0 ht1 hs0 hs1
    (hx1.symm.trans hx2) (hy1.symm.trans hy2) hk
  simp only [linesIntersect, counterClockwise, Bool.and_eq_true, bne_iff_ne, ne_eq,
    decide_eq_decide]
  exact key

/-- C11, at the segments from `(-1,0)` to `(1,0)` and from `(0,-1)` to `(0,1)`,
which cross at `(0,0)`. -/
theorem linesIntersect_complete_witness :
    linesIntersect (⟨0, 0⟩ : Vector2f ℚ) ⟨0, 0⟩ ⟨⟨-1, 0⟩, ⟨1, 0⟩⟩ ⟨⟨0, -1⟩, ⟨0, 1⟩⟩ = true :=
  linesIntersect_complete _ _ _ _ (by unfold Parallel; norm_num) ⟨0, 0⟩
    ⟨1 / 2, by norm_num, by norm_num, by norm_num, by norm_num⟩
    ⟨1 / 2, by norm_num, by norm_num, by norm_num, by norm_num⟩

end Completeness

section SwapAndPop

/-- The function `destroyProjectile` on a vector with last element `b`. -/
theorem destroyProjectile_concat {α : Type} (i : Nat) (L : List (Projectile α))
    (b : Projectile α) :
    destroyProjectile i (L ++ [b]) = if i = L.length then L else L.set i b := by
  simp only [destroyProjectile, List.length_append, List.length_singleton, Nat.add_sub_cancel,
    List.getElem?_concat_length]
  by_cases hi : i = L.length
  · simp [hi]
  · simp only [ne_eq, hi, not_false_eq_true, if_true, if_false]
    rcases Nat.lt_or_gt_of_ne hi with h | h
    · rw [List.set_append_left _ _ h, List.dropLast_concat]
    · rw [List.set_eq_of_length_le (by simp only [List.length_append, List.length_singleton]; omega),
        List.set_eq_of_length_le (by omega), List.dropLast_concat]

/-- The function `destroyAsteroid` on a vector with last element `b`. -/
theorem destroyAsteroid_concat {α : Type} (i : Nat) (w : World α) (L : List (Asteroid α))
    (b : Asteroid α) (h : w.gAsteroids = L ++ [b]) :
    (destroyAsteroid i w).gAsteroids = if i = L.length then L else L.set i b := by
  simp only [destroyAsteroid, h, List.length_append, List.length_singleton, Nat.add_sub_cancel,
    List.getElem?_concat_length]
  by_cases hi : i = L.length
  · simp [hi]
  · simp only [ne_eq, hi, not_false_eq_true, if_true, if_false]
    rcases Nat.lt_or_gt_of_ne hi with h | h
    · rw [List.set_append_left _ _ h, List.dropLast_concat]
    · rw [List.set_eq_of_length_le (by simp only [List.length_append, List.length_singleton]; omega),
        List.set_eq_of_length_le (by omega), List.dropLast_concat]

/-- Swap-and-pop on a list: the length, the content up to order, and the
content slot by slot. -/
theorem swap_pop_props {β : Type} (L : List β) (b : β) (i : Nat) (hi : i ≤ L.length) :
    (if i = L.length then L else L.set i b).length = (L ++ [b]).length - 1 ∧
    (if i = L.length then L else L.set i b).Perm ((L ++ [b]).eraseIdx i) ∧
    (i < (L ++ [b]).length - 1 →
      (if i = L.length then L else L.set i b)[i]? = (L ++ [b])[(L ++ [b]).length - 1]?) ∧
    (∀ j, j < (L ++ [b]).length - 1 → j ≠ i →
      (if i = L.length then L else L.set i b)[j]? = (L ++ [b])[j]?) := by
  simp only [List.length_append, List.length_singleton, Nat.add_sub_cancel,
    List.getElem?_concat_length]
  by_cases h : i = L.length
  · subst h
    simp only [if_true, lt_self_iff_false, false_implies, true_and]
    refine ⟨?_, fun j hj _ => (List.getElem?_append_left hj).symm⟩
    rw [List.eraseIdx_append_of_length_le (le_refl _)]
    simp
  · have hlt : i < L.length := lt_of_le_of_ne hi h
    simp only [if_neg h, List.length_set, true_and]
    refine ⟨?_, fun _ => ?_, fun j hj hji => ?_⟩
    · rw [List.eraseIdx_append_of_lt_length hlt]
      exact (set_perm_cons_eraseIdx b L i hlt).trans (List.perm_append_singleton b _).symm
    · rw [List.getElem?_set_self hlt]
    · rw [List.getElem?_set_ne (Ne.symm hji), List.getElem?_append_left hj]

/-- C16 (swap-and-pop removal): `destroyProjectile` at a valid index `i` of a
vector of length `n`, and likewise `destroyAsteroid`, gives a vector of length
`n - 1` that is the original without its element at `i` up to order; when
`i < n - 1` slot `i` holds the former last element, and every other slot below
`n - 1` is unchanged. -/
theorem swap_and_pop_spec {α : Type} (i k : Nat) (ps : List (Projectile α)) (w : World α)
    (hi : i < ps.length) (hk : k < w.gAsteroids.length) :
    ((destroyProjectile i ps).length = ps.length - 1 ∧
     (destroyProjectile i ps).Perm (ps.eraseIdx i) ∧
     (i < ps.length - 1 → (destroyProjectile i ps)[i]? = ps[ps.length - 1]?) ∧
     (∀ j, j < ps.length - 1 → j ≠ i → (destroyProjectile i ps)[j]? = ps[j]?)) ∧
    ((destroyAsteroid k w).gAsteroids.length = w.gAsteroids.length - 1 ∧
     (destroyAsteroid k w).gAsteroids.Perm (w.gAsteroids.eraseIdx k) ∧
     (k < w.gAsteroids.length - 1 →
       (destroyAsteroid k w).gAsteroids[k]? = w.gAsteroids[w.gAsteroids.length - 1]?) ∧
     (∀ j, j < w.gAsteroids.length - 1 → j ≠ k →
       (destroyAsteroid k w).gAsteroids[j]? = w.gAsteroids[j]?)) := by
  constructor
  · rcases List.eq_nil_or_concat ps with h0 | ⟨L, b, h0⟩
    · rw [h0] at hi
      exact absurd hi (Nat.not_lt_zero _)
    · rw [List.concat_eq_append] at h0
      subst h0
      rw [destroyProjectile_concat]
      exact swap_pop_props L b i (by
        simp only [List.length_append, List.length_singleton] at hi
        omega)
  · rcases List.eq_nil_or_concat w.gAsteroids with h0 | ⟨L, b, h0⟩
    · rw [h0] at hk
      exact absurd hk (Nat.not_lt_zero _)
    · rw [List.concat_eq_append] at h0
      rw [destroyAsteroid_concat k w L b h0, h0]
      exact swap_pop_props L b k (by
        rw [h0] at hk
        simp only [List.length_append, List.length_singleton] at hk
        omega)

/-- C16, at a one-element vector of projectiles and a two-element vector of
asteroids. -/
theorem swap_and_pop_spec_witness :
    (destroyProjectile 0 lostWorld.gParticles).length = 0 ∧
    (destroyAsteroid 0 (gameWorld [barAsteroid ⟨1, 1⟩, barAsteroid ⟨2, 2⟩])).gAsteroids[0]?
      = some (barAsteroid ⟨2, 2⟩) :=
  ⟨(swap_and_pop_spec 0 0 lostWorld.gParticles
      (gameWorld [barAsteroid ⟨1, 1⟩, barAsteroid ⟨2, 2⟩]) (by decide) (by decide)).1.1,
   (swap_and_pop_spec 0 0 lostWorld.gParticles
      (gameWorld [barAsteroid ⟨1, 1⟩, barAsteroid ⟨2, 2⟩]) (by decide) (by decide)).2.2.2.1
      (by decide)⟩

end SwapAndPop

section ProjectileCollisions

/-- The inner loop finds nothing exactly when no projectile path crosses the line. -/
theorem firstProjectileHit_none {α : Type} [LinearOrderedField α] (a : Asteroid α)
    (l : Line α) : ∀ (ps : List (Projectile α)) (k : Nat),
      firstProjectileHit a l ps k = none ↔
        ∀ p ∈ ps, linesIntersect ({ x := 0, y := 0 } : Vector2f α) a.position
          { p1 := p.position
            p2 := { x := p.position.x - p.velocity.x, y := p.position.y - p.velocity.y } } l
          = false
  | [], _ => by simp [firstProjectileHit]
  | p :: ps, k => by
    have ih := firstProjectileHit_none a l ps (k + 1)
    simp only [firstProjectileHit, List.mem_cons, forall_eq_or_imp]
    split_ifs with h
    · simp [h]
    · simp only [ih, Bool.not_eq_true] at h ⊢
      simp [h]

/-- The inner loop returns an index of the vector it searches. -/
theorem firstProjectileHit_some {α : Type} [LinearOrderedField α] (a : Asteroid α)
    (l : Line α) : ∀ (ps : List (Projectile α)) (k i : Nat),
      firstProjectileHit a l ps k = some i → k ≤ i ∧ i < k + ps.length
  | [], _, _, h => by simp [firstProjectileHit] at h
  | p :: ps, k, i, h => by
    simp only [firstProjectileHit] at h
    split_ifs at h with hc
    · simp only [Option.some.injEq] at h
      subst h
      simp
    · have := firstProjectileHit_some a l ps (k + 1) i h
      simp only [List.length_cons]
      omega

/-- The middle loop finds nothing exactly when no projectile path crosses an
edge of the asteroid. -/
theorem firstLineHit_none {α : Type} [LinearOrderedField α] (ps : List (Projectile α))
    (a : Asteroid α) :
    firstLineHit ps a = none ↔ ∀ (i : Fin N_LINES), ∀ p ∈ ps,
      linesIntersect ({ x := 0, y := 0 } : Vector2f α) a.position
          { p1 := p.position
            p2 := { x := p.position.x - p.velocity.x, y := p.position.y - p.velocity.y } }
          (a.shape.lines i) = false := by
  unfold firstLineHit
  rw [List.findSome?_eq_none_iff]
  simp only [List.mem_finRange, true_implies, firstProjectileHit_none]

/-- The middle loop returns an index of the projectile vector. -/
theorem firstLineHit_some {α : Type} [LinearOrderedField α] (ps : List (Projectile α))
    (a : Asteroid α) (i : Nat) (h : firstLineHit ps a = some i) : i < ps.length := by
  unfold firstLineHit at h
  obtain ⟨l, -, hl⟩ := List.exists_of_findSome?_eq_some h
  have := firstProjectileHit_some a _ ps 0 i hl
  omega

/-- The outer loop finds nothing exactly when there is no hit at all. -/
theorem firstAsteroidHit_none {α : Type} [LinearOrderedField α] (ps : List (Projectile α)) :
    ∀ (as : List (Asteroid α)) (k : Nat),
      firstAsteroidHit ps as k = none ↔ ¬ PathHit ps as
  | [], _ => by simp [firstAsteroidHit, PathHit]
  | a :: as, k => by
    have ih := firstAsteroidHit_none ps as (k + 1)
    unfold firstAsteroidHit
    cases hl : firstLineHit ps a with
    | some i =>
      simp only [reduceCtorEq, false_iff, not_not]
      have hne : ¬ firstLineHit ps a = none := by rw [hl]; simp
      rw [firstLineHit_none] at hne
      push_neg at hne
      obtain ⟨i, p, hp, hit⟩ := hne
      exact ⟨a, List.mem_cons_self _ _, i, p, hp, by simpa using hit⟩
    | none =>
      simp only [ih]
      rw [firstLineHit_none] at hl
      unfold PathHit
      simp only [List.mem_cons, exists_eq_or_imp, not_or, not_exists, not_and, true_and,
        iff_and_self]
      intro _ i p hp
      simp [hl i p hp]

/-- The outer loop returns an asteroid with its index and a projectile index. -/
theorem firstAsteroidHit_some {α : Type} [LinearOrderedField α] (ps : List (Projectile α)) :
    ∀ (as : List (Asteroid α)) (k ai pi : Nat) (a : Asteroid α),
      firstAsteroidHit ps as k = some (ai, a, pi) →
        k ≤ ai ∧ as[ai - k]? = some a ∧ pi < ps.length
  | [], _, _, _, _, h => by simp [firstAsteroidHit] at h
  | b :: as, k, ai, pi, a, h => by
    unfold firstAsteroidHit at h
    cases hl : firstLineHit ps b with
    | some i =>
      rw [hl] at h
      simp only [Option.some.injEq, Prod.mk.injEq] at h
      obtain ⟨rfl, rfl, rfl⟩ := h
      exact ⟨le_refl _, by simp, firstLineHit_some ps _ _ hl⟩
    | none =>
      rw [hl] at h
      obtain ⟨h1, h2, h3⟩ := firstAsteroidHit_some ps as (k + 1) ai pi a h
      refine ⟨by omega, ?_, h3⟩
      rw [show ai - k = (ai - (k + 1)) + 1 by omega, List.getElem?_cons_succ]
      exact h2

/-- The function `destroyProjectile` removes the projectile at a valid index,
up to order. -/
theorem destroyProjectile_perm {α : Type} (i : Nat) (ps : List (Projectile α))
    (hi : i < ps.length) : (destroyProjectile i ps).Perm (ps.eraseIdx i) := by
  rcases List.eq_nil_or_concat ps with h0 | ⟨L, b, h0⟩
  · rw [h0] at hi
    exact absurd hi (Nat.not_lt_zero _)
  · rw [List.concat_eq_append] at h0
    subst h0
    rw [destroyProjectile_concat]
    exact (swap_pop_props L b i (by
      simp only [List.length_append, List.length_singleton] at hi
      omega)).2.1

/-- The function `splitAsteroid` does not look at the particles. -/
theorem splitAsteroid_particles {α : Type} [LinearOrderedField α] (m : MathFns α) (i : Nat)
    (w : World α) (qs : List (Projectile α)) :
    splitAsteroid m i { w with gParticles := qs } =
      { splitAsteroid m i w with gParticles := qs } := by
  unfold splitAsteroid
  dsimp only
  split
  · rfl
  · split_ifs <;> rfl

/-- The particles `explode` adds: ten, all at the given position. -/
theorem explode_gParticles {α : Type} [LinearOrderedField α] (m : MathFns α)
    (position : Vector2f α) (w : World α) :
    ∃ l : List (Projectile α), (explode m position w).gParticles = w.gParticles ++ l ∧
      l.length = 10 ∧ ∀ q ∈ l, q.position = position := by
  refine ⟨(List.range 10).map (fun (i : Nat) =>
    createProjectile m position (2 * m.pi / ((10 : Nat) : α) * (i : α)) 2), rfl,
    by rw [List.length_map, List.length_range], ?_⟩
  intro q hq
  obtain ⟨i, -, rfl⟩ := List.mem_map.mp hq
  rfl

/-- C17 (at most one collision per call): `checkProjectileCollisions`, called
on the global vectors, either finds no crossing of a projectile path with an
asteroid edge and changes nothing, or resolves exactly one: the asteroids are
those `splitAsteroid` leaves for one asteroid, one projectile is removed, and
exactly 10 particles are added, all at that asteroid's position. -/
theorem checkProjectileCollisions_spec {α : Type} [LinearOrderedField α] (m : MathFns α)
    (w : World α) :
    (¬ PathHit w.gProjectiles w.gAsteroids →
      checkProjectileCollisions m w.gProjectiles w.gAsteroids w = w) ∧
    (PathHit w.gProjectiles w.gAsteroids →
      ∃ (asteroidIndex projectileIndex : Nat) (asteroid : Asteroid α),
        w.gAsteroids[asteroidIndex]? = some asteroid ∧
        projectileIndex < w.gProjectiles.length ∧
        (checkProjectileCollisions m w.gProjectiles w.gAsteroids w).gAsteroids
          = (splitAsteroid m asteroidIndex w).gAsteroids ∧
        (checkProjectileCollisions m w.gProjectiles w.gAsteroids w).gProjectiles.Perm
          (w.gProjectiles.eraseIdx projectileIndex) ∧
        (checkProjectileCollisions m w.gProjectiles w.gAsteroids w).gProjectiles.length + 1
          = w.gProjectiles.length ∧
        ∃ l : List (Projectile α),
          (checkProjectileCollisions m w.gProjectiles w.gAsteroids w).gParticles
            = w.gParticles ++ l ∧
          l.length = 10 ∧ ∀ q ∈ l, q.position = asteroid.position) := by
  constructor
  · intro h
    unfold checkProjectileCollisions
    rw [(firstAsteroidHit_none _ _ 0).mpr h]
  · intro h
    cases hf : firstAsteroidHit w.gProjectiles w.gAsteroids 0 with
    | none => exact absurd h ((firstAsteroidHit_none _ _ 0).mp hf)
    | some r =>
      obtain ⟨ai, a, pi⟩ := r
      obtain ⟨-, ha, hp⟩ := firstAsteroidHit_some _ _ 0 ai pi a hf
      have hres : checkProjectileCollisions m w.gProjectiles w.gAsteroids w =
          { splitAsteroid m ai (explode m a.position w) with
            gProjectiles := destroyProjectile pi
              (splitAsteroid m ai (explode m a.position w)).gProjectiles } := by
        unfold checkProjectileCollisions
        rw [hf]
      have hsplit : splitAsteroid m ai (explode m a.position w) =
          { splitAsteroid m ai w with gParticles := (explode m a.position w).gParticles } :=
        splitAsteroid_particles m ai w _
      have hpr : (splitAsteroid m ai (explode m a.position w)).gProjectiles = w.gProjectiles := by
        rw [splitAsteroid_gProjectiles]
        rfl
      have hperm := destroyProjectile_perm pi w.gProjectiles hp
      refine ⟨ai, pi, a, ha, hp, ?_, ?_, ?_, ?_⟩
      · rw [hres, hsplit]
      · rw [hres, hpr]
        exact hperm
      · rw [hres, hpr]
        show (destroyProjectile pi w.gProjectiles).length + 1 = _
        rw [destroyProjectile_length]
        omega
      · rw [hres, hsplit]
        exact explode_gParticles m a.position w

/-- C17, at a world without asteroids (no hit) and at a world whose projectile
crosses a bar-shaped asteroid (one hit). -/
theorem checkProjectileCollisions_spec_witness :
    checkProjectileCollisions demoMath lostWorld.gProjectiles lostWorld.gAsteroids lostWorld
      = lostWorld ∧
    ∃ l : List (Projectile ℚ),
      (checkProjectileCollisions demoMath [demoShot]
        [barAsteroid ⟨510, 512⟩]
        { gameWorld [barAsteroid ⟨510, 512⟩] with gProjectiles := [demoShot] }).gParticles
        = [] ++ l ∧ l.length = 10 := by
  refine ⟨(checkProjectileCollisions_spec demoMath lostWorld).1
    (by unfold PathHit; simp [lostWorld]), ?_⟩
  obtain ⟨ai, pi, a, -, -, -, -, -, l, h1, h2, -⟩ := (checkProjectileCollisions_spec demoMath
    { gameWorld [barAsteroid ⟨510, 512⟩] with gProjectiles := [demoShot] }).2
    ⟨barAsteroid ⟨510, 512⟩, List.mem_singleton.mpr rfl, ⟨0, by decide⟩, demoShot,
      List.mem_singleton.mpr rfl, by decide!⟩
  exact ⟨l, h1, h2⟩

end ProjectileCollisions

section ProjectileUpdate

/-- C18 fails on the code: on `expiringFirst` the loop of `updateProjectiles`
removes the first projectile, moves the second one into its slot and steps
over it, so the second projectile is returned as it was (at `x = 200`, life
counter 0), while its one-tick image is at `x = 202` with life counter 16. -/
theorem updateProjectiles_skips_moved :
    (updateProjectiles expiringFirst PROJECTILE_LIFETIME).map
        (fun p => (p.position.x, p.lifeCounter)) = [(200, 0)] ∧
    (updateProjectilesSpec expiringFirst PROJECTILE_LIFETIME).map
        (fun p => (p.position.x, p.lifeCounter)) = [(202, 16)] ∧
    ¬ (updateProjectiles expiringFirst PROJECTILE_LIFETIME).Perm
        (updateProjectilesSpec expiringFirst PROJECTILE_LIFETIME) := by
  have h1 : (updateProjectiles expiringFirst PROJECTILE_LIFETIME).map
      (fun p => (p.position.x, p.lifeCounter)) = [(200, 0)] := by decide!
  have h2 : (updateProjectilesSpec expiringFirst PROJECTILE_LIFETIME).map
      (fun p => (p.position.x, p.lifeCounter)) = [(202, 16)] := by decide!
  refine ⟨h1, h2, fun hperm => ?_⟩
  have := hperm.map (fun p => (p.position.x, p.lifeCounter))
  rw [h1, h2] at this
  exact absurd (List.perm_singleton.mp this) (by decide!)

end ProjectileUpdate

section ShipUpdate

/-- What `updateShip` does to the fields of the ship other than speed and
lines, and to the projectiles. -/
theorem updateShip_fields {α : Type} [LinearOrderedField α] (m : MathFns α) (w : World α) :
    (updateShip m w).gShip.position = wrapPosition
      { x := w.gShip.position.x + w.gShip.velocity.x
        y := w.gShip.position.y + w.gShip.velocity.y } WRAPBUFFER_X WRAPBUFFER_Y ∧
    (updateShip m w).gShip.angle = w.gShip.angle +
      (if w.gShip.turnRight then
        (if w.gShip.turnLeft then (0 : α) - SHIP_ANGULARSPEED else 0) + SHIP_ANGULARSPEED
       else (if w.gShip.turnLeft then (0 : α) - SHIP_ANGULARSPEED else 0)) ∧
    (updateShip m w).gShip.shooting = w.gShip.shooting ∧
    (updateShip m w).gShip.thrusting = w.gShip.thrusting ∧
    (updateShip m w).gShip.turnLeft = w.gShip.turnLeft ∧
    (updateShip m w).gShip.turnRight = w.gShip.turnRight ∧
    (updateShip m w).gShip.cooldown = cooldownAfter w.gShip.shooting w.gShip.cooldown ∧
    (w.gShip.thrusting = false →
      (updateShip m w).gShip.velocity =
        { x := damp w.gShip.velocity.x, y := damp w.gShip.velocity.y }) ∧
    (updateShip m w).gProjectiles = w.gProjectiles ++
      (if w.gShip.shooting = true ∧ w.gShip.cooldown = 0 then
        [createProjectile m (updateShip m w).gShip.position (updateShip m w).gShip.angle
          PROJECTILE_SPEED]
       else []) := by
  unfold updateShip
  lift_lets
  extract_lets s0 s1 s2 a0 a1 a2 t1 t2 u1 u2 v1 u3 v2 u4 s3 s4 w1 s5 s6 s7
  have e3 : s3.position = s2.position ∧ s3.angle = s0.angle ∧ s3.shooting = s0.shooting ∧
      s3.thrusting = s0.thrusting ∧ s3.turnLeft = s0.turnLeft ∧ s3.turnRight = s0.turnRight ∧
      s3.cooldown = s0.cooldown := by
    by_cases hth : s2.thrusting = true
    · simp only [s3, if_pos hth]
      have ht1 : t1.position = s2.position ∧ t1.angle = s0.angle ∧ t1.shooting = s0.shooting ∧
          t1.thrusting = s0.thrusting ∧ t1.turnLeft = s0.turnLeft ∧ t1.turnRight = s0.turnRight ∧
          t1.cooldown = s0.cooldown := by
        simp only [t1]
        split_ifs <;> exact ⟨rfl, rfl, rfl, rfl, rfl, rfl, rfl⟩
      have ht2 : t2.position = s2.position ∧ t2.angle = s0.angle ∧ t2.shooting = s0.shooting ∧
          t2.thrusting = s0.thrusting ∧ t2.turnLeft = s0.turnLeft ∧ t2.turnRight = s0.turnRight ∧
          t2.cooldown = s0.cooldown := by
        simp only [t2]
        split_ifs
        · exact ht1
        · exact ht1
      exact ht2
    · simp only [s3, if_neg hth]
      have hu3 : u3.position = s2.position ∧ u3.angle = s0.angle ∧ u3.shooting = s0.shooting ∧
          u3.thrusting = s0.thrusting ∧ u3.turnLeft = s0.turnLeft ∧ u3.turnRight = s0.turnRight ∧
          u3.cooldown = s0.cooldown := by
        simp only [u3]
        split_ifs <;> exact ⟨rfl, rfl, rfl, rfl, rfl, rfl, rfl⟩
      simp only [u4]
      split_ifs
      · exact hu3
      · exact hu3
  have ev : s0.thrusting = false → s3.velocity =
      { x := damp s0.velocity.x, y := damp s0.velocity.y } := by
    intro hth
    have hth2 : ¬ s2.thrusting = true := by
      show ¬ s0.thrusting = true
      rw [hth]
      decide
    simp only [s3, if_neg hth2]
    have hu3 : u3.velocity.x = damp s0.velocity.x ∧
        u3.velocity.y = s0.velocity.y * (99 / 100) := by
      by_cases h : |s0.velocity.x * (99 / 100)| < 5 / 1000
      · have h' : |u2.velocity.x| < 5 / 1000 := h
        simp only [u3, if_pos h']
        exact ⟨(if_pos h).symm, trivial⟩
      · have h' : ¬ |u2.velocity.x| < 5 / 1000 := h
        simp only [u3, if_neg h']
        exact ⟨(if_neg h).symm, trivial⟩
    by_cases h : |s0.velocity.y * (99 / 100)| < 5 / 1000
    · have h' : |u3.velocity.y| < 5 / 1000 := by rw [hu3.2]; exact h
      simp only [u4, if_pos h']
      have e1 : damp s0.velocity.y = 0 := if_pos h
      rw [e1]
      show ({ x := u3.velocity.x, y := 0 } : Vector2f α) = _
      rw [hu3.1]
    · have h' : ¬ |u3.velocity.y| < 5 / 1000 := by rw [hu3.2]; exact h
      simp only [u4, if_neg h']
      have e1 : damp s0.velocity.y = s0.velocity.y * (99 / 100) := if_neg h
      rw [e1, ← hu3.1, ← hu3.2]
  have e4 : s4.position = s2.position ∧ s4.angle = s0.angle + a2 ∧ s4.shooting = s0.shooting ∧
      s4.thrusting = s0.thrusting ∧ s4.turnLeft = s0.turnLeft ∧ s4.turnRight = s0.turnRight ∧
      s4.cooldown = s0.cooldown ∧ s4.velocity = s3.velocity :=
    ⟨e3.1, by show s3.angle + a2 = _; rw [e3.2.1], e3.2.2.1, e3.2.2.2.1, e3.2.2.2.2.1,
      e3.2.2.2.2.2.1, e3.2.2.2.2.2.2, rfl⟩
  have e5 : s5.position = s2.position ∧ s5.angle = s0.angle + a2 ∧ s5.shooting = s0.shooting ∧
      s5.thrusting = s0.thrusting ∧ s5.turnLeft = s0.turnLeft ∧ s5.turnRight = s0.turnRight ∧
      s5.velocity = s3.velocity ∧
      s5.cooldown = (if s0.shooting = true then s0.cooldown + MS_PER_UPDATE else 0) := by
    by_cases h : s0.shooting = true
    · have h' : s4.shooting = true := by rw [e4.2.2.1]; exact h
      simp only [s5, if_pos h', if_pos h]
      exact ⟨e4.1, e4.2.1, e4.2.2.1, e4.2.2.2.1, e4.2.2.2.2.1, e4.2.2.2.2.2.1, trivial,
        by rw [e4.2.2.2.2.2.2.1]⟩
    · have h' : ¬ s4.shooting = true := by rw [e4.2.2.1]; exact h
      simp only [s5, if_neg h', if_neg h]
      exact ⟨e4.1, e4.2.1, e4.2.2.1, e4.2.2.2.1, e4.2.2.2.2.1, e4.2.2.2.2.2.1, trivial, trivial⟩
  have e6 : s6.position = s2.position ∧ s6.angle = s0.angle + a2 ∧ s6.shooting = s0.shooting ∧
      s6.thrusting = s0.thrusting ∧ s6.turnLeft = s0.turnLeft ∧ s6.turnRight = s0.turnRight ∧
      s6.velocity = s3.velocity ∧
      s6.cooldown = cooldownAfter s0.shooting s0.cooldown := by
    have hc : (if s5.cooldown ≥ PROJECTILE_COOLDOWN then 0 else s5.cooldown) =
        cooldownAfter s0.shooting s0.cooldown := by
      rw [e5.2.2.2.2.2.2.2]
      unfold cooldownAfter
      by_cases h : s0.shooting = true
      · rw [if_pos h, if_pos h]
      · rw [if_neg h, if_neg h]
        rfl
    rw [← hc]
    by_cases h : s5.cooldown ≥ PROJECTILE_COOLDOWN
    · simp only [s6, if_pos h]
      exact ⟨e5.1, e5.2.1, e5.2.2.1, e5.2.2.2.1, e5.2.2.2.2.1, e5.2.2.2.2.2.1, e5.2.2.2.2.2.2.1,
        trivial⟩
    · simp only [s6, if_neg h]
      exact ⟨e5.1, e5.2.1, e5.2.2.1, e5.2.2.2.1, e5.2.2.2.2.1, e5.2.2.2.2.2.1, e5.2.2.2.2.2.2.1,
        trivial⟩
  have ew : w1.gProjectiles = w.gProjectiles ++
      (if s0.shooting = true ∧ s0.cooldown = 0 then
        [createProjectile m s2.position (s0.angle + a2) PROJECTILE_SPEED] else []) := by
    by_cases h : s0.shooting = true
    · have h' : s4.shooting = true := by rw [e4.2.2.1]; exact h
      by_cases hc : s0.cooldown = 0
      · have hc' : s4.cooldown = 0 := by rw [e4.2.2.2.2.2.2.1]; exact hc
        have hw : w1 = fireProjectileFromPoint m s4.position s4.angle w := by
          show (if s4.shooting = true then
            (if s4.cooldown = 0 then fireProjectileFromPoint m s4.position s4.angle w else w)
            else w) = _
          rw [if_pos h', if_pos hc']
        rw [hw, if_pos ⟨h, hc⟩, e4.1, e4.2.1]
        rfl
      · have hc' : ¬ s4.cooldown = 0 := by rw [e4.2.2.2.2.2.2.1]; exact hc
        have hw : w1 = w := by
          show (if s4.shooting = true then
            (if s4.cooldown = 0 then fireProjectileFromPoint m s4.position s4.angle w else w)
            else w) = _
          rw [if_pos h', if_neg hc']
        rw [hw, if_neg (fun hh => hc hh.2), List.append_nil]
    · have h' : ¬ s4.shooting = true := by rw [e4.2.2.1]; exact h
      have hw : w1 = w := by
        show (if s4.shooting = true then
          (if s4.cooldown = 0 then fireProjectileFromPoint m s4.position s4.angle w else w)
          else w) = _
        rw [if_neg h']
      rw [hw, if_neg (fun hh => h hh.1), List.append_nil]
  refine ⟨e6.1, e6.2.1, e6.2.2.1, e6.2.2.2.1, e6.2.2.2.2.1, e6.2.2.2.2.2.1, e6.2.2.2.2.2.2.2,
    fun hth => e6.2.2.2.2.2.2.1.trans (ev hth), ?_⟩
  show w1.gProjectiles = w.gProjectiles ++
    (if s0.shooting = true ∧ s0.cooldown = 0 then
      [createProjectile m s6.position s6.angle PROJECTILE_SPEED] else [])
  rw [ew, e6.1, e6.2.1]

/-- Snapping keeps 0 at 0. -/
theorem damp_zero {α : Type} [LinearOrderedField α] : damp (0 : α) = 0 := by
  unfold damp
  rw [zero_mul, abs_zero, if_pos (by norm_num)]

/-- A sequence that follows `damp` is 0 from some index on. -/
theorem damp_seq_zero {α : Type} [LinearOrderedField α] [Archimedean α] (f : Nat → α)
    (hf : ∀ n, f (n + 1) = damp (f n)) : ∃ N, ∀ n, N ≤ n → f n = 0 := by
  have hform : ∀ n, f n = 0 ∨ f n = f 0 * (99 / 100) ^ n := by
    intro n
    induction n with
    | zero => right; rw [pow_zero, mul_one]
    | succ n ih =>
      rw [hf n]
      rcases ih with h | h
      · left; rw [h]; exact damp_zero
      · unfold damp
        split_ifs
        · left; rfl
        · right; rw [h, pow_succ, mul_assoc]
  have hpos : (0 : α) < 5 / 1000 / (|f 0| + 1) := by positivity
  obtain ⟨N, hN⟩ := exists_pow_lt_of_lt_one hpos (by norm_num : (99 / 100 : α) < 1)
  have hsmall : ∀ n, N ≤ n → |f 0 * (99 / 100) ^ n * (99 / 100)| < 5 / 1000 := by
    intro n hn
    have h1 : ((99 / 100 : α)) ^ n ≤ (99 / 100) ^ N :=
      pow_le_pow_of_le_one (by norm_num) (by norm_num) hn
    have h2 : (0 : α) ≤ (99 / 100) ^ n := by positivity
    rw [abs_mul, abs_mul, abs_of_nonneg h2, abs_of_nonneg (by norm_num : (0 : α) ≤ 99 / 100)]
    have h3 : (99 / 100 : α) ^ N * (|f 0| + 1) < 5 / 1000 := by
      rwa [lt_div_iff₀ (by positivity)] at hN
    have h4 : |f 0| * (99 / 100) ^ n ≤ (99 / 100 : α) ^ N * (|f 0| + 1) := by
      nlinarith [abs_nonneg (f 0)]
    nlinarith [abs_nonneg (f 0)]
  refine ⟨N + 1, fun n hn => ?_⟩
  obtain ⟨k, rfl⟩ : ∃ k, n = k + 1 := ⟨n - 1, by omega⟩
  rw [hf k]
  rcases hform k with h | h
  · rw [h]; exact damp_zero
  · unfold damp
    rw [h, if_pos (hsmall k (by omega))]

/-- C14 (ship damping): a tick of `updateShip` with `thrusting` false replaces
each velocity component `v` by `0.99 v`, or by 0 when `|0.99 v| < 0.005`; and
along any sequence of worlds in which thrust is never held and the ship's
velocity changes only by `updateShip`, the velocity is exactly `(0, 0)` from
some tick on, forever. -/
theorem ship_damping {α : Type} [LinearOrderedField α] [Archimedean α] (m : MathFns α)
    (ws : Nat → World α) (hthrust : ∀ n, (ws n).gShip.thrusting = false)
    (hstep : ∀ n, (ws (n + 1)).gShip.velocity = (updateShip m (ws n)).gShip.velocity) :
    (∀ n, (updateShip m (ws n)).gShip.velocity =
      { x := if |(ws n).gShip.velocity.x * (99 / 100)| < 5 / 1000 then 0
             else (ws n).gShip.velocity.x * (99 / 100)
        y := if |(ws n).gShip.velocity.y * (99 / 100)| < 5 / 1000 then 0
             else (ws n).gShip.velocity.y * (99 / 100) }) ∧
    ∃ N, ∀ n, N ≤ n → (ws n).gShip.velocity = { x := 0, y := 0 } := by
  have h1 : ∀ n, (updateShip m (ws n)).gShip.velocity =
      { x := damp (ws n).gShip.velocity.x, y := damp (ws n).gShip.velocity.y } :=
    fun n => (updateShip_fields m (ws n)).2.2.2.2.2.2.2.1 (hthrust n)
  refine ⟨h1, ?_⟩
  obtain ⟨Nx, hx⟩ := damp_seq_zero (fun n => (ws n).gShip.velocity.x)
    (fun n => by show (ws (n + 1)).gShip.velocity.x = _; rw [hstep, h1])
  obtain ⟨Ny, hy⟩ := damp_seq_zero (fun n => (ws n).gShip.velocity.y)
    (fun n => by show (ws (n + 1)).gShip.velocity.y = _; rw [hstep, h1])
  refine ⟨max Nx Ny, fun n hn => ?_⟩
  have ex : (ws n).gShip.velocity.x = 0 := hx n (le_trans (le_max_left _ _) hn)
  have ey : (ws n).gShip.velocity.y = 0 := hy n (le_trans (le_max_right _ _) hn)
  cases hv : (ws n).gShip.velocity with
  | mk x y =>
    rw [hv] at ex ey
    simp only at ex ey
    rw [ex, ey]

/-- Iterating `updateShip` keeps the flag `thrusting`. -/
theorem iterate_updateShip_thrusting {α : Type} [LinearOrderedField α] (m : MathFns α)
    (w : World α) (n : Nat) :
    ((updateShip m)^[n] w).gShip.thrusting = w.gShip.thrusting := by
  induction n with
  | zero => rfl
  | succ n ih =>
    rw [Function.iterate_succ_apply', (updateShip_fields m _).2.2.2.1, ih]

/-- Iterating `updateShip` keeps the flag `shooting`. -/
theorem iterate_updateShip_shooting {α : Type} [LinearOrderedField α] (m : MathFns α)
    (w : World α) (n : Nat) :
    ((updateShip m)^[n] w).gShip.shooting = w.gShip.shooting := by
  induction n with
  | zero => rfl
  | succ n ih =>
    rw [Function.iterate_succ_apply', (updateShip_fields m _).2.2.1, ih]

/-- C14 on the ship with velocity `(4, 0)`: one tick gives `(3.96, 0)`, and
repeated ticks bring the velocity to `(0, 0)` for good. -/
theorem ship_damping_witness :
    (updateShip demoMath coastingWorld).gShip.velocity = { x := 396 / 100, y := 0 } ∧
    ∃ N, ∀ n, N ≤ n →
      ((updateShip demoMath)^[n] coastingWorld).gShip.velocity = { x := 0, y := 0 } := by
  obtain ⟨ws, hws⟩ : ∃ ws : Nat → World ℚ,
      ∀ n, ws n = (updateShip demoMath)^[n] coastingWorld := ⟨_, fun _ => rfl⟩
  have hthrust : ∀ n : Nat, (ws n).gShip.thrusting = false := fun n => by
    rw [hws, iterate_updateShip_thrusting]
    rfl
  have hstep : ∀ n : Nat, (ws (n + 1)).gShip.velocity =
      (updateShip demoMath (ws n)).gShip.velocity := fun n => by
    rw [hws, hws, Function.iterate_succ_apply']
  have h := ship_damping demoMath ws hthrust hstep
  have h0 : (4 : ℚ) * (99 / 100) = 396 / 100 := by norm_num
  have h1 : ¬ |(396 / 100 : ℚ)| < 5 / 1000 := by
    rw [abs_of_pos (by norm_num)]
    norm_num
  have h2 : |(0 : ℚ) * (99 / 100)| < 5 / 1000 := by
    rw [zero_mul, abs_zero]
    norm_num
  have hfirst := h.1 0
  rw [hws 0, Function.iterate_zero_apply] at hfirst
  refine ⟨hfirst.trans ?_, ?_⟩
  · show ({ x := if |(4 : ℚ) * (99 / 100)| < 5 / 1000 then 0 else 4 * (99 / 100)
            y := if |(0 : ℚ) * (99 / 100)| < 5 / 1000 then 0 else 0 * (99 / 100) } :
      Vector2f ℚ) = _
    rw [h0, if_neg h1, if_pos h2]
  · obtain ⟨N, hN⟩ := h.2
    exact ⟨N, fun n hn => by rw [← hws n]; exact hN n hn⟩

/-- The cooldown after a tick, for the values `16 * j` it takes while the fire
key is held. -/
theorem cooldownAfter_cycle (j : Nat) (hj : j < 4) :
    cooldownAfter true (16 * (j : Int)) = 16 * (((j + 1) % 4 : Nat) : Int) := by
  have h : j = 0 ∨ j = 1 ∨ j = 2 ∨ j = 3 := by omega
  rcases h with rfl | rfl | rfl | rfl <;> decide

/-- C19, amended (fire rate): along any sequence of worlds in which the flag
`shooting` is true at every tick, the cooldown starts at 0 and changes only by
`updateShip`, the cooldown before tick `k` is `16 * (k mod 4)` and `updateShip`
appends one projectile on the ticks `k` with `k mod 4 = 0` (ticks 0, 4, 8, ...)
and none on any other tick: a shot every 4 ticks. -/
theorem fire_rate {α : Type} [LinearOrderedField α] (m : MathFns α) (ws : Nat → World α)
    (hshoot : ∀ k, (ws k).gShip.shooting = true) (hzero : (ws 0).gShip.cooldown = 0)
    (hstep : ∀ k, (ws (k + 1)).gShip.cooldown = (updateShip m (ws k)).gShip.cooldown)
    (k : Nat) :
    (ws k).gShip.cooldown = 16 * ((k % 4 : Nat) : Int) ∧
    (k % 4 = 0 → ∃ p, (updateShip m (ws k)).gProjectiles = (ws k).gProjectiles ++ [p]) ∧
    (k % 4 ≠ 0 → (updateShip m (ws k)).gProjectiles = (ws k).gProjectiles) := by
  have hc : ∀ k, (ws k).gShip.cooldown = 16 * ((k % 4 : Nat) : Int) := by
    intro k
    induction k with
    | zero => rw [hzero]; rfl
    | succ k ih =>
      rw [hstep, (updateShip_fields m (ws k)).2.2.2.2.2.2.1, hshoot, ih,
        cooldownAfter_cycle _ (Nat.mod_lt _ (by decide))]
      congr 2
      omega
  have hp := (updateShip_fields m (ws k)).2.2.2.2.2.2.2.2
  refine ⟨hc k, fun h0 => ?_, fun h0 => ?_⟩
  · rw [if_pos ⟨hshoot k, by rw [hc k, h0]; rfl⟩] at hp
    exact ⟨_, hp⟩
  · rw [if_neg (fun hh => h0 (by have := hh.2; rw [hc k] at this; omega)),
      List.append_nil] at hp
    exact hp

/-- C19 as stated fails: with the fire key held from cooldown 0, tick 3 appends
no projectile (one projectile before it and one after it); the second shot
comes on tick 4. -/
theorem fire_rate_not_three :
    ((updateShip demoMath)^[3] firingWorld).gProjectiles.length = 1 ∧
    ((updateShip demoMath)^[4] firingWorld).gProjectiles.length = 1 ∧
    ((updateShip demoMath)^[5] firingWorld).gProjectiles.length = 2 := by
  decide!

/-- C19, amended, on the demonstration ship: ticks 0 and 4 each append a
projectile, tick 3 appends none. -/
theorem fire_rate_witness :
    (∃ p, (updateShip demoMath firingWorld).gProjectiles = firingWorld.gProjectiles ++ [p]) ∧
    (updateShip demoMath ((updateShip demoMath)^[3] firingWorld)).gProjectiles =
      ((updateShip demoMath)^[3] firingWorld).gProjectiles := by
  obtain ⟨ws, hws⟩ : ∃ ws : Nat → World ℚ,
      ∀ n, ws n = (updateShip demoMath)^[n] firingWorld := ⟨_, fun _ => rfl⟩
  have hshoot : ∀ k : Nat, (ws k).gShip.shooting = true := fun k => by
    rw [hws, iterate_updateShip_shooting]
    rfl
  have hzero : (ws 0).gShip.cooldown = 0 := by
    rw [hws]
    rfl
  have hstep : ∀ k : Nat, (ws (k + 1)).gShip.cooldown =
      (updateShip demoMath (ws k)).gShip.cooldown := fun k => by
    rw [hws, hws, Function.iterate_succ_apply']
  have h0 := (fire_rate demoMath ws hshoot hzero hstep 0).2.1 (by decide)
  have h3 := (fire_rate demoMath ws hshoot hzero hstep 3).2.2 (by decide)
  rw [hws 0, Function.iterate_zero_apply] at h0
  rw [hws 3] at h3
  exact ⟨h0, h3⟩

/-- C20, amended (shooting): when `shooting` is true and `cooldown` is 0,
`updateShip` appends exactly one projectile; its position is the ship's
position after this tick's move and wrap (the centre of the ship, not its
nose), its velocity is `8 (cos a, sin a)` for the ship's angle `a` after this
tick's turn, and its `lifeCounter` is 0.  Otherwise it appends none. -/
theorem updateShip_fire_spec {α : Type} [LinearOrderedField α] (m : MathFns α) (w : World α) :
    (w.gShip.shooting = true ∧ w.gShip.cooldown = 0 →
      ∃ p : Projectile α, (updateShip m w).gProjectiles = w.gProjectiles ++ [p] ∧
        p.position = (updateShip m w).gShip.position ∧
        p.position = wrapPosition
          { x := w.gShip.position.x + w.gShip.velocity.x
            y := w.gShip.position.y + w.gShip.velocity.y } WRAPBUFFER_X WRAPBUFFER_Y ∧
        p.velocity = { x := m.cos (updateShip m w).gShip.angle * 8
                       y := m.sin (updateShip m w).gShip.angle * 8 } ∧
        p.lifeCounter = 0) ∧
    (¬ (w.gShip.shooting = true ∧ w.gShip.cooldown = 0) →
      (updateShip m w).gProjectiles = w.gProjectiles) := by
  have h := updateShip_fields m w
  have hp := h.2.2.2.2.2.2.2.2
  refine ⟨fun hs => ?_, fun hs => ?_⟩
  · rw [if_pos hs] at hp
    exact ⟨_, hp, rfl, h.1, rfl, rfl⟩
  · rw [if_neg hs, List.append_nil] at hp
    exact hp

/-- C20 as stated fails: the ship at `(512, 512)` with angle 0 has its nose at
`(522, 512)`, before and after the tick, and the projectile it fires starts at
`(512, 512)`. -/
theorem fire_not_from_nose :
    ((shipNose firingWorld.gShip).x, (shipNose firingWorld.gShip).y) = (522, 512) ∧
    ((shipNose (updateShip demoMath firingWorld).gShip).x,
      (shipNose (updateShip demoMath firingWorld).gShip).y) = (522, 512) ∧
    (updateShip demoMath firingWorld).gProjectiles.map (fun p => (p.position.x, p.position.y))
      = [(512, 512)] := by
  decide!

/-- C20, amended, on the demonstration ship with the fire key held (one
projectile, at the ship's position) and on the fresh ship (none). -/
theorem updateShip_fire_spec_witness :
    (∃ p : Projectile ℚ,
      (updateShip demoMath firingWorld).gProjectiles = firingWorld.gProjectiles ++ [p] ∧
      p.position = (updateShip demoMath firingWorld).gShip.position) ∧
    (updateShip demoMath (gameWorld [])).gProjectiles = (gameWorld []).gProjectiles := by
  obtain ⟨p, h1, h2, -⟩ := (updateShip_fire_spec demoMath firingWorld).1 ⟨rfl, rfl⟩
  exact ⟨⟨p, h1, h2⟩, (updateShip_fire_spec demoMath (gameWorld [])).2 (by decide)⟩

end ShipUpdate

section Accumulator

/-- The tick duration is 16 and positive. -/
theorem ms_per_update_pos {α : Type} [LinearOrderedField α] :
    (0 : α) < ((MS_PER_UPDATE : Int) : α) := by
  have h : MS_PER_UPDATE = 16 := by decide
  rw [h]
  norm_num

/-- The loop of `main` from lag `L ≥ 0`, with enough fuel. -/
theorem tickLoop_spec {α : Type} [LinearOrderedField α] [FloorRing α] (m : MathFns α)
    (fuel : Nat) : ∀ (lag : α) (w : World α), 0 ≤ lag →
      ⌊lag / ((MS_PER_UPDATE : Int) : α)⌋₊ < fuel →
      tickLoop m fuel lag w = some (⌊lag / ((MS_PER_UPDATE : Int) : α)⌋₊,
        lag - ((MS_PER_UPDATE : Int) : α) * (⌊lag / ((MS_PER_UPDATE : Int) : α)⌋₊ : α),
        (update m)^[⌊lag / ((MS_PER_UPDATE : Int) : α)⌋₊] w) := by
  have hM : (0 : α) < ((MS_PER_UPDATE : Int) : α) := ms_per_update_pos
  induction fuel with
  | zero => intro lag w _ h; omega
  | succ fuel ih =>
    intro lag w hlag hfuel
    by_cases hge : lag ≥ ((MS_PER_UPDATE : Int) : α)
    · have h0 : 0 ≤ lag - ((MS_PER_UPDATE : Int) : α) := sub_nonneg.mpr hge
      have h1 : lag / ((MS_PER_UPDATE : Int) : α) =
          (lag - ((MS_PER_UPDATE : Int) : α)) / ((MS_PER_UPDATE : Int) : α) + 1 := by
        field_simp
      have h2 : ⌊lag / ((MS_PER_UPDATE : Int) : α)⌋₊ =
          ⌊(lag - ((MS_PER_UPDATE : Int) : α)) / ((MS_PER_UPDATE : Int) : α)⌋₊ + 1 := by
        rw [h1, Nat.floor_add_one (div_nonneg h0 hM.le)]
      have h3 := ih (lag - ((MS_PER_UPDATE : Int) : α)) (update m w) h0 (by omega)
      have e : lag - ((MS_PER_UPDATE : Int) : α) - ((MS_PER_UPDATE : Int) : α) *
          (⌊(lag - ((MS_PER_UPDATE : Int) : α)) / ((MS_PER_UPDATE : Int) : α)⌋₊ : α) =
          lag - ((MS_PER_UPDATE : Int) : α) *
          ((⌊(lag - ((MS_PER_UPDATE : Int) : α)) / ((MS_PER_UPDATE : Int) : α)⌋₊ + 1 : Nat) : α) := by
        push_cast
        ring
      rw [tickLoop, if_pos hge, h3, h2, Function.iterate_succ_apply, ← e]
    · have h1 : lag / ((MS_PER_UPDATE : Int) : α) < 1 := by
        rw [div_lt_one hM]
        exact lt_of_not_ge hge
      have h2 : ⌊lag / ((MS_PER_UPDATE : Int) : α)⌋₊ = 0 := Nat.floor_eq_zero.mpr h1
      rw [tickLoop, if_neg hge, h2, Function.iterate_zero_apply]
      congr 3
      simp

/-- The lag left by the loop lies in `[0, MS_PER_UPDATE)`. -/
theorem lag_left_range {α : Type} [LinearOrderedField α] [FloorRing α] (x : α) (hx : 0 ≤ x) :
    0 ≤ x - ((MS_PER_UPDATE : Int) : α) * (⌊x / ((MS_PER_UPDATE : Int) : α)⌋₊ : α) ∧
    x - ((MS_PER_UPDATE : Int) : α) * (⌊x / ((MS_PER_UPDATE : Int) : α)⌋₊ : α) <
      ((MS_PER_UPDATE : Int) : α) := by
  have hM : (0 : α) < ((MS_PER_UPDATE : Int) : α) := ms_per_update_pos
  have h1 := Nat.floor_le (div_nonneg hx hM.le)
  have h2 := Nat.lt_floor_add_one (x / ((MS_PER_UPDATE : Int) : α))
  rw [le_div_iff₀ hM] at h1
  rw [div_lt_iff₀ hM] at h2
  constructor <;> linarith

/-- The frames of `main` from a lag in `[0, MS_PER_UPDATE)`, with enough fuel. -/
theorem frames_spec {α : Type} [LinearOrderedField α] [FloorRing α] (m : MathFns α)
    (fuel : Nat) (es : List α) : ∀ (ticks : Nat) (lag : α) (w : World α),
      0 ≤ lag → lag < ((MS_PER_UPDATE : Int) : α) → (∀ e ∈ es, 0 ≤ e) →
      ⌊(lag + es.sum) / ((MS_PER_UPDATE : Int) : α)⌋₊ < fuel →
      frames m fuel es (ticks, lag, w) =
        some (ticks + ⌊(lag + es.sum) / ((MS_PER_UPDATE : Int) : α)⌋₊,
          lag + es.sum - ((MS_PER_UPDATE : Int) : α) *
            (⌊(lag + es.sum) / ((MS_PER_UPDATE : Int) : α)⌋₊ : α),
          (update m)^[⌊(lag + es.sum) / ((MS_PER_UPDATE : Int) : α)⌋₊] w) := by
  have hM : (0 : α) < ((MS_PER_UPDATE : Int) : α) := ms_per_update_pos
  induction es with
  | nil =>
    intro ticks lag w h0 h1 _ _
    have h2 : ⌊(lag + ([] : List α).sum) / ((MS_PER_UPDATE : Int) : α)⌋₊ = 0 := by
      rw [List.sum_nil, add_zero]
      exact Nat.floor_eq_zero.mpr ((div_lt_one hM).mpr h1)
    rw [h2, frames]
    simp
  | cons e rest ih =>
    intro ticks lag w h0 h1 hes hfuel
    have he : 0 ≤ e := hes e (List.mem_cons_self _ _)
    have hrest : ∀ x ∈ rest, 0 ≤ x := fun x hx => hes x (List.mem_cons_of_mem _ hx)
    have hsum : 0 ≤ rest.sum := List.sum_nonneg hrest
    have hle : 0 ≤ lag + e := add_nonneg h0 he
    rw [List.sum_cons] at hfuel ⊢
    have hk : ⌊(lag + e) / ((MS_PER_UPDATE : Int) : α)⌋₊ ≤
        ⌊(lag + (e + rest.sum)) / ((MS_PER_UPDATE : Int) : α)⌋₊ :=
      Nat.floor_mono (div_le_div_of_nonneg_right (by linarith) hM.le)
    have hloop := tickLoop_spec m fuel (lag + e) w hle (lt_of_le_of_lt hk hfuel)
    have hr := lag_left_range (lag + e) hle
    have hsplit : (lag + (e + rest.sum)) / ((MS_PER_UPDATE : Int) : α) =
        (lag + e - ((MS_PER_UPDATE : Int) : α) *
          (⌊(lag + e) / ((MS_PER_UPDATE : Int) : α)⌋₊ : α) + rest.sum) /
          ((MS_PER_UPDATE : Int) : α) +
        (⌊(lag + e) / ((MS_PER_UPDATE : Int) : α)⌋₊ : α) := by
      field_simp
      ring
    have hfl : ⌊(lag + (e + rest.sum)) / ((MS_PER_UPDATE : Int) : α)⌋₊ =
        ⌊(lag + e - ((MS_PER_UPDATE : Int) : α) *
          (⌊(lag + e) / ((MS_PER_UPDATE : Int) : α)⌋₊ : α) + rest.sum) /
          ((MS_PER_UPDATE : Int) : α)⌋₊ + ⌊(lag + e) / ((MS_PER_UPDATE : Int) : α)⌋₊ := by
      rw [hsplit, Nat.floor_add_nat (div_nonneg (add_nonneg hr.1 hsum) hM.le)]
    have hih := ih (ticks + ⌊(lag + e) / ((MS_PER_UPDATE : Int) : α)⌋₊) _
      ((update m)^[⌊(lag + e) / ((MS_PER_UPDATE : Int) : α)⌋₊] w) hr.1 hr.2 hrest (by omega)
    rw [frames, hloop]
    simp only
    rw [hih, hfl, Function.iterate_add_apply]
    generalize ⌊(lag + e) / ((MS_PER_UPDATE : Int) : α)⌋₊ = k
    generalize ⌊(lag + e - ((MS_PER_UPDATE : Int) : α) * (k : α) + rest.sum) /
      ((MS_PER_UPDATE : Int) : α)⌋₊ = j
    have e1 : ticks + k + j = ticks + (j + k) := by omega
    have e2 : lag + e - ((MS_PER_UPDATE : Int) : α) * (k : α) + rest.sum -
        ((MS_PER_UPDATE : Int) : α) * (j : α) =
        lag + (e + rest.sum) - ((MS_PER_UPDATE : Int) : α) * ((j + k : Nat) : α) := by
      push_cast
      ring
    rw [e1, e2]

/-- C15 (fixed-timestep accumulator): from a lag `L ≥ 0` the loop
`while (lag >= MS_PER_UPDATE)` of `main` terminates (any fuel above
`⌊L / MS_PER_UPDATE⌋` is enough) after exactly `⌊L / MS_PER_UPDATE⌋` calls of
`update()` and leaves `0 ≤ lag < MS_PER_UPDATE`; and for every list of
non-negative frame times, the frames of `main`, started with lag 0, make
`⌊sum / MS_PER_UPDATE⌋` calls of `update()` in all, whatever the split of the
time into frames. -/
theorem accumulator_spec {α : Type} [LinearOrderedField α] [FloorRing α] (m : MathFns α)
    (w : World α) :
    (∀ (lag : α) (fuel : Nat), 0 ≤ lag → ⌊lag / ((MS_PER_UPDATE : Int) : α)⌋₊ < fuel →
      ∃ lag' : α, tickLoop m fuel lag w = some (⌊lag / ((MS_PER_UPDATE : Int) : α)⌋₊, lag',
          (update m)^[⌊lag / ((MS_PER_UPDATE : Int) : α)⌋₊] w) ∧
        0 ≤ lag' ∧ lag' < ((MS_PER_UPDATE : Int) : α)) ∧
    (∀ (es : List α) (fuel : Nat), (∀ e ∈ es, 0 ≤ e) →
      ⌊es.sum / ((MS_PER_UPDATE : Int) : α)⌋₊ < fuel →
      ∃ lag' : α, frames m fuel es (0, 0, w) =
          some (⌊es.sum / ((MS_PER_UPDATE : Int) : α)⌋₊, lag',
            (update m)^[⌊es.sum / ((MS_PER_UPDATE : Int) : α)⌋₊] w) ∧
        0 ≤ lag' ∧ lag' < ((MS_PER_UPDATE : Int) : α)) := by
  refine ⟨fun lag fuel hlag hfuel => ⟨_, tickLoop_spec m fuel lag w hlag hfuel,
    lag_left_range lag hlag⟩, fun es fuel hes hfuel => ?_⟩
  have hsum : 0 ≤ es.sum := List.sum_nonneg hes
  have h := frames_spec m fuel es 0 0 w le_rfl ms_per_update_pos hes
    (by rw [zero_add]; exact hfuel)
  rw [zero_add, zero_add] at h
  exact ⟨_, h, lag_left_range es.sum hsum⟩

/-- The floor of `40 / MS_PER_UPDATE` is 2. -/
theorem floor_forty : ⌊(40 : ℚ) / ((MS_PER_UPDATE : Int) : ℚ)⌋₊ = 2 := by
  have h : ((MS_PER_UPDATE : Int) : ℚ) = 16 := by
    have h16 : MS_PER_UPDATE = 16 := by decide
    rw [h16]
    norm_num
  rw [h, Nat.floor_eq_iff (by norm_num)]
  norm_num

/-- C15 on 40 ms of lag: two ticks, whether the 40 ms come in one frame or as
frames of 10 ms and 30 ms. -/
theorem accumulator_spec_witness :
    (∃ lag' : ℚ, tickLoop demoMath 3 40 lostWorld =
        some (⌊(40 : ℚ) / ((MS_PER_UPDATE : Int) : ℚ)⌋₊, lag',
          (update demoMath)^[⌊(40 : ℚ) / ((MS_PER_UPDATE : Int) : ℚ)⌋₊] lostWorld) ∧
      0 ≤ lag' ∧ lag' < ((MS_PER_UPDATE : Int) : ℚ)) ∧
    (∃ lag' : ℚ, frames demoMath 3 [10, 30] (0, 0, lostWorld) =
        some (⌊([10, 30] : List ℚ).sum / ((MS_PER_UPDATE : Int) : ℚ)⌋₊, lag',
          (update demoMath)^[⌊([10, 30] : List ℚ).sum / ((MS_PER_UPDATE : Int) : ℚ)⌋₊]
            lostWorld) ∧
      0 ≤ lag' ∧ lag' < ((MS_PER_UPDATE : Int) : ℚ)) :=
  ⟨(accumulator_spec demoMath lostWorld).1 40 3 (by norm_num)
      (by rw [floor_forty]; decide),
    (accumulator_spec demoMath lostWorld).2 [10, 30] 3
      (by intro e he; simp only [List.mem_cons, List.mem_singleton, List.not_mem_nil,
            or_false] at he; rcases he with rfl | rfl <;> norm_num)
      (by
        have h : ([10, 30] : List ℚ).sum = 40 := by norm_num
        rw [h, floor_forty]
        decide)⟩

end Accumulator

section SpeedCap

/-- The draw of `randomDirection` is -1 or 1. -/
theorem randomDirection_cases (g : Nat → Nat) :
    (randomDirection g).1 = -1 ∨ (randomDirection g).1 = 1 := by
  unfold randomDirection
  dsimp only
  split_ifs
  · left; rfl
  · right; rfl

/-- The draw of `randomNormal` lies in `[0, 1]`. -/
theorem randomNormal_range {α : Type} [LinearOrderedField α] (g : Nat → Nat) :
    0 ≤ (randomNormal g : α × (Nat → Nat)).1 ∧ (randomNormal g : α × (Nat → Nat)).1 ≤ 1 := by
  unfold randomNormal random rand
  dsimp only
  have h0 : (0 : Int) ≤ ((g 0 : Nat) : Int) % (100000 - 0 + 1) + 0 := by omega
  have h1 : ((g 0 : Nat) : Int) % (100000 - 0 + 1) + 0 ≤ 100000 := by omega
  have h0' : (0 : α) ≤ ((((g 0 : Nat) : Int) % (100000 - 0 + 1) + 0 : Int) : α) := by
    exact_mod_cast h0
  have h1' : ((((g 0 : Nat) : Int) % (100000 - 0 + 1) + 0 : Int) : α) ≤ 100000 := by
    exact_mod_cast h1
  constructor
  · exact div_nonneg h0' (by norm_num)
  · rw [div_le_one (by norm_num)]
    exact h1'

/-- The velocity `createAsteroid` gives, in terms of the draws. -/
theorem createAsteroid_velocity {α : Type} [LinearOrderedField α] (m : MathFns α)
    (size : AsteroidSize) (maxVel : Int)
    (hsize : (size = ASTEROIDSIZE_SMALL ∧ maxVel = 3) ∨ (size = ASTEROIDSIZE_MEDIUM ∧ maxVel = 2) ∨
      (size = ASTEROIDSIZE_LARGE ∧ maxVel = 1)) (g : Nat → Nat) :
    ∃ d1 d2 : α, (d1 = 1 ∨ d1 = -1) ∧ (d2 = 1 ∨ d2 = -1) ∧
      (createAsteroid m size g).1.velocity.x =
        (maxVel : α) * (randomNormal (randomDirection g).2 : α × (Nat → Nat)).1 * d1 ∧
      (createAsteroid m size g).1.velocity.y =
        m.sqrt ((maxVel : α) ^ 2 -
          ((maxVel : α) * (randomNormal (randomDirection g).2 : α × (Nat → Nat)).1) ^ 2) * d2 := by
  have hmax : (if size = ASTEROIDSIZE_SMALL then ASTEROIDVEL_SMALL
      else if size = ASTEROIDSIZE_MEDIUM then ASTEROIDVEL_MEDIUM
      else if size = ASTEROIDSIZE_LARGE then ASTEROIDVEL_LARGE else 0) = maxVel := by
    rcases hsize with ⟨rfl, rfl⟩ | ⟨rfl, rfl⟩ | ⟨rfl, rfl⟩ <;> decide
  have hd : ∀ g : Nat → Nat, (((randomDirection g).1 : Int) : α) = 1 ∨
      (((randomDirection g).1 : Int) : α) = -1 := by
    intro g
    rcases randomDirection_cases g with h | h <;> rw [h]
    · right; norm_num
    · left; norm_num
  refine ⟨_, _, hd (randomNormal (randomDirection g).2 : α × (Nat → Nat)).2,
    hd (randomDirection (randomNormal (randomDirection g).2 : α × (Nat → Nat)).2).2, ?_, ?_⟩
  · unfold createAsteroid
    simp only [hmax]
  · unfold createAsteroid
    simp only [hmax]

/-- C12 (speed cap): with an exact square root, for each of the three sizes and
every sequence of `rand()` values, the asteroid of `createAsteroid` has
`vx ^ 2 + vy ^ 2 = maxVel ^ 2` (maxVel 3, 2, 1 for Small, Medium, Large), the
draw of `randomNormal` lies in `[0, 1]`, and the number whose square root is
taken, `maxVel ^ 2 - (maxVel * randomNormal) ^ 2`, is non-negative. -/
theorem createAsteroid_speed {α : Type} [LinearOrderedField α] (m : MathFns α)
    (hsqrt : ∀ x : α, 0 ≤ x → m.sqrt x * m.sqrt x = x)
    (size : AsteroidSize) (maxVel : Int)
    (hsize : (size = ASTEROIDSIZE_SMALL ∧ maxVel = 3) ∨ (size = ASTEROIDSIZE_MEDIUM ∧ maxVel = 2) ∨
      (size = ASTEROIDSIZE_LARGE ∧ maxVel = 1)) (g : Nat → Nat) :
    (createAsteroid m size g).1.velocity.x ^ 2 + (createAsteroid m size g).1.velocity.y ^ 2 =
      (maxVel : α) ^ 2 ∧
    0 ≤ (maxVel : α) ^ 2 -
      ((maxVel : α) * (randomNormal (randomDirection g).2 : α × (Nat → Nat)).1) ^ 2 ∧
    ∃ d : α, (d = 1 ∨ d = -1) ∧ (createAsteroid m size g).1.velocity.y =
      m.sqrt ((maxVel : α) ^ 2 -
        ((maxVel : α) * (randomNormal (randomDirection g).2 : α × (Nat → Nat)).1) ^ 2) * d := by
  obtain ⟨d1, d2, hd1, hd2, hx, hy⟩ := createAsteroid_velocity m size maxVel hsize g
  obtain ⟨hn0, hn1⟩ := (randomNormal_range (randomDirection g).2 :
    0 ≤ (randomNormal (randomDirection g).2 : α × (Nat → Nat)).1 ∧
    (randomNormal (randomDirection g).2 : α × (Nat → Nat)).1 ≤ 1)
  have hrad : 0 ≤ (maxVel : α) ^ 2 -
      ((maxVel : α) * (randomNormal (randomDirection g).2 : α × (Nat → Nat)).1) ^ 2 := by
    have h1 : (randomNormal (randomDirection g).2 : α × (Nat → Nat)).1 ^ 2 ≤ 1 := by nlinarith
    have h2 : 0 ≤ (maxVel : α) ^ 2 := sq_nonneg _
    nlinarith
  refine ⟨?_, hrad, d2, hd2, hy⟩
  have hs := hsqrt _ hrad
  have e1 : d1 ^ 2 = 1 := by rcases hd1 with h | h <;> rw [h] <;> norm_num
  have e2 : d2 ^ 2 = 1 := by rcases hd2 with h | h <;> rw [h] <;> norm_num
  rw [hx, hy]
  linear_combination
    ((maxVel : α) * (randomNormal (randomDirection g).2 : α × (Nat → Nat)).1) ^ 2 * e1 +
    (m.sqrt ((maxVel : α) ^ 2 -
      ((maxVel : α) * (randomNormal (randomDirection g).2 : α × (Nat → Nat)).1) ^ 2)) ^ 2 * e2 + hs

/-- C12 over the real numbers with the real square root, for a small asteroid
and the `rand()` sequence of the demonstration game. -/
theorem createAsteroid_speed_witness :
    (createAsteroid (⟨Real.cos, Real.sin, Real.sqrt, Real.pi⟩ : MathFns ℝ)
        ASTEROIDSIZE_SMALL demoSeq).1.velocity.x ^ 2 +
      (createAsteroid (⟨Real.cos, Real.sin, Real.sqrt, Real.pi⟩ : MathFns ℝ)
        ASTEROIDSIZE_SMALL demoSeq).1.velocity.y ^ 2 = ((3 : Int) : ℝ) ^ 2 :=
  (createAsteroid_speed (⟨Real.cos, Real.sin, Real.sqrt, Real.pi⟩ : MathFns ℝ)
    (fun _ hx => Real.mul_self_sqrt hx) ASTEROIDSIZE_SMALL 3 (Or.inl ⟨rfl, rfl⟩) demoSeq).1

end SpeedCap

section HeadOnShot

/-- The signed area that `counterClockwise` tests, for a point at offset
`(u, 0)` from the centre of a regular pentagon of radius 10 and the edge from
the vertex at angle `φ` to the vertex at angle `φ + 2π/5`. -/
theorem pentagon_side_eq (u φ : ℝ) :
    10 * Real.sin (φ + 2 * Real.pi / 5) * (10 * Real.cos φ - u) -
      10 * Real.sin φ * (10 * Real.cos (φ + 2 * Real.pi / 5) - u) =
    20 * Real.sin (Real.pi / 5) *
      (10 * Real.cos (Real.pi / 5) - u * Real.cos (φ + Real.pi / 5)) := by
  have h1 : Real.sin (φ + 2 * Real.pi / 5) =
      Real.sin (φ + Real.pi / 5) * Real.cos (Real.pi / 5) +
      Real.cos (φ + Real.pi / 5) * Real.sin (Real.pi / 5) := by
    rw [← Real.sin_add]
    congr 1
    ring
  have h2 : Real.cos (φ + 2 * Real.pi / 5) =
      Real.cos (φ + Real.pi / 5) * Real.cos (Real.pi / 5) -
      Real.sin (φ + Real.pi / 5) * Real.sin (Real.pi / 5) := by
    rw [← Real.cos_add]
    congr 1
    ring
  have h3 : Real.sin φ =
      Real.sin (φ + Real.pi / 5) * Real.cos (Real.pi / 5) -
      Real.cos (φ + Real.pi / 5) * Real.sin (Real.pi / 5) := by
    rw [← Real.sin_sub]
    congr 1
    ring
  have h4 : Real.cos φ =
      Real.cos (φ + Real.pi / 5) * Real.cos (Real.pi / 5) +
      Real.sin (φ + Real.pi / 5) * Real.sin (Real.pi / 5) := by
    rw [← Real.cos_sub]
    congr 1
    ring
  rw [h1, h2, h3, h4]
  have e1 := Real.sin_sq_add_cos_sq (φ + Real.pi / 5)
  have e2 := Real.sin_sq_add_cos_sq (Real.pi / 5)
  generalize Real.sin (φ + Real.pi / 5) = S at *
  generalize Real.cos (φ + Real.pi / 5) = C at *
  generalize Real.sin (Real.pi / 5) = s at *
  generalize Real.cos (Real.pi / 5) = c at *
  linear_combination (200 * s * c) * e1

/-- The sine of `π/5` is positive and its cosine is above 1/2. -/
theorem pi_div_five_bounds : 0 < Real.sin (Real.pi / 5) ∧ 1 / 2 < Real.cos (Real.pi / 5) := by
  have hpi := Real.pi_pos
  constructor
  · exact Real.sin_pos_of_pos_of_lt_pi (by positivity) (by linarith)
  · rw [← Real.cos_pi_div_three]
    exact Real.cos_lt_cos_of_nonneg_of_le_pi_div_two (by positivity) (by linarith) (by linarith)

/-- A point within 5 of the centre of the pentagon, on the horizontal through
the centre, is on the inner side of every edge. -/
theorem pentagon_inside (u φ : ℝ) (hu : |u| ≤ 5) :
    10 * Real.sin φ * (10 * Real.cos (φ + 2 * Real.pi / 5) - u) <
      10 * Real.sin (φ + 2 * Real.pi / 5) * (10 * Real.cos φ - u) := by
  have h := pentagon_side_eq u φ
  obtain ⟨hs, hc⟩ := pi_div_five_bounds
  have hC := abs_le.mp (Real.abs_cos_le_one (φ + Real.pi / 5))
  have hu' := abs_le.mp hu
  have hprod : u * Real.cos (φ + Real.pi / 5) ≤ 5 := by
    have : |u * Real.cos (φ + Real.pi / 5)| ≤ 5 * 1 := by
      rw [abs_mul]
      exact mul_le_mul hu (Real.abs_cos_le_one _) (abs_nonneg _) (by norm_num)
    linarith [le_abs_self (u * Real.cos (φ + Real.pi / 5))]
  have hpos : 0 < 20 * Real.sin (Real.pi / 5) *
      (10 * Real.cos (Real.pi / 5) - u * Real.cos (φ + Real.pi / 5)) :=
    mul_pos (by linarith) (by linarith)
  linarith

/-- The small asteroid built from `awaySeq`: velocity `(3, 0)`, spin -0.02. -/
theorem createAsteroid_away (m : MathFns ℝ) (hq : m.sqrt = Real.sqrt) :
    (createAsteroid m ASTEROIDSIZE_SMALL awaySeq).1.velocity = { x := 3, y := 0 } ∧
    (createAsteroid m ASTEROIDSIZE_SMALL awaySeq).1.angularVelocity = -(2 / 100) ∧
    (createAsteroid m ASTEROIDSIZE_SMALL awaySeq).1.angle = 0 ∧
    (createAsteroid m ASTEROIDSIZE_SMALL awaySeq).1.size = ASTEROIDSIZE_SMALL := by
  refine ⟨?_, ?_, rfl, rfl⟩
  · simp only [createAsteroid, randomDirection, randomNormal, random, rand, awaySeq, hq,
      ASTEROIDSIZE_SMALL, ASTEROIDVEL_SMALL]
    norm_num
  · simp only [createAsteroid, randomDirection, randomNormal, random, rand, awaySeq]
    norm_num

/-- The first vertex of a small asteroid of `createAsteroid` is at distance 10
from its centre, with the real cosine, sine and square root. -/
theorem factory_radius (m : MathFns ℝ) (hc : m.cos = Real.cos) (hs : m.sin = Real.sin)
    (hq : m.sqrt = Real.sqrt) (g : Nat → Nat) :
    distance m { x := 0, y := 0 }
      ((createAsteroid m ASTEROIDSIZE_SMALL g).1.shape.lines ⟨0, by decide⟩).p1 = 10 := by
  simp only [distance, createAsteroid, hc, hs, hq, ASTEROIDSIZE_SMALL]
  have h : ∀ t : ℝ, (0 - ((10 : Int) : ℝ) * Real.cos t) ^ 2 +
      (0 - ((10 : Int) : ℝ) * Real.sin t) ^ 2 = 10 ^ 2 := by
    intro t
    have := Real.sin_sq_add_cos_sq t
    push_cast
    linear_combination 100 * this
  rw [h, Real.sqrt_sq (by norm_num)]

/-- The test `linesIntersect` of the path from `(100, 100)` to `(108, 100)`
against the edge of a pentagon of radius 10 centred at `(cx, 100)` that runs
from the vertex at angle `φ` to the vertex at angle `ψ`. -/
theorem linesIntersect_path_edge (cx φ ψ : ℝ) :
    linesIntersect ({ x := 0, y := 0 } : Vector2f ℝ) { x := cx, y := 100 }
      { p1 := { x := 108, y := 100 }, p2 := { x := 100, y := 100 } }
      { p1 := { x := 10 * Real.cos φ, y := 10 * Real.sin φ }
        p2 := { x := 10 * Real.cos ψ, y := 10 * Real.sin ψ } } =
    ((decide (10 * Real.sin φ * (10 * Real.cos ψ - (108 - cx)) <
        10 * Real.sin ψ * (10 * Real.cos φ - (108 - cx))) !=
      decide (10 * Real.sin φ * (10 * Real.cos ψ - (100 - cx)) <
        10 * Real.sin ψ * (10 * Real.cos φ - (100 - cx)))) &&
     (decide (Real.sin φ < 0) != decide (Real.sin ψ < 0))) := by
  unfold linesIntersect counterClockwise
  dsimp only
  congr 2
  · exact decide_eq_decide.mpr ⟨fun h => by linarith, fun h => by linarith⟩
  · exact decide_eq_decide.mpr ⟨fun h => by linarith, fun h => by linarith⟩
  · exact decide_eq_decide.mpr ⟨fun h => by linarith, fun h => by linarith⟩
  · exact decide_eq_decide.mpr ⟨fun h => by linarith, fun h => by linarith⟩

/-- The edges of a small asteroid of `createAsteroid` after `updateAsteroid`,
with the real cosine, sine and square root: a regular pentagon of radius 10
turned by the asteroid's angle. -/
theorem updateAsteroid_factory_lines (m : MathFns ℝ) (hc : m.cos = Real.cos)
    (hs : m.sin = Real.sin) (hq : m.sqrt = Real.sqrt) (hpi : m.pi = Real.pi) (g : Nat → Nat)
    (position : Vector2f ℝ) (i : Fin N_LINES) :
    ∃ φ : ℝ, φ = 2 * Real.pi / 5 * (((i : Nat) : ℝ) - 1) +
        ((createAsteroid m ASTEROIDSIZE_SMALL g).1.angle +
          (createAsteroid m ASTEROIDSIZE_SMALL g).1.angularVelocity) ∧
      (updateAsteroid m
        { (createAsteroid m ASTEROIDSIZE_SMALL g).1 with position := position }).shape.lines i =
      { p1 := { x := 10 * Real.cos φ, y := 10 * Real.sin φ }
        p2 := { x := 10 * Real.cos (φ + 2 * Real.pi / 5)
                y := 10 * Real.sin (φ + 2 * Real.pi / 5) } } := by
  refine ⟨_, rfl, ?_⟩
  have hr := factory_radius m hc hs hq g
  have e1 : 2 * Real.pi / ((N_LINES : Nat) : ℝ) * (((((i : Nat) : Int) - 1 : Int)) : ℝ) =
      2 * Real.pi / 5 * (((i : Nat) : ℝ) - 1) := by
    push_cast
    norm_num
  have e2 : 2 * Real.pi / ((N_LINES : Nat) : ℝ) * ((((i : Nat) : Int)) : ℝ) +
      ((createAsteroid m ASTEROIDSIZE_SMALL g).1.angle +
        (createAsteroid m ASTEROIDSIZE_SMALL g).1.angularVelocity) =
      2 * Real.pi / 5 * (((i : Nat) : ℝ) - 1) +
      ((createAsteroid m ASTEROIDSIZE_SMALL g).1.angle +
        (createAsteroid m ASTEROIDSIZE_SMALL g).1.angularVelocity) + 2 * Real.pi / 5 := by
    push_cast
    ring
  simp only [updateAsteroid]
  rw [hr, hc, hs, hpi, e1, e2]

/-- The updated position of the asteroid of the head-on world. -/
theorem updateAsteroid_head_on_position (m : MathFns ℝ) (a : Asteroid ℝ) (vx : ℝ)
    (hv : a.velocity = { x := vx, y := 0 }) (hvx : |vx| ≤ 3)
    (hpos : a.position = { x := 108, y := 100 }) :
    (updateAsteroid m a).position = { x := 108 + vx, y := 100 } := by
  have h := abs_le.mp hvx
  simp only [updateAsteroid, hv, hpos, wrapPosition, WRAPBUFFER_X, WRAPBUFFER_Y, WINDOW_WIDTH,
    WINDOW_HEIGHT, add_zero]
  have h1 : ¬ (108 + vx < ((-10 : Int) : ℝ)) := by push_cast; linarith
  have h2 : ¬ (108 + vx ≥ ((1024 + 10 : Int) : ℝ)) := by push_cast; linarith
  have h3 : ¬ ((100 : ℝ) < ((-10 : Int) : ℝ)) := by push_cast; norm_num
  have h4 : ¬ ((100 : ℝ) ≥ ((1024 + 10 : Int) : ℝ)) := by push_cast; norm_num
  simp only [if_neg h1, if_neg h2, if_neg h3, if_neg h4]

/-- With the real cosine, sine and square root, the path from `(100, 100)` to
`(108, 100)` crosses the fourth edge of the updated asteroid of the head-on
world whose asteroid has velocity `(3, 0)`. -/
theorem head_on_away_hit (m : MathFns ℝ) (hc : m.cos = Real.cos) (hs : m.sin = Real.sin)
    (hq : m.sqrt = Real.sqrt) (hpi : m.pi = Real.pi) :
    ∃ i : Fin N_LINES, linesIntersect ({ x := 0, y := 0 } : Vector2f ℝ)
      (updateAsteroid m { (createAsteroid m ASTEROIDSIZE_SMALL awaySeq).1 with
        position := { x := 108, y := 100 } }).position
      { p1 := { x := 108, y := 100 }, p2 := { x := 100, y := 100 } }
      ((updateAsteroid m { (createAsteroid m ASTEROIDSIZE_SMALL awaySeq).1 with
        position := { x := 108, y := 100 } }).shape.lines i) = true := by
  obtain ⟨hv, hav, hang, -⟩ := createAsteroid_away m hq
  have hposA := updateAsteroid_head_on_position m
    { (createAsteroid m ASTEROIDSIZE_SMALL awaySeq).1 with position := { x := 108, y := 100 } }
    3 hv (by norm_num [abs_of_pos]) rfl
  obtain ⟨φ, hφ, hl⟩ := updateAsteroid_factory_lines m hc hs hq hpi awaySeq
    { x := 108, y := 100 } ⟨3, by decide⟩
  rw [hang, hav] at hφ
  have hφ' : φ = 4 * Real.pi / 5 - 2 / 100 := by
    rw [hφ]
    push_cast
    ring
  have hpi3 := Real.pi_gt_three
  have hpi4 := Real.pi_le_four
  refine ⟨⟨3, by decide⟩, ?_⟩
  rw [hl, hposA]
  have e3 : ((108 : ℝ) + 3) = 111 := by norm_num
  simp only [e3]
  rw [linesIntersect_path_edge]
  obtain ⟨hs5, hc5⟩ := pi_div_five_bounds
  have hA := pentagon_inside (108 - 111) φ (by
    rw [show ((108 : ℝ) - 111) = -3 by norm_num, abs_neg]
    norm_num [abs_of_pos])
  have hcos : Real.cos (φ + Real.pi / 5) = -Real.cos (2 / 100) := by
    rw [hφ', show 4 * Real.pi / 5 - 2 / 100 + Real.pi / 5 = Real.pi - 2 / 100 by ring,
      Real.cos_pi_sub]
  have hcos2 : 1 - (2 / 100 : ℝ) ^ 2 / 2 ≤ Real.cos (2 / 100) := Real.one_sub_sq_div_two_le_cos
  have hB : ¬ (10 * Real.sin φ * (10 * Real.cos (φ + 2 * Real.pi / 5) - (100 - 111)) <
      10 * Real.sin (φ + 2 * Real.pi / 5) * (10 * Real.cos φ - (100 - 111))) := by
    have h := pentagon_side_eq (100 - 111) φ
    rw [hcos] at h
    have hc1 := Real.cos_le_one (Real.pi / 5)
    have hneg : 20 * Real.sin (Real.pi / 5) *
        (10 * Real.cos (Real.pi / 5) - (100 - 111) * -Real.cos (2 / 100)) < 0 :=
      mul_neg_of_pos_of_neg (by linarith) (by nlinarith)
    linarith
  have hsin1 : ¬ (Real.sin φ < 0) := by
    have : 0 < Real.sin φ :=
      Real.sin_pos_of_pos_of_lt_pi (by rw [hφ']; linarith) (by rw [hφ']; linarith)
    linarith
  have hsin2 : Real.sin (φ + 2 * Real.pi / 5) < 0 := by
    rw [hφ', show 4 * Real.pi / 5 - 2 / 100 + 2 * Real.pi / 5 =
      (Real.pi / 5 - 2 / 100) + Real.pi by ring, Real.sin_add_pi]
    have : 0 < Real.sin (Real.pi / 5 - 2 / 100) :=
      Real.sin_pos_of_pos_of_lt_pi (by linarith) (by linarith)
    linarith
  rw [decide_eq_true hA, decide_eq_false hB, decide_eq_false hsin1, decide_eq_true hsin2]
  rfl

end HeadOnShot

section Touches

/-- Three points on one straight line are not in counter-clockwise order. -/
theorem counterClockwise_collinear {α : Type} [LinearOrderedField α] (a b c : Vector2f α)
    (p q r : α) (hpq : p ≠ 0 ∨ q ≠ 0) (ha : p * a.x + q * a.y = r) (hb : p * b.x + q * b.y = r)
    (hc : p * c.x + q * c.y = r) : counterClockwise a b c = false := by
  have hzero : (c.y - a.y) * (b.x - a.x) - (b.y - a.y) * (c.x - a.x) = 0 := by
    rcases hpq with h | h
    · have : p * ((c.y - a.y) * (b.x - a.x) - (b.y - a.y) * (c.x - a.x)) = 0 := by
        linear_combination (c.y - a.y) * hb - (b.y - a.y) * hc + (b.y - c.y) * ha
      exact (mul_eq_zero.mp this).resolve_left h
    · have : q * ((c.y - a.y) * (b.x - a.x) - (b.y - a.y) * (c.x - a.x)) = 0 := by
        linear_combination (a.x - c.x) * hb + (b.x - a.x) * hc + (c.x - b.x) * ha
      exact (mul_eq_zero.mp this).resolve_left h
  unfold counterClockwise
  rw [decide_eq_false_iff_not]
  intro hgt
  linarith

/-- A point of the segment from `a` to `b` is not counter-clockwise of it. -/
theorem counterClockwise_on_segment {α : Type} [LinearOrderedField α] (a b c : Vector2f α)
    (t : α) (hx : c.x = a.x + t * (b.x - a.x)) (hy : c.y = a.y + t * (b.y - a.y)) :
    counterClockwise a b c = false ∧ counterClockwise c a b = false ∧
    counterClockwise b c a = false := by
  unfold counterClockwise
  simp only [decide_eq_false_iff_not, hx, hy]
  refine ⟨fun h => ?_, fun h => ?_, fun h => ?_⟩ <;> nlinarith

/-- The value of `linesIntersect` in terms of the translated end points. -/
theorem linesIntersect_moved {α : Type} [LinearOrderedField α] (o1 o2 : Vector2f α)
    (l1 l2 : Line α) :
    linesIntersect o1 o2 l1 l2 =
      ((counterClockwise (moved o1 l1.p1) (moved o2 l2.p1) (moved o2 l2.p2) !=
        counterClockwise (moved o1 l1.p2) (moved o2 l2.p1) (moved o2 l2.p2)) &&
       (counterClockwise (moved o1 l1.p1) (moved o1 l1.p2) (moved o2 l2.p1) !=
        counterClockwise (moved o1 l1.p1) (moved o1 l1.p2) (moved o2 l2.p2))) := rfl

/-- C21, amended (exact touches): `linesIntersect` returns false when all four
translated end points are collinear; when an end point of one segment lies on
the other segment, it returns false provided the other end point of the first
segment is not counter-clockwise of the touched segment (`counterClockwise` of
that point with the touched segment's end points is false); and when the second
end point of `l2` is counter-clockwise of `l1` and the first lies strictly
inside `l1`, the touch is reported: it returns true. -/
theorem linesIntersect_touch {α : Type} [LinearOrderedField α] (o1 o2 : Vector2f α)
    (l1 l2 : Line α) :
    (Collinear4 (moved o1 l1.p1) (moved o1 l1.p2) (moved o2 l2.p1) (moved o2 l2.p2) →
      linesIntersect o1 o2 l1 l2 = false) ∧
    (OnSegment o1 l1 (moved o2 l2.p1) →
      counterClockwise (moved o1 l1.p1) (moved o1 l1.p2) (moved o2 l2.p2) = false →
      linesIntersect o1 o2 l1 l2 = false) ∧
    (OnSegment o1 l1 (moved o2 l2.p2) →
      counterClockwise (moved o1 l1.p1) (moved o1 l1.p2) (moved o2 l2.p1) = false →
      linesIntersect o1 o2 l1 l2 = false) ∧
    (OnSegment o2 l2 (moved o1 l1.p1) →
      counterClockwise (moved o1 l1.p2) (moved o2 l2.p1) (moved o2 l2.p2) = false →
      linesIntersect o1 o2 l1 l2 = false) ∧
    (OnSegment o2 l2 (moved o1 l1.p2) →
      counterClockwise (moved o1 l1.p1) (moved o2 l2.p1) (moved o2 l2.p2) = false →
      linesIntersect o1 o2 l1 l2 = false) ∧
    (InsideSegment o1 l1 (moved o2 l2.p1) →
      counterClockwise (moved o1 l1.p1) (moved o1 l1.p2) (moved o2 l2.p2) = true →
      linesIntersect o1 o2 l1 l2 = true) := by
  rw [linesIntersect_moved]
  refine ⟨?_, ?_, ?_, ?_, ?_, ?_⟩
  · rintro ⟨p, q, r, hpq, ha, hb, hc, hd⟩
    rw [counterClockwise_collinear _ _ _ p q r hpq ha hc hd,
      counterClockwise_collinear _ _ _ p q r hpq hb hc hd]
    rfl
  · rintro ⟨t, -, -, hx, hy⟩ h
    rw [(counterClockwise_on_segment (moved o1 l1.p1) (moved o1 l1.p2) (moved o2 l2.p1) t
      hx hy).1, h]
    simp
  · rintro ⟨t, -, -, hx, hy⟩ h
    rw [(counterClockwise_on_segment (moved o1 l1.p1) (moved o1 l1.p2) (moved o2 l2.p2) t
      hx hy).1, h]
    simp
  · rintro ⟨t, -, -, hx, hy⟩ h
    rw [(counterClockwise_on_segment (moved o2 l2.p1) (moved o2 l2.p2) (moved o1 l1.p1) t
      hx hy).2.1, h]
    simp
  · rintro ⟨t, -, -, hx, hy⟩ h
    rw [(counterClockwise_on_segment (moved o2 l2.p1) (moved o2 l2.p2) (moved o1 l1.p2) t
      hx hy).2.1, h]
    simp
  · rintro ⟨t, ht0, ht1, hx, hy⟩ h
    have h3 := (counterClockwise_on_segment (moved o1 l1.p1) (moved o1 l1.p2) (moved o2 l2.p1) t
      hx hy).1
    have hD : 0 < ((moved o2 l2.p2).y - (moved o1 l1.p1).y) *
        ((moved o1 l1.p2).x - (moved o1 l1.p1).x) -
        ((moved o1 l1.p2).y - (moved o1 l1.p1).y) *
        ((moved o2 l2.p2).x - (moved o1 l1.p1).x) := by
      unfold counterClockwise at h
      exact sub_pos.mpr (of_decide_eq_true h)
    have hx' : (moved o2 l2.p1).x = (moved o1 l1.p1).x +
        t * ((moved o1 l1.p2).x - (moved o1 l1.p1).x) := hx
    have hy' : (moved o2 l2.p1).y = (moved o1 l1.p1).y +
        t * ((moved o1 l1.p2).y - (moved o1 l1.p1).y) := hy
    have ht : 0 < 1 - t := sub_pos.mpr ht1
    have h1 : counterClockwise (moved o1 l1.p1) (moved o2 l2.p1) (moved o2 l2.p2) = true := by
      unfold counterClockwise
      rw [decide_eq_true_iff, hx', hy']
      have := mul_pos ht0 hD
      linarith
    have h2 : counterClockwise (moved o1 l1.p2) (moved o2 l2.p1) (moved o2 l2.p2) = false := by
      unfold counterClockwise
      rw [decide_eq_false_iff_not, hx', hy']
      intro hgt
      have := mul_pos ht hD
      linarith
    rw [h1, h2, h3, h]
    rfl

/-- C21 as stated fails: the segment from `(1, 0)` to `(1, 1)` only touches the
segment from `(0, 0)` to `(2, 0)` (its end point `(1, 0)` lies on it), and
`linesIntersect` returns true. -/
theorem touch_reported :
    OnSegment (⟨0, 0⟩ : Vector2f ℚ) ⟨⟨0, 0⟩, ⟨2, 0⟩⟩ (moved ⟨0, 0⟩ ⟨1, 0⟩) ∧
    linesIntersect (⟨0, 0⟩ : Vector2f ℚ) ⟨0, 0⟩ ⟨⟨0, 0⟩, ⟨2, 0⟩⟩ ⟨⟨1, 0⟩, ⟨1, 1⟩⟩ = true := by
  refine ⟨⟨1 / 2, by norm_num, by norm_num, ?_, ?_⟩, by decide!⟩
  · simp only [moved]
    norm_num
  · simp only [moved]
    norm_num

/-- C21, amended, on the segment from `(0, 0)` to `(2, 0)`: touched from the
other side by the segment from `(1, 0)` to `(1, -1)`, and overlapped by the
collinear segment from `(1, 0)` to `(3, 0)`, it is not intersected. -/
theorem linesIntersect_touch_witness :
    linesIntersect (⟨0, 0⟩ : Vector2f ℚ) ⟨0, 0⟩ ⟨⟨0, 0⟩, ⟨2, 0⟩⟩ ⟨⟨1, 0⟩, ⟨1, -1⟩⟩ = false ∧
    linesIntersect (⟨0, 0⟩ : Vector2f ℚ) ⟨0, 0⟩ ⟨⟨0, 0⟩, ⟨2, 0⟩⟩ ⟨⟨1, 0⟩, ⟨3, 0⟩⟩ = false :=
  ⟨(linesIntersect_touch (⟨0, 0⟩ : Vector2f ℚ) ⟨0, 0⟩ ⟨⟨0, 0⟩, ⟨2, 0⟩⟩ ⟨⟨1, 0⟩, ⟨1, -1⟩⟩).2.1
      ⟨1 / 2, by norm_num, by norm_num, by simp only [moved]; norm_num, by simp only [moved]; norm_num⟩
      (by decide!),
    (linesIntersect_touch (⟨0, 0⟩ : Vector2f ℚ) ⟨0, 0⟩ ⟨⟨0, 0⟩, ⟨2, 0⟩⟩ ⟨⟨1, 0⟩, ⟨3, 0⟩⟩).1
      ⟨0, 1, 0, Or.inr one_ne_zero, by simp only [moved]; norm_num,
        by simp only [moved]; norm_num, by simp only [moved]; norm_num,
        by simp only [moved]; norm_num⟩⟩

end Touches

section SizeUnits

/-- The aggregate size is the same for a reordered collection. -/
theorem totalSize_perm {α : Type} {l₁ l₂ : List (Asteroid α)} (h : l₁.Perm l₂) :
    totalSize l₁ = totalSize l₂ := by
  unfold totalSize
  exact (h.map (fun a => a.size)).sum_eq

/-- Removing the asteroid at index `i` lowers the aggregate size by its size. -/
theorem totalSize_eraseIdx {α : Type} (a : Asteroid α) :
    ∀ (l : List (Asteroid α)) (i : Nat), l[i]? = some a →
      totalSize (l.eraseIdx i) = totalSize l - a.size
  | [], _, h => by simp at h
  | b :: l, 0, h => by
    simp only [List.getElem?_cons_zero, Option.some.injEq] at h
    subst h
    simp [totalSize]
  | b :: l, i + 1, h => by
    simp only [List.getElem?_cons_succ] at h
    have ih := totalSize_eraseIdx a l i h
    simp only [totalSize, List.eraseIdx_cons_succ, List.map_cons, List.sum_cons] at ih ⊢
    rw [ih]
    ring

/-- The aggregate size after `splitAsteroid` on the asteroid at a valid index:
its size is taken away and, unless it is small, twice the next smaller size is
added. -/
theorem totalSize_splitAsteroid {α : Type} [LinearOrderedField α] (m : MathFns α)
    (w : World α) (i : Nat) (a : Asteroid α) (hi : w.gAsteroids[i]? = some a) :
    totalSize (splitAsteroid m i w).gAsteroids = totalSize w.gAsteroids - a.size +
      (if a.size = ASTEROIDSIZE_SMALL then 0
       else 2 * (if a.size = ASTEROIDSIZE_MEDIUM then ASTEROIDSIZE_SMALL
         else if a.size = ASTEROIDSIZE_LARGE then ASTEROIDSIZE_MEDIUM else a.size)) := by
  have hlt : i < w.gAsteroids.length := (List.getElem?_eq_some.mp hi).1
  by_cases hs : a.size = ASTEROIDSIZE_SMALL
  · rw [if_pos hs, splitAsteroid_small m w i a hi hs, totalSize_perm (destroyAsteroid_perm w i hlt),
      totalSize_eraseIdx a _ i hi, add_zero]
  · rw [if_neg hs, totalSize_perm (splitAsteroid_not_small_perm m w i a hi hs _ rfl)]
    simp only [totalSize, List.map_append, List.sum_append, List.map_cons, List.map_nil,
      List.sum_cons, List.sum_nil]
    have h := totalSize_eraseIdx a _ i hi
    simp only [totalSize] at h
    rw [h]
    show _ + ((if a.size = ASTEROIDSIZE_MEDIUM then ASTEROIDSIZE_SMALL
      else if a.size = ASTEROIDSIZE_LARGE then ASTEROIDSIZE_MEDIUM else a.size) +
      ((if a.size = ASTEROIDSIZE_MEDIUM then ASTEROIDSIZE_SMALL
      else if a.size = ASTEROIDSIZE_LARGE then ASTEROIDSIZE_MEDIUM else a.size) + 0)) = _
    ring

/-- C22, amended (aggregate size-units of a split): for every valid index `i`,
`splitAsteroid(i)` lowers the sum of the sizes by 10 when asteroid `i` is small
(it is only removed) or medium (30 is replaced by 10 + 10), and raises it by 10
when asteroid `i` is large (50 is replaced by 30 + 30). -/
theorem splitAsteroid_totalSize {α : Type} [LinearOrderedField α] (m : MathFns α)
    (w : World α) (i : Nat) (a : Asteroid α) (hi : w.gAsteroids[i]? = some a) :
    (a.size = ASTEROIDSIZE_SMALL →
      totalSize (splitAsteroid m i w).gAsteroids = totalSize w.gAsteroids - 10) ∧
    (a.size = ASTEROIDSIZE_MEDIUM →
      totalSize (splitAsteroid m i w).gAsteroids = totalSize w.gAsteroids - 10) ∧
    (a.size = ASTEROIDSIZE_LARGE →
      totalSize (splitAsteroid m i w).gAsteroids = totalSize w.gAsteroids + 10) := by
  have h := totalSize_splitAsteroid m w i a hi
  refine ⟨fun hs => ?_, fun hs => ?_, fun hs => ?_⟩ <;> rw [h, hs] <;>
    simp only [ASTEROIDSIZE_SMALL, ASTEROIDSIZE_MEDIUM, ASTEROIDSIZE_LARGE] <;> norm_num <;>
    ring

/-- C22 as stated fails: splitting the one large asteroid of a world raises
the sum of the sizes from 50 to 60. -/
theorem split_large_grows :
    totalSize (gameWorld [barAsteroid ⟨510, 512⟩]).gAsteroids = 50 ∧
    totalSize (splitAsteroid demoMath 0 (gameWorld [barAsteroid ⟨510, 512⟩])).gAsteroids = 60 := by
  decide!

/-- C22, amended, on the world with one large asteroid and on the two medium
asteroids its split leaves. -/
theorem splitAsteroid_totalSize_witness :
    totalSize (splitAsteroid demoMath 0 (gameWorld [barAsteroid ⟨510, 512⟩])).gAsteroids =
      totalSize (gameWorld [barAsteroid ⟨510, 512⟩]).gAsteroids + 10 :=
  (splitAsteroid_totalSize demoMath (gameWorld [barAsteroid ⟨510, 512⟩]) 0
    (barAsteroid ⟨510, 512⟩) rfl).2.2 rfl

end SizeUnits

section Explosions

/-- A fold whose step at `x` raises a counter by `c x` raises it by the sum. -/
theorem foldl_count {σ β : Type} (P : Nat → σ → Prop) (step : σ → β → σ) (c : β → Nat)
    (hstep : ∀ n s x, P n s → P (n + c x) (step s x)) :
    ∀ (l : List β) (n : Nat) (s : σ), P n s → P (n + (l.map c).sum) (l.foldl step s)
  | [], n, s, h => by simpa using h
  | x :: l, n, s, h => by
    have := foldl_count P step c hstep l (n + c x) (step s x) (hstep n s x h)
    simpa [Nat.add_assoc] using this

/-- One explosion adds ten particles to a burst. -/
theorem burst_explode {α : Type} [LinearOrderedField α] (m : MathFns α)
    (position : Vector2f α) (w s : World α) (n : Nat) (h : Burst position w n s) :
    Burst position w (n + 1) { explode m position s with gState := GameState_Lost } := by
  obtain ⟨l, h1, h2, h3⟩ := h
  obtain ⟨l', e1, e2, e3⟩ := explode_gParticles m position s
  refine ⟨l ++ l', ?_, ?_, ?_⟩
  · show (explode m position s).gParticles = _
    rw [e1, h1, List.append_assoc]
  · rw [List.length_append, h2, e2]
    ring
  · intro q hq
    rcases List.mem_append.mp hq with h | h
    · exact h3 q h
    · exact e3 q h

/-- The function `checkCollision` adds ten particles for every intersecting
pair of edges. -/
theorem checkCollision_burst {α : Type} [LinearOrderedField α] (m : MathFns α)
    (ship : Ship α) (a : Asteroid α) (w s : World α) (n : Nat)
    (h : Burst ship.position w n s) :
    Burst ship.position w (n + hitPairs ship a) (checkCollision m ship a s) := by
  unfold checkCollision hitPairs
  refine foldl_count (Burst ship.position w) _ _ ?_ _ n s h
  intro n s i hs
  refine foldl_count (Burst ship.position w) _ _ ?_ _ n s hs
  intro n s j hs
  dsimp only
  split_ifs
  · exact burst_explode m ship.position w s n hs
  · exact hs

/-- C25 (one explosion per intersecting edge pair): `checkCollisions` appends
exactly `10 * k` particles, all at the ship's position, where `k` is the number
of (asteroid, asteroid edge, ship edge) triples for which `linesIntersect` is
true; so with two such triples it adds 20 particles. -/
theorem checkCollisions_particles {α : Type} [LinearOrderedField α] (m : MathFns α)
    (ship : Ship α) (asteroids : List (Asteroid α)) (w : World α) :
    (∃ l : List (Projectile α),
      (checkCollisions m ship asteroids w).gParticles = w.gParticles ++ l ∧
      l.length = 10 * hitTriples ship asteroids ∧ ∀ q ∈ l, q.position = ship.position) ∧
    (hitTriples ship asteroids = 2 →
      (checkCollisions m ship asteroids w).gParticles.length = w.gParticles.length + 20) := by
  have h : Burst ship.position w (0 + hitTriples ship asteroids)
      (checkCollisions m ship asteroids w) := by
    unfold checkCollisions hitTriples
    refine foldl_count (Burst ship.position w) _ _ ?_ _ 0 w ⟨[], by simp, rfl, by simp⟩
    intro n s a hs
    exact checkCollision_burst m ship a w s n hs
  rw [Nat.zero_add] at h
  refine ⟨h, fun h2 => ?_⟩
  obtain ⟨l, e1, e2, -⟩ := h
  rw [e1, List.length_append, e2, h2]

/-- C25 on the fresh ship and the asteroid whose first edge crosses two of the
ship's edges: two triples, 20 particles. -/
theorem checkCollisions_particles_witness :
    hitTriples (createShip false : Ship ℚ) [spikeAsteroid] = 2 ∧
    (checkCollisions demoMath (createShip false) [spikeAsteroid]
      (gameWorld [spikeAsteroid])).gParticles.length =
      (gameWorld [spikeAsteroid]).gParticles.length + 20 := by
  have h : hitTriples (createShip false : Ship ℚ) [spikeAsteroid] = 2 := by decide!
  exact ⟨h, (checkCollisions_particles demoMath (createShip false) [spikeAsteroid]
    (gameWorld [spikeAsteroid])).2 h⟩

end Explosions

section ShipRotation

/-- The lines of the ship after `updateShip`: each end point is rotated by the
angle the tick adds. -/
theorem updateShip_lines {α : Type} [LinearOrderedField α] (m : MathFns α) (w : World α)
    (i : Fin N_SHIP_LINES) :
    (updateShip m w).gShip.lines i =
      { p1 := rotatePoint m
          (if w.gShip.turnRight then
            (if w.gShip.turnLeft then (0 : α) - SHIP_ANGULARSPEED else 0) + SHIP_ANGULARSPEED
           else (if w.gShip.turnLeft then (0 : α) - SHIP_ANGULARSPEED else 0))
          (w.gShip.lines i).p1
        p2 := rotatePoint m
          (if w.gShip.turnRight then
            (if w.gShip.turnLeft then (0 : α) - SHIP_ANGULARSPEED else 0) + SHIP_ANGULARSPEED
           else (if w.gShip.turnLeft then (0 : α) - SHIP_ANGULARSPEED else 0))
          (w.gShip.lines i).p2 } := by
  unfold updateShip
  lift_lets
  extract_lets s0 s1 s2 a0 a1 a2 t1 t2 u1 u2 v1 u3 v2 u4 s3 s4 w1 s5 s6 s7
  have e3 : s3.lines = s0.lines := by
    by_cases hth : s2.thrusting = true
    · simp only [s3, if_pos hth]
      have ht1 : t1.lines = s0.lines := by
        simp only [t1]
        split_ifs <;> rfl
      simp only [t2]
      split_ifs
      · exact ht1
      · exact ht1
    · simp only [s3, if_neg hth]
      have hu3 : u3.lines = s0.lines := by
        simp only [u3]
        split_ifs <;> rfl
      simp only [u4]
      split_ifs
      · exact hu3
      · exact hu3
  have e5 : s5.lines = s0.lines := by
    simp only [s5]
    split_ifs
    · exact e3
    · exact e3
  have e6 : s6.lines = s0.lines := by
    simp only [s6]
    split_ifs
    · exact e5
    · exact e5
  show ({ p1 := { x := (s6.lines i).p1.x * m.cos a2 - (s6.lines i).p1.y * m.sin a2
                  y := (s6.lines i).p1.x * m.sin a2 + (s6.lines i).p1.y * m.cos a2 }
          p2 := { x := (s6.lines i).p2.x * m.cos a2 - (s6.lines i).p2.y * m.sin a2
                  y := (s6.lines i).p2.x * m.sin a2 + (s6.lines i).p2.y * m.cos a2 } } : Line α) = _
  rw [e6]
  rfl

/-- Rotating by `θ` and then by `δ` is rotating by `θ + δ`, by the addition
formulas. -/
theorem rotatePoint_add {α : Type} [LinearOrderedField α] (m : MathFns α)
    (hcadd : ∀ a b : α, m.cos (a + b) = m.cos a * m.cos b - m.sin a * m.sin b)
    (hsadd : ∀ a b : α, m.sin (a + b) = m.sin a * m.cos b + m.cos a * m.sin b)
    (θ δ : α) (p : Vector2f α) :
    rotatePoint m δ (rotatePoint m θ p) = rotatePoint m (θ + δ) p := by
  simp only [rotatePoint, hcadd, hsadd]
  congr 1 <;> ring

/-- Rotating by 0 changes nothing. -/
theorem rotatePoint_zero {α : Type} [LinearOrderedField α] (m : MathFns α)
    (hc0 : m.cos 0 = 1) (hs0 : m.sin 0 = 0) (p : Vector2f α) : rotatePoint m 0 p = p := by
  simp only [rotatePoint, hc0, hs0, mul_one, mul_zero, sub_zero, zero_add]

/-- The ship of `createShip` has the base triangle at angle 0. -/
theorem shipShape_createShip {α : Type} [LinearOrderedField α] (m : MathFns α)
    (hc0 : m.cos 0 = 1) (hs0 : m.sin 0 = 0) (shooting : Bool) :
    ShipShape m (createShip shooting : Ship α) := by
  intro i
  show (createShip false : Ship α).lines i = _
  have h0 : (createShip shooting : Ship α).angle = 0 := rfl
  rw [h0, rotatePoint_zero m hc0 hs0, rotatePoint_zero m hc0 hs0]

/-- The function `updateShip` keeps the lines equal to the base triangle
rotated by the angle. -/
theorem shipShape_updateShip {α : Type} [LinearOrderedField α] (m : MathFns α)
    (hcadd : ∀ a b : α, m.cos (a + b) = m.cos a * m.cos b - m.sin a * m.sin b)
    (hsadd : ∀ a b : α, m.sin (a + b) = m.sin a * m.cos b + m.cos a * m.sin b)
    (w : World α) (h : ShipShape m w.gShip) : ShipShape m (updateShip m w).gShip := by
  intro i
  rw [updateShip_lines m w i, (updateShip_fields m w).2.1, h i,
    rotatePoint_add m hcadd hsadd, rotatePoint_add m hcadd hsadd]

/-- The ship after a tick is the ship before it or the one `updateShip` makes
of it. -/
theorem update_gShip_cases {α : Type} [LinearOrderedField α] (m : MathFns α) (w : World α) :
    (update m w).gShip = w.gShip ∨
    (update m w).gShip = (updateShip m (updateEntities m w)).gShip := by
  rw [update_gShip]
  have hcw : ∀ v : World α, (checkWin v).gShip = v.gShip := by
    intro v
    unfold checkWin
    split_ifs <;> rfl
  cases hs : w.gState with
  | GameState_Game =>
    right
    rw [updateBody_game m w hs, hcw]
    exact checkCollisions_keep m _ _
      (fun v : World α => v.gShip = (updateShip m (updateEntities m w)).gShip)
      (fun _ hv => hv) _ rfl
  | GameState_Lost =>
    left
    rw [updateBody_lost m w hs]
    rfl
  | GameState_Won =>
    right
    rw [updateBody_won m w hs]

/-- A handled event leaves the ship's lines and angle alone or replaces the
ship by a fresh one. -/
theorem handleEvent_gShip_cases {α : Type} [LinearOrderedField α] (m : MathFns α) (env : Env)
    (event : Event) (w : World α) :
    ((handleEvent m env event w).gShip.lines = w.gShip.lines ∧
      (handleEvent m env event w).gShip.angle = w.gShip.angle) ∨
    (handleEvent m env event w).gShip = createShip env.shooting := by
  cases event with
  | SDL_QUIT => left; exact ⟨rfl, rfl⟩
  | other => left; exact ⟨rfl, rfl⟩
  | SDL_KEYUP k => cases k <;> (left; exact ⟨rfl, rfl⟩)
  | SDL_KEYDOWN k =>
    cases k with
    | SDLK_RETURN =>
      simp only [handleEvent]
      split_ifs
      · right; rfl
      · left; exact ⟨rfl, rfl⟩
    | SDLK_LEFT => left; exact ⟨rfl, rfl⟩
    | SDLK_RIGHT => left; exact ⟨rfl, rfl⟩
    | SDLK_UP => left; exact ⟨rfl, rfl⟩
    | SDLK_SPACE => left; exact ⟨rfl, rfl⟩
    | other => left; exact ⟨rfl, rfl⟩

/-- C24 (incremental rotation agrees with absolute rotation): with a cosine and
sine that satisfy `cos 0 = 1`, `sin 0 = 0` and the addition formulas (exact
real arithmetic), the ship of `createShip` has the base triangle rotated by
its angle as its lines, `updateShip` keeps that under any flags, so it holds
in every world the main loop reaches; and with `turnLeft` and `turnRight`
both held a tick of `updateShip` changes neither the angle nor the lines. -/
theorem ship_rotation {α : Type} [LinearOrderedField α] (m : MathFns α)
    (hc0 : m.cos 0 = 1) (hs0 : m.sin 0 = 0)
    (hcadd : ∀ a b : α, m.cos (a + b) = m.cos a * m.cos b - m.sin a * m.sin b)
    (hsadd : ∀ a b : α, m.sin (a + b) = m.sin a * m.cos b + m.cos a * m.sin b) :
    (∀ shooting : Bool, ShipShape m (createShip shooting : Ship α)) ∧
    (∀ w : World α, ShipShape m w.gShip → ShipShape m (updateShip m w).gShip) ∧
    (∀ w : World α, Reachable m w → ShipShape m w.gShip) ∧
    (∀ w : World α, w.gShip.turnLeft = true → w.gShip.turnRight = true →
      (updateShip m w).gShip.angle = w.gShip.angle ∧
      (updateShip m w).gShip.lines = w.gShip.lines) := by
  refine ⟨shipShape_createShip m hc0 hs0, shipShape_updateShip m hcadd hsadd, ?_, ?_⟩
  · intro w hw
    induction hw with
    | start env => exact shipShape_createShip m hc0 hs0 env.shooting
    | @tick w _ ih =>
      rcases update_gShip_cases m w with h | h
      · rw [h]
        exact ih
      · rw [h]
        exact shipShape_updateShip m hcadd hsadd (updateEntities m w) ih
    | @event w env event _ ih =>
      rcases handleEvent_gShip_cases m env event w with ⟨h1, h2⟩ | h
      · intro i
        rw [h1, h2]
        exact ih i
      · rw [h]
        exact shipShape_createShip m hc0 hs0 env.shooting
  · intro w hl hr
    have hδ : (if w.gShip.turnRight = true then
        (if w.gShip.turnLeft = true then (0 : α) - SHIP_ANGULARSPEED else 0) + SHIP_ANGULARSPEED
        else (if w.gShip.turnLeft = true then (0 : α) - SHIP_ANGULARSPEED else 0)) = 0 := by
      rw [if_pos hr, if_pos hl, sub_add_cancel]
    constructor
    · rw [(updateShip_fields m w).2.1, hδ, add_zero]
    · funext i
      rw [updateShip_lines m w i, hδ, rotatePoint_zero m hc0 hs0, rotatePoint_zero m hc0 hs0]

/-- C24 with the real cosine and sine: after the left key goes down and a tick
runs, the ship's lines are the base triangle rotated by its angle. -/
theorem ship_rotation_witness :
    ShipShape (⟨Real.cos, Real.sin, Real.sqrt, Real.pi⟩ : MathFns ℝ)
      (update (⟨Real.cos, Real.sin, Real.sqrt, Real.pi⟩ : MathFns ℝ)
        (handleEvent (⟨Real.cos, Real.sin, Real.sqrt, Real.pi⟩ : MathFns ℝ) demoEnv
          (Event.SDL_KEYDOWN Key.SDLK_LEFT)
          (startWorld (⟨Real.cos, Real.sin, Real.sqrt, Real.pi⟩ : MathFns ℝ) demoEnv))).gShip :=
  (ship_rotation (⟨Real.cos, Real.sin, Real.sqrt, Real.pi⟩ : MathFns ℝ) Real.cos_zero
    Real.sin_zero Real.cos_add Real.sin_add).2.2.1 _
    (Reachable.tick (Reachable.event demoEnv (Event.SDL_KEYDOWN Key.SDLK_LEFT)
      (Reachable.start demoEnv)))

end ShipRotation

section AsteroidShape

/-- The asteroid of `createAsteroid` has the pentagon of radius `size`. -/
theorem pentagonShape_createAsteroid {α : Type} [LinearOrderedField α] (m : MathFns α)
    (size : AsteroidSize) (g : Nat → Nat) :
    PentagonShape m (size : α) (createAsteroid m size g).1 := by
  intro i
  simp only [createAsteroid]
  push_cast
  simp only [add_zero]

/-- The radius that `updateAsteroid` derives from the first vertex of a
pentagon of radius `r ≥ 0` is `r`. -/
theorem pentagon_radius {α : Type} [LinearOrderedField α] (m : MathFns α)
    (hcs : ∀ x : α, m.cos x ^ 2 + m.sin x ^ 2 = 1)
    (hsqrt : ∀ x : α, 0 ≤ x → m.sqrt (x ^ 2) = x)
    (r : α) (hr : 0 ≤ r) (a : Asteroid α) (h : PentagonShape m r a) :
    distance m { x := 0, y := 0 } (a.shape.lines ⟨0, by decide⟩).p1 = r := by
  unfold distance
  rw [h ⟨0, by decide⟩]
  simp only
  have e : ∀ φ : α, (0 - r * m.cos φ) ^ 2 + (0 - r * m.sin φ) ^ 2 = r ^ 2 := by
    intro φ
    linear_combination r ^ 2 * hcs φ
  rw [e, hsqrt r hr]

/-- The function `updateAsteroid` keeps the pentagon of radius `r`. -/
theorem pentagonShape_updateAsteroid {α : Type} [LinearOrderedField α] (m : MathFns α)
    (hcs : ∀ x : α, m.cos x ^ 2 + m.sin x ^ 2 = 1)
    (hsqrt : ∀ x : α, 0 ≤ x → m.sqrt (x ^ 2) = x)
    (r : α) (hr : 0 ≤ r) (a : Asteroid α) (h : PentagonShape m r a) :
    PentagonShape m r (updateAsteroid m a) := by
  have hrad := pentagon_radius m hcs hsqrt r hr a h
  intro i
  simp only [updateAsteroid]
  rw [hrad]
  push_cast
  rfl

/-- The edges of a pentagon shape form a closed boundary: every edge ends
where the next begins, the last where the first begins. -/
theorem pentagon_closed {α : Type} [LinearOrderedField α] (m : MathFns α)
    (hcper : ∀ x : α, m.cos (x + 2 * m.pi) = m.cos x)
    (hsper : ∀ x : α, m.sin (x + 2 * m.pi) = m.sin x)
    (r : α) (a : Asteroid α) (h : PentagonShape m r a) (i j : Fin N_LINES)
    (hij : j.val = (i.val + 1) % N_LINES) :
    (a.shape.lines i).p2 = (a.shape.lines j).p1 := by
  rw [h i, h j]
  simp only
  have hij5 : j.val = (i.val + 1) % 5 := hij
  have hlt : i.val < 5 := i.isLt
  by_cases hi : i.val + 1 < 5
  · have hj : j.val = i.val + 1 := by omega
    have e : 2 * m.pi / 5 * (((j : Nat) : α) - 1) + a.angle =
        2 * m.pi / 5 * ((i : Nat) : α) + a.angle := by
      rw [hj]
      push_cast
      ring
    rw [e]
  · have hi4 : i.val = 4 := by omega
    have hj : j.val = 0 := by omega
    have e : 2 * m.pi / 5 * ((i : Nat) : α) + a.angle =
        2 * m.pi / 5 * (((j : Nat) : α) - 1) + a.angle + 2 * m.pi := by
      rw [hi4, hj]
      push_cast
      ring
    rw [e, hcper, hsper]

/-- C23 (asteroid shape invariant): with a cosine and sine that satisfy
`cos² + sin² = 1` and have period `2 π`, and an exact square root, every
asteroid obtained from `createAsteroid(size)` with size 10, 30 or 50 by any
number of `updateAsteroid` calls has the regular pentagon of radius `size` at
its current angle as its shape, every edge ends where the next begins (edge 4
where edge 0 begins), and the radius derived from the first stored vertex is
`size`. -/
theorem asteroid_shape_invariant {α : Type} [LinearOrderedField α] (m : MathFns α)
    (hcs : ∀ x : α, m.cos x ^ 2 + m.sin x ^ 2 = 1)
    (hsqrt : ∀ x : α, 0 ≤ x → m.sqrt (x ^ 2) = x)
    (hcper : ∀ x : α, m.cos (x + 2 * m.pi) = m.cos x)
    (hsper : ∀ x : α, m.sin (x + 2 * m.pi) = m.sin x)
    (size : AsteroidSize)
    (hsize : size = ASTEROIDSIZE_SMALL ∨ size = ASTEROIDSIZE_MEDIUM ∨ size = ASTEROIDSIZE_LARGE)
    (g : Nat → Nat) (n : Nat) :
    PentagonShape m (size : α) ((updateAsteroid m)^[n] (createAsteroid m size g).1) ∧
    (∀ i j : Fin N_LINES, j.val = (i.val + 1) % N_LINES →
      (((updateAsteroid m)^[n] (createAsteroid m size g).1).shape.lines i).p2 =
      (((updateAsteroid m)^[n] (createAsteroid m size g).1).shape.lines j).p1) ∧
    distance m { x := 0, y := 0 }
      (((updateAsteroid m)^[n] (createAsteroid m size g).1).shape.lines ⟨0, by decide⟩).p1 =
      (size : α) := by
  have hr : (0 : α) ≤ (size : α) := by
    rcases hsize with h | h | h <;> rw [h] <;>
      norm_num [ASTEROIDSIZE_SMALL, ASTEROIDSIZE_MEDIUM, ASTEROIDSIZE_LARGE]
  have hshape : PentagonShape m (size : α)
      ((updateAsteroid m)^[n] (createAsteroid m size g).1) := by
    induction n with
    | zero => exact pentagonShape_createAsteroid m size g
    | succ n ih =>
      rw [Function.iterate_succ_apply']
      exact pentagonShape_updateAsteroid m hcs hsqrt _ hr _ ih
  exact ⟨hshape, pentagon_closed m hcper hsper _ _ hshape,
    pentagon_radius m hcs hsqrt _ hr _ hshape⟩

/-- C23 with the real cosine, sine and square root, for a small asteroid after
three ticks: the radius derived from its first vertex is 10. -/
theorem asteroid_shape_invariant_witness :
    distance (⟨Real.cos, Real.sin, Real.sqrt, Real.pi⟩ : MathFns ℝ) { x := 0, y := 0 }
      (((updateAsteroid (⟨Real.cos, Real.sin, Real.sqrt, Real.pi⟩ : MathFns ℝ))^[3]
        (createAsteroid (⟨Real.cos, Real.sin, Real.sqrt, Real.pi⟩ : MathFns ℝ)
          ASTEROIDSIZE_SMALL demoSeq).1).shape.lines ⟨0, by decide⟩).p1 =
      ((ASTEROIDSIZE_SMALL : Int) : ℝ) :=
  (asteroid_shape_invariant (⟨Real.cos, Real.sin, Real.sqrt, Real.pi⟩ : MathFns ℝ)
    Real.cos_sq_add_sin_sq (fun _ hx => Real.sqrt_sq hx) Real.cos_add_two_pi
    Real.sin_add_two_pi ASTEROIDSIZE_SMALL (Or.inl rfl) demoSeq 3).2.2

end AsteroidShape

end Asteroids
